import Mathlib

/-!
# ign-gui: plugin widgets

A shallow embedding of

* `src/plugins/Scene3D.cc`: `TextureNode` (the id/size handoff between the render
  thread and the scene-graph thread), `RenderThread`, `IgnRenderer`,
  `RenderWindowItem`, and `SceneManager` (scene snapshot loading and pose updates);
* `src/plugins/screenshot/Screenshot.cc`: the screenshot request flag and the search
  for the user camera;
* `src/plugins/Grid.cc`: the configuration read by `Grid::Initialize`;
* `src/CollapsibleWidget.cc`: `Toggle` and `IsExpanded`.

Qt, tinyxml2, ign-rendering, ign-transport and ign-math are external collaborators.
Their objects are represented by the part of their state that the code of
this repository reads or writes.
-/

namespace Ignition.Gui

/-! ## Qt value types -/

/-- Value of a `QSize`: integer width and height. -/
structure QSize where
  wd : Int
  ht : Int
deriving DecidableEq, Repr

/-- The `QQuickWindow::CreateTextureOptions` values used by this file. -/
inductive CreateTextureOption where
  | noOptions
  | TextureIsOpaque
deriving DecidableEq, Repr

/-- The object returned by `QQuickWindow::createTextureFromId(id, size, options)`. -/
structure QSGTexture where
  glId : Int
  size : QSize
  options : CreateTextureOption
deriving DecidableEq, Repr

/-- Value of `QQuickWindow::createTextureFromId`. -/
def createTextureFromId (glId : Int) (size : QSize)
    (options : CreateTextureOption) : QSGTexture :=
  { glId := glId, size := size, options := options }

/-- Signals declared by `TextureNode`. -/
inductive TextureNodeSignal where
  | PendingNewTexture
  | TextureInUse
deriving DecidableEq, Repr

/-! ## TextureNode -/

/-- State of a `TextureNode`: the pending `id` and `size` written by the render
thread, the texture owned by the node (`texture`), the texture installed with
`setTexture` (`nodeTexture`) and whether `markDirty(DirtyMaterial)` was called. -/
structure TextureNode where
  id : Int
  size : QSize
  texture : QSGTexture
  nodeTexture : QSGTexture
  dirtyMaterial : Bool
deriving DecidableEq, Repr

namespace TextureNode

/-- Body of `TextureNode::TextureNode(QQuickWindow *)` for given in-class
initial values `id0`, `size0` of the members `id` and `size`. -/
def ctor (id0 : Int) (size0 : QSize) : TextureNode :=
  let t := createTextureFromId 0 ⟨1, 1⟩ CreateTextureOption.noOptions
  { id := id0, size := size0, texture := t, nodeTexture := t, dirtyMaterial := false }

/-- The method `TextureNode::NewTexture(int _id, const QSize &_size)`: returns the new
state and the signals emitted. -/
def NewTexture (n : TextureNode) (_id : Int) (_size : QSize) :
    TextureNode × List TextureNodeSignal :=
  ({ n with id := _id, size := _size }, [TextureNodeSignal.PendingNewTexture])

/-- The method `TextureNode::PrepareNode()`: returns the new state and the signals
emitted. -/
def PrepareNode (n : TextureNode) : TextureNode × List TextureNodeSignal :=
  let newId := n.id
  let sz := n.size
  let n1 := { n with id := 0 }
  if newId ≠ 0 then
    let t := createTextureFromId newId sz CreateTextureOption.TextureIsOpaque
    ({ n1 with texture := t, nodeTexture := t, dirtyMaterial := true },
      [TextureNodeSignal.TextureInUse])
  else
    (n1, [])

/-- A sequence of `NewTexture` calls, in order, with the signals of all calls. -/
def NewTextures (n : TextureNode) :
    List (Int × QSize) → TextureNode × List TextureNodeSignal
  | [] => (n, [])
  | (i, s) :: rest =>
    let r := n.NewTexture i s
    let r2 := NewTextures r.1 rest
    (r2.1, r.2 ++ r2.2)

end TextureNode

/-! ## std::map -/

/-- Contents of a `std::map<unsigned int, V>`: the entries in ascending key order. -/
abbrev StdMap (V : Type) := List (Nat × V)

namespace StdMap

/-- Ascending, duplicate-free keys: the representation invariant of `std::map`. -/
def WF {V : Type} (m : StdMap V) : Prop := (m.map Prod.fst).Pairwise (· < ·)

instance {V : Type} (m : StdMap V) : Decidable (WF m) := by
  unfold WF; infer_instance

/-- Keys of the map, in iteration order. -/
def keys {V : Type} (m : StdMap V) : List Nat := m.map Prod.fst

/-- Value of `m.find(k)`: `none` stands for `m.end()`. -/
def find {V : Type} : StdMap V → Nat → Option V
  | [], _ => none
  | (k1, v1) :: rest, k => if k = k1 then some v1 else find rest k

/-- Effect of `m[k] = v`. -/
def assign {V : Type} : StdMap V → Nat → V → StdMap V
  | [], k, v => [(k, v)]
  | (k1, v1) :: rest, k, v =>
    if k < k1 then (k, v) :: (k1, v1) :: rest
    else if k = k1 then (k, v) :: rest
    else (k1, v1) :: assign rest k v

/-- Effect of erasing the entry with key `k`. -/
def erase {V : Type} (m : StdMap V) (k : Nat) : StdMap V := m.filter (fun e => e.1 ≠ k)

end StdMap

/-! ## ign-math values and ign-msgs messages -/

/-- Value of a `math::Vector3d`. -/
structure Vector3 (R : Type) where
  x : R
  y : R
  z : R
deriving DecidableEq, Repr

/-- Value of a `math::Vector2d`. -/
structure Vector2 (R : Type) where
  x : R
  y : R
deriving DecidableEq, Repr

/-- Value of a `math::Color`. -/
structure Color (R : Type) where
  r : R
  g : R
  b : R
  a : R
deriving DecidableEq, Repr

/-- The operations of ign-math used by the scene manager, over the scalar type `R`
(C++ `double`) and the pose type `P` (`math::Pose3d`). -/
class IgnMath (R P : Type) where
  /-- The `double` denoted by the decimal literal `m * 10^(-e)`. -/
  lit : Nat → Nat → R
  /-- Multiplication of `double`s. -/
  mul : R → R → R
  /-- Default-constructed `math::Pose3d`. -/
  poseCtor : P
  /-- The constant `math::Pose3d::Zero`. -/
  poseZero : P
  /-- The product `math::Pose3d::operator*`. -/
  poseMul : P → P → P
  /-- The pose after `pose.Rot().From2Axes(math::Vector3d::UnitZ, normal.Normalized())`. -/
  rotFrom2Axes : P → Vector3 R → P

/-- The constant `math::Vector3d::One`. -/
def Vector3.One (R P : Type) [IgnMath R P] : Vector3 R :=
  ⟨IgnMath.lit P 1 0, IgnMath.lit P 1 0, IgnMath.lit P 1 0⟩

namespace msgs

/-- Values of `msgs::Light::LightType`; `other` stands for any value that is not one of
the three named enumerators. -/
inductive LightType where
  | POINT
  | SPOT
  | DIRECTIONAL
  | other
deriving DecidableEq, Repr

/-- Fields of `msgs::Light` read by `LoadLight`; an optional field is `none` when its
`has_` accessor is false. -/
structure Light (R P : Type) where
  id : Nat
  name : String
  type : LightType
  pose : Option P
  diffuse : Option (Color R)
  specular : Option (Color R)
  attenuation_constant : R
  attenuation_linear : R
  attenuation_quadratic : R
  range : R
  cast_shadows : Bool
  direction : Option (Vector3 R)
  spot_inner_angle : R
  spot_outer_angle : R
  spot_falloff : R

/-- Fields of `msgs::Material` read by `LoadMaterial`. -/
structure Material (R : Type) where
  ambient : Option (Color R)
  diffuse : Option (Color R)
  specular : Option (Color R)
  emissive : Option (Color R)

/-- Fields of `msgs::BoxGeom`. -/
structure BoxGeom (R : Type) where
  size : Option (Vector3 R)

/-- Fields of `msgs::CylinderGeom`. -/
structure CylinderGeom (R : Type) where
  radius : R
  length : R

/-- Fields of `msgs::PlaneGeom`. -/
structure PlaneGeom (R : Type) where
  size : Option (Vector2 R)
  normal : Option (Vector3 R)

/-- Fields of `msgs::SphereGeom`. -/
structure SphereGeom (R : Type) where
  radius : R

/-- Fields of `msgs::MeshGeom`. -/
structure MeshGeom where
  filename : String

/-- Fields of `msgs::Geometry` read by `LoadGeometry`. -/
structure Geometry (R : Type) where
  box : Option (BoxGeom R)
  cylinder : Option (CylinderGeom R)
  plane : Option (PlaneGeom R)
  sphere : Option (SphereGeom R)
  mesh : Option MeshGeom

/-- Fields of `msgs::Visual` read by `LoadVisual`. -/
structure Visual (R P : Type) where
  id : Nat
  name : String
  pose : Option P
  geometry : Option (Geometry R)
  material : Option (Material R)
  transparency : R

/-- Fields of `msgs::Link` read by `LoadLink`. -/
structure Link (R P : Type) where
  id : Nat
  name : String
  pose : Option P
  visual : List (Visual R P)
  light : List (Light R P)

/-- Fields of `msgs::Model` read by `LoadModel`; `model` holds the nested models. -/
inductive Model (R P : Type) where
  | mk (id : Nat) (name : String) (pose : Option P) (link : List (Link R P))
      (model : List (Model R P))

/-- Fields of `msgs::Scene` read by `LoadScene`. -/
structure Scene (R P : Type) where
  model : List (Model R P)
  light : List (Light R P)

/-- One element of a `msgs::Pose_V`: a pose with the id of its entity. -/
structure Pose (P : Type) where
  id : Nat
  pose : P

/-- Fields of `msgs::Pose_V`. -/
structure Pose_V (P : Type) where
  pose : List (Pose P)

end msgs

/-! ## ign-rendering objects -/

namespace rendering

/-- Reference to a node of the scene graph that can be passed to `AddChild`. -/
inductive NodeRef where
  | visual (h : Nat)
  | light (h : Nat)
  | camera
deriving DecidableEq, Repr

/-- State of a `rendering::Material`; `none` means that the setter has not been
called on the object. -/
structure Material (R : Type) where
  name : Option String
  ambient : Option (Color R)
  diffuse : Option (Color R)
  specular : Option (Color R)
  emissive : Option (Color R)
  transparency : Option R

/-- Kind of a `rendering::Geometry`, by the `Create...` call that made it. -/
inductive GeometryKind where
  | box
  | cylinder
  | plane
  | sphere
  | mesh (meshName : String)
deriving DecidableEq, Repr

/-- State of a `rendering::Geometry`: its kind and the material handle set with
`SetMaterial`. -/
structure Geometry where
  kind : GeometryKind
  material : Option Nat
deriving DecidableEq, Repr

/-- State of a `rendering::Visual`; `none` means that the setter has not been called
on the object. -/
structure Visual (R P : Type) where
  localPose : Option P
  localScale : Option (Vector3 R)
  geometries : List Nat
  children : List NodeRef

/-- Kind of a `rendering::Light`, by the `Create...Light` call that made it. -/
inductive LightKind where
  | point
  | spot
  | directional
deriving DecidableEq, Repr

/-- State of a `rendering::Light`; `none` means that the setter has not been called on
the object. -/
structure Light (R P : Type) where
  kind : LightKind
  localPose : Option P
  innerAngle : Option R
  outerAngle : Option R
  falloff : Option R
  direction : Option (Vector3 R)
  diffuseColor : Option (Color R)
  specularColor : Option (Color R)
  attenuationConstant : Option R
  attenuationLinear : Option R
  attenuationQuadratic : Option R
  attenuationRange : Option R
  castShadows : Option Bool

/-- State of a `rendering::Scene`, as an object store: a `VisualPtr`, `LightPtr`,
`GeometryPtr` or `MaterialPtr` is the index of its object in the corresponding list
(a handle); every `Create...` call appends a new object. -/
structure Scene (R P : Type) where
  visuals : List (Visual R P)
  lights : List (Light R P)
  geometries : List Geometry
  materials : List (Material R)
  rootChildren : List NodeRef
  ambientLight : Option (Color R)
  backgroundColor : Option (Color R)

namespace Scene

variable {R P : Type}

/-- A scene without objects. -/
def empty : Scene R P :=
  { visuals := [], lights := [], geometries := [], materials := [], rootChildren := [],
    ambientLight := none, backgroundColor := none }

/-- The call `scene->CreateVisual()`: the new handle and the scene. -/
def CreateVisual (sc : Scene R P) : Nat × Scene R P :=
  (sc.visuals.length,
    { sc with visuals := sc.visuals ++
        [{ localPose := none, localScale := none, geometries := [], children := [] }] })

/-- The calls `scene->CreatePointLight()`, `CreateSpotLight()`, `CreateDirectionalLight()`. -/
def CreateLight (sc : Scene R P) (kind : LightKind) : Nat × Scene R P :=
  (sc.lights.length,
    { sc with lights := sc.lights ++
        [{ kind := kind, localPose := none, innerAngle := none, outerAngle := none,
           falloff := none, direction := none, diffuseColor := none,
           specularColor := none, attenuationConstant := none,
           attenuationLinear := none, attenuationQuadratic := none,
           attenuationRange := none, castShadows := none }] })

/-- The calls `scene->CreateBox()`, `CreateCylinder()`, `CreatePlane()`, `CreateSphere()`,
`CreateMesh(descriptor)`. -/
def CreateGeometry (sc : Scene R P) (kind : GeometryKind) : Nat × Scene R P :=
  (sc.geometries.length,
    { sc with geometries := sc.geometries ++ [{ kind := kind, material := none }] })

/-- The calls `scene->CreateMaterial()` and `scene->CreateMaterial(name)`. -/
def CreateMaterial (sc : Scene R P) (name : Option String) : Nat × Scene R P :=
  (sc.materials.length,
    { sc with materials := sc.materials ++
        [{ name := name, ambient := none, diffuse := none, specular := none,
           emissive := none, transparency := none }] })

/-- The call `scene->Material(name)`: the handle of the first material registered under
the name, `none` for a null pointer. -/
def Material (sc : Scene R P) (name : String) : Option Nat :=
  let i := sc.materials.findIdx (fun m => m.name = some name)
  if i < sc.materials.length then some i else none

/-- Apply `f` to the object at handle `h` of a store. -/
def modifyAt {α : Type} (l : List α) (h : Nat) (f : α → α) : List α :=
  match l[h]? with
  | some a => l.set h (f a)
  | none => l

/-- Apply `f` to the visual with handle `h`. -/
def modifyVisual (sc : Scene R P) (h : Nat) (f : Visual R P → Visual R P) : Scene R P :=
  { sc with visuals := modifyAt sc.visuals h f }

/-- Apply `f` to the light with handle `h`. -/
def modifyLight (sc : Scene R P) (h : Nat) (f : Light R P → Light R P) : Scene R P :=
  { sc with lights := modifyAt sc.lights h f }

/-- Apply `f` to the material with handle `h`. -/
def modifyMaterial (sc : Scene R P) (h : Nat) (f : rendering.Material R → rendering.Material R) :
    Scene R P :=
  { sc with materials := modifyAt sc.materials h f }

/-- The call `visual->SetLocalPose(p)` on the visual with handle `h`. -/
def SetVisualLocalPose (sc : Scene R P) (h : Nat) (p : P) : Scene R P :=
  sc.modifyVisual h (fun v => { v with localPose := some p })

/-- The call `light->SetLocalPose(p)` on the light with handle `h`. -/
def SetLightLocalPose (sc : Scene R P) (h : Nat) (p : P) : Scene R P :=
  sc.modifyLight h (fun l => { l with localPose := some p })

/-- The call `visual->AddChild(child)` on the visual with handle `h`. -/
def AddChild (sc : Scene R P) (h : Nat) (child : NodeRef) : Scene R P :=
  sc.modifyVisual h (fun v => { v with children := v.children ++ [child] })

/-- The call `scene->RootVisual()->AddChild(child)`. -/
def AddRootChild (sc : Scene R P) (child : NodeRef) : Scene R P :=
  { sc with rootChildren := sc.rootChildren ++ [child] }

/-- Local pose of the visual with handle `h`: `none` when the handle is not in the
store or `SetLocalPose` was never called on the object. -/
def visualLocalPose (sc : Scene R P) (h : Nat) : Option P :=
  match sc.visuals[h]? with
  | some v => v.localPose
  | none => none

/-- Local pose of the light with handle `h`. -/
def lightLocalPose (sc : Scene R P) (h : Nat) : Option P :=
  match sc.lights[h]? with
  | some l => l.localPose
  | none => none

end Scene

end rendering

/-! ## SceneManager -/

/-- State of the `ignition::transport::Node` owned by the scene manager: the topics on
which `OnPoseVMsg` is subscribed. -/
structure TransportNode where
  subscriptions : List String
deriving DecidableEq, Repr

/-- State of a `SceneManager`: its data members, with the rendering scene reached
through the member `scene`. -/
structure SceneManager (R P : Type) where
  service : String
  poseTopic : String
  scene : rendering.Scene R P
  poses : StdMap P
  localPoses : StdMap P
  visuals : StdMap Nat
  lights : StdMap Nat
  node : TransportNode

namespace SceneManager

variable {R P : Type} [IgnMath R P]

/-- The data members of a scene manager other than the rendering scene. -/
def data (m : SceneManager R P) :
    String × String × StdMap P × StdMap P × StdMap Nat × StdMap Nat × TransportNode :=
  (m.service, m.poseTopic, m.poses, m.localPoses, m.visuals, m.lights, m.node)

/-- The method `SceneManager::Load`. -/
def Load (m : SceneManager R P) (_service _poseTopic : String) (_scene : rendering.Scene R P) :
    SceneManager R P :=
  { m with service := _service, poseTopic := _poseTopic, scene := _scene }

/-- One iteration of the loop of `SceneManager::OnPoseVMsg`. -/
def OnPoseVMsg.body (m : SceneManager R P) (e : msgs.Pose P) : SceneManager R P :=
  let pose := e.pose
  let pose := match StdMap.find m.localPoses e.id with
    | some l => IgnMath.poseMul R pose l
    | none => pose
  { m with poses := StdMap.assign m.poses e.id pose }

/-- The method `SceneManager::OnPoseVMsg`. -/
def OnPoseVMsg (m : SceneManager R P) (_msg : msgs.Pose_V P) : SceneManager R P :=
  _msg.pose.foldl OnPoseVMsg.body m

/-- One iteration of the loop of `SceneManager::Update`, at the entry `(id, pose)` the
iterator `pIt` points to. -/
def Update.body (m : SceneManager R P) (e : Nat × P) : SceneManager R P :=
  match StdMap.find m.visuals e.1 with
  | some v =>
    { m with scene := m.scene.SetVisualLocalPose v e.2, poses := StdMap.erase m.poses e.1 }
  | none =>
    match StdMap.find m.lights e.1 with
    | some l =>
      { m with scene := m.scene.SetLightLocalPose l e.2, poses := StdMap.erase m.poses e.1 }
    | none => m

/-- The method `SceneManager::Update`: the loop visits the entries of `poses` in key order
(erasing the visited entry does not change the entries still to be visited), then
`poses` is cleared. -/
def Update (m : SceneManager R P) : SceneManager R P :=
  let m1 := m.poses.foldl Update.body m
  { m1 with poses := [] }

/-- The method `SceneManager::LoadMaterial`: the handle of the new material and the state. -/
def LoadMaterial (m : SceneManager R P) (_msg : msgs.Material R) : Nat × SceneManager R P :=
  let material := (m.scene.CreateMaterial none).1
  let sc := (m.scene.CreateMaterial none).2
  let sc := match _msg.ambient with
    | some c => sc.modifyMaterial material (fun x => { x with ambient := some c })
    | none => sc
  let sc := match _msg.diffuse with
    | some c => sc.modifyMaterial material (fun x => { x with diffuse := some c })
    | none => sc
  let sc := match _msg.specular with
    | some c => sc.modifyMaterial material (fun x => { x with diffuse := some c })
    | none => sc
  let sc := match _msg.emissive with
    | some c => sc.modifyMaterial material (fun x => { x with emissive := some c })
    | none => sc
  (material, { m with scene := sc })

/-- The `switch (_msg.type())` of `LoadLight`: the light created for the type with its
type-specific settings, `none` in the `default` case. -/
def LoadLight.create (sc : rendering.Scene R P) (_msg : msgs.Light R P) :
    Option (Nat × rendering.Scene R P) :=
  match _msg.type with
  | msgs.LightType.POINT => some (sc.CreateLight rendering.LightKind.point)
  | msgs.LightType.SPOT =>
    let c := sc.CreateLight rendering.LightKind.spot
    some (c.1, c.2.modifyLight c.1 (fun l =>
      { l with innerAngle := some _msg.spot_inner_angle,
               outerAngle := some _msg.spot_outer_angle,
               falloff := some _msg.spot_falloff }))
  | msgs.LightType.DIRECTIONAL =>
    let c := sc.CreateLight rendering.LightKind.directional
    match _msg.direction with
    | some d => some (c.1, c.2.modifyLight c.1 (fun l => { l with direction := some d }))
    | none => some c
  | msgs.LightType.other => none

/-- The settings that `LoadLight` applies to the created light after the `switch`. -/
def LoadLight.configure (sc : rendering.Scene R P) (light : Nat) (_msg : msgs.Light R P) :
    rendering.Scene R P :=
  let sc := match _msg.pose with
    | some p => sc.SetLightLocalPose light p
    | none => sc
  let sc := match _msg.diffuse with
    | some c => sc.modifyLight light (fun l => { l with diffuseColor := some c })
    | none => sc
  let sc := match _msg.specular with
    | some c => sc.modifyLight light (fun l => { l with specularColor := some c })
    | none => sc
  sc.modifyLight light (fun l =>
    { l with attenuationConstant := some _msg.attenuation_constant,
             attenuationLinear := some _msg.attenuation_linear,
             attenuationQuadratic := some _msg.attenuation_quadratic,
             attenuationRange := some _msg.range,
             castShadows := some _msg.cast_shadows })

/-- The method `SceneManager::LoadLight`: the handle of the new light (`none` for a null
pointer) and the state. -/
def LoadLight (m : SceneManager R P) (_msg : msgs.Light R P) : Option Nat × SceneManager R P :=
  match LoadLight.create m.scene _msg with
  | none => (none, m)
  | some c =>
    (some c.1, { m with scene := LoadLight.configure c.2 c.1 _msg,
                        lights := StdMap.assign m.lights _msg.id c.1 })

/-- The method `SceneManager::LoadGeometry`. `meshOk name` tells whether the mesh manager
and `scene->CreateMesh` yield a mesh for the file `name`. `_scale` and `_localPose` are
the values of the output parameters at the call. Returns the geometry handle (`none`
for a null pointer), the output parameters and the state. -/
def LoadGeometry (meshOk : String → Bool) (m : SceneManager R P) (_msg : msgs.Geometry R)
    (_scale : Vector3 R) (_localPose : P) :
    Option Nat × Vector3 R × P × SceneManager R P :=
  let scale : Vector3 R := Vector3.One R P
  let localPose : P := IgnMath.poseZero R
  match _msg.box with
  | some box =>
    let c := m.scene.CreateGeometry rendering.GeometryKind.box
    let scale := match box.size with
      | some sz => sz
      | none => scale
    (some c.1, scale, localPose, { m with scene := c.2 })
  | none =>
  match _msg.cylinder with
  | some cyl =>
    let c := m.scene.CreateGeometry rendering.GeometryKind.cylinder
    let x := IgnMath.mul P cyl.radius (IgnMath.lit P 2 0)
    (some c.1, ⟨x, x, cyl.length⟩, localPose, { m with scene := c.2 })
  | none =>
  match _msg.plane with
  | some plane =>
    let c := m.scene.CreateGeometry rendering.GeometryKind.plane
    let scale := match plane.size with
      | some sz => { scale with x := sz.x, y := sz.y }
      | none => scale
    let localPose := match plane.normal with
      | some normal => IgnMath.rotFrom2Axes localPose normal
      | none => localPose
    (some c.1, scale, localPose, { m with scene := c.2 })
  | none =>
  match _msg.sphere with
  | some sph =>
    let c := m.scene.CreateGeometry rendering.GeometryKind.sphere
    let x := IgnMath.mul P sph.radius (IgnMath.lit P 2 0)
    (some c.1, ⟨x, x, x⟩, localPose, { m with scene := c.2 })
  | none =>
  match _msg.mesh with
  | some mesh =>
    if mesh.filename.isEmpty then
      (none, _scale, _localPose, m)
    else if meshOk mesh.filename then
      let c := m.scene.CreateGeometry (rendering.GeometryKind.mesh mesh.filename)
      (some c.1, scale, localPose, { m with scene := c.2 })
    else
      (none, scale, localPose, m)
  | none => (none, scale, localPose, m)

/-- The default material of `LoadVisual`: `scene->Material("ign-grey")`, created and
initialised when that is a null pointer; the three-argument colour setters leave the
alpha component at 1.0. -/
def defaultMaterial (sc : rendering.Scene R P) : Nat × rendering.Scene R P :=
  match sc.Material "ign-grey" with
  | some material => (material, sc)
  | none =>
    let material := (sc.CreateMaterial (some "ign-grey")).1
    let sc := (sc.CreateMaterial (some "ign-grey")).2
    let one : R := IgnMath.lit P 10 1
    let c3 : R := IgnMath.lit P 3 1
    let c7 : R := IgnMath.lit P 7 1
    let c4 : R := IgnMath.lit P 4 1
    let sc := sc.modifyMaterial material (fun x => { x with ambient := some ⟨c3, c3, c3, one⟩ })
    let sc := sc.modifyMaterial material (fun x => { x with diffuse := some ⟨c7, c7, c7, one⟩ })
    let sc := sc.modifyMaterial material (fun x => { x with specular := some ⟨c4, c4, c4, one⟩ })
    (material, sc)

/-- The part of `LoadVisual` that chooses the material of the geometry `geom`, sets
its transparency and assigns it to the geometry. -/
def LoadVisual.material (m : SceneManager R P) (_msg : msgs.Visual R P) (geom : Nat) :
    SceneManager R P :=
  let r : Nat × SceneManager R P :=
    match _msg.material with
    | some mat => LoadMaterial m mat
    | none => ((defaultMaterial m.scene).1, { m with scene := (defaultMaterial m.scene).2 })
  let sc := r.2.scene.modifyMaterial r.1
    (fun x => { x with transparency := some _msg.transparency })
  let sc := { sc with geometries :=
    rendering.Scene.modifyAt sc.geometries geom (fun x => { x with material := some r.1 }) }
  { r.2 with scene := sc }

/-- The part of `LoadVisual` after the call of `LoadGeometry`, which returned `geom`
with the output parameters `scale` and `localPose`. -/
def LoadVisual.finish (m : SceneManager R P) (_msg : msgs.Visual R P) (visualVis : Nat)
    (geom : Option Nat) (scale : Vector3 R) (localPose : P) : Option Nat × SceneManager R P :=
  let sc := match _msg.pose with
    | some p => m.scene.SetVisualLocalPose visualVis (IgnMath.poseMul R p localPose)
    | none => m.scene.SetVisualLocalPose visualVis localPose
  match geom with
  | some g =>
    let sc := sc.modifyVisual visualVis (fun v => { v with geometries := v.geometries ++ [g] })
    let sc := sc.modifyVisual visualVis (fun v => { v with localScale := some scale })
    (some visualVis,
      LoadVisual.material
        { m with scene := sc, localPoses := StdMap.assign m.localPoses _msg.id localPose }
        _msg g)
  | none => (some visualVis, { m with scene := sc })

/-- The method `SceneManager::LoadVisual`: the handle of the new visual (`none` for a
null pointer) and the state. -/
def LoadVisual (meshOk : String → Bool) (m : SceneManager R P) (_msg : msgs.Visual R P) :
    Option Nat × SceneManager R P :=
  match _msg.geometry with
  | none => (none, m)
  | some geometry =>
    let c := m.scene.CreateVisual
    let r := LoadGeometry meshOk
      { m with scene := c.2, visuals := StdMap.assign m.visuals _msg.id c.1 }
      geometry (Vector3.One R P) (IgnMath.poseCtor R)
    LoadVisual.finish r.2.2.2 _msg c.1 r.1 r.2.1 r.2.2.1

/-- One iteration of the loop over `_msg.visual` in `LoadLink`. -/
def LoadLink.visualBody (meshOk : String → Bool) (linkVis : Nat) (m : SceneManager R P)
    (v : msgs.Visual R P) : SceneManager R P :=
  match LoadVisual meshOk m v with
  | (some visualVis, m) =>
    { m with scene := m.scene.AddChild linkVis (rendering.NodeRef.visual visualVis) }
  | (none, m) => m

/-- One iteration of the loop over `_msg.light` in `LoadLink`. -/
def LoadLink.lightBody (linkVis : Nat) (m : SceneManager R P) (l : msgs.Light R P) :
    SceneManager R P :=
  match LoadLight m l with
  | (some light, m) =>
    { m with scene := m.scene.AddChild linkVis (rendering.NodeRef.light light) }
  | (none, m) => m

/-- The first statements of `LoadLink` and of `LoadModel`: a visual is created, its
local pose is set when the message has a pose, and it is registered under `id`. -/
def registerVisual (m : SceneManager R P) (id : Nat) (pose : Option P) : SceneManager R P :=
  let c := m.scene.CreateVisual
  let sc := match pose with
    | some p => c.2.SetVisualLocalPose c.1 p
    | none => c.2
  { m with scene := sc, visuals := StdMap.assign m.visuals id c.1 }

/-- The method `SceneManager::LoadLink`. -/
def LoadLink (meshOk : String → Bool) (m : SceneManager R P) (_msg : msgs.Link R P) :
    Option Nat × SceneManager R P :=
  let linkVis := m.scene.CreateVisual.1
  let m := registerVisual m _msg.id _msg.pose
  let m := _msg.visual.foldl (LoadLink.visualBody meshOk linkVis) m
  let m := _msg.light.foldl (LoadLink.lightBody linkVis) m
  (some linkVis, m)

/-- One iteration of the loop over `_msg.link` in `LoadModel`. -/
def LoadModel.linkBody (meshOk : String → Bool) (modelVis : Nat) (m : SceneManager R P)
    (l : msgs.Link R P) : SceneManager R P :=
  match LoadLink meshOk m l with
  | (some linkVis, m) =>
    { m with scene := m.scene.AddChild modelVis (rendering.NodeRef.visual linkVis) }
  | (none, m) => m

mutual

/-- The method `SceneManager::LoadModel`. -/
def LoadModel (meshOk : String → Bool) :
    SceneManager R P → msgs.Model R P → Option Nat × SceneManager R P
  | m, msgs.Model.mk id _ pose link model =>
    let modelVis := m.scene.CreateVisual.1
    let m := registerVisual m id pose
    let m := link.foldl (LoadModel.linkBody meshOk modelVis) m
    let m := LoadModel.nested meshOk modelVis m model
    (some modelVis, m)

/-- The loop over the nested models `_msg.model` in `LoadModel`. -/
def LoadModel.nested (meshOk : String → Bool) (modelVis : Nat) :
    SceneManager R P → List (msgs.Model R P) → SceneManager R P
  | m, [] => m
  | m, x :: rest =>
    match LoadModel meshOk m x with
    | (some nestedModelVis, m) =>
      LoadModel.nested meshOk modelVis
        { m with scene := m.scene.AddChild modelVis (rendering.NodeRef.visual nestedModelVis) }
        rest
    | (none, m) => LoadModel.nested meshOk modelVis m rest

end

/-- One iteration of the loop over `_msg.model` in `LoadScene`. -/
def LoadScene.modelBody (meshOk : String → Bool) (m : SceneManager R P)
    (x : msgs.Model R P) : SceneManager R P :=
  match LoadModel meshOk m x with
  | (some modelVis, m) =>
    { m with scene := m.scene.AddRootChild (rendering.NodeRef.visual modelVis) }
  | (none, m) => m

/-- One iteration of the loop over `_msg.light` in `LoadScene`. -/
def LoadScene.lightBody (m : SceneManager R P) (l : msgs.Light R P) : SceneManager R P :=
  match LoadLight m l with
  | (some light, m) =>
    { m with scene := m.scene.AddRootChild (rendering.NodeRef.light light) }
  | (none, m) => m

/-- The method `SceneManager::LoadScene`. -/
def LoadScene (meshOk : String → Bool) (m : SceneManager R P) (_msg : msgs.Scene R P) :
    SceneManager R P :=
  let m := _msg.model.foldl (LoadScene.modelBody meshOk) m
  _msg.light.foldl LoadScene.lightBody m

/-- Outcome of `node.Request(service, timeout, res, result)`: the return value, the
output flag `result` and the response `res`. -/
structure RequestOutcome (R P : Type) where
  returned : Bool
  result : Bool
  res : msgs.Scene R P

/-- The method `SceneManager::Request`, for the outcome `req` of the service call and the
return value `subscribeOk` that `node.Subscribe` gives if it is called. -/
def Request (meshOk : String → Bool) (m : SceneManager R P) (req : RequestOutcome R P)
    (subscribeOk : Bool) : SceneManager R P :=
  if req.returned && req.result then
    let m := LoadScene meshOk m req.res
    if subscribeOk then
      { m with node := { subscriptions := m.node.subscriptions ++ [m.poseTopic] } }
    else
      m
  else
    m

end SceneManager

/-! ## Entity ids of a scene message -/

namespace msgs

/-- Whether the light type is point, spot or directional. -/
def LightType.supported : LightType → Bool
  | LightType.POINT => true
  | LightType.SPOT => true
  | LightType.DIRECTIONAL => true
  | LightType.other => false

/-- Ids of the lights of a list whose type is point, spot or directional. -/
def lightIds {R P : Type} (ls : List (Light R P)) : List Nat :=
  (ls.filter (fun l => l.type.supported)).map (fun l => l.id)

/-- The id of the link and the ids of its visuals that have a geometry field. -/
def Link.visualIds {R P : Type} (l : Link R P) : List Nat :=
  l.id :: (l.visual.filter (fun v => v.geometry.isSome)).map (fun v => v.id)

/-- Visual-map ids of a list of links. -/
def linksVisualIds {R P : Type} : List (Link R P) → List Nat
  | [] => []
  | l :: rest => l.visualIds ++ linksVisualIds rest

/-- Light-map ids of a list of links. -/
def linksLightIds {R P : Type} : List (Link R P) → List Nat
  | [] => []
  | l :: rest => lightIds l.light ++ linksLightIds rest

mutual

/-- The id of the model, the ids of its links and of their visuals with a geometry,
and the same for every nested model, at any depth. -/
def Model.visualIds {R P : Type} : Model R P → List Nat
  | Model.mk id _ _ link model => id :: (linksVisualIds link ++ modelsVisualIds model)

/-- Visual-map ids of a list of models. -/
def modelsVisualIds {R P : Type} : List (Model R P) → List Nat
  | [] => []
  | x :: rest => x.visualIds ++ modelsVisualIds rest

end

mutual

/-- Ids of the supported lights of the links of the model and of every nested model. -/
def Model.lightIds {R P : Type} : Model R P → List Nat
  | Model.mk _ _ _ link model => linksLightIds link ++ modelsLightIds model

/-- Light-map ids of a list of models. -/
def modelsLightIds {R P : Type} : List (Model R P) → List Nat
  | [] => []
  | x :: rest => x.lightIds ++ modelsLightIds rest

end

/-- Specification of the keys of `visuals` after `LoadScene`: every model at any
nesting depth, every link of those models, every visual of those links that has a
geometry field. -/
def Scene.visualIds {R P : Type} (s : Scene R P) : List Nat := modelsVisualIds s.model

/-- Specification of the keys of `lights` after `LoadScene`: the link-level and
scene-level lights whose type is point, spot or directional. -/
def Scene.lightIds {R P : Type} (s : Scene R P) : List Nat :=
  modelsLightIds s.model ++ msgs.lightIds s.light

end msgs

/-- Relation between the state `m` before and the state `n` after loading entities:
the keys of `visuals` grew by exactly `vids`, the keys of `lights` by exactly `lids`,
and `poses`, `node`, `poseTopic` and `service` are the same. -/
def SceneManager.Loaded {R P : Type} (m n : SceneManager R P) (vids lids : List Nat) : Prop :=
  (∀ x, x ∈ StdMap.keys n.visuals ↔ x ∈ StdMap.keys m.visuals ∨ x ∈ vids) ∧
  (∀ x, x ∈ StdMap.keys n.lights ↔ x ∈ StdMap.keys m.lights ∨ x ∈ lids) ∧
  n.poses = m.poses ∧ n.node = m.node ∧ n.poseTopic = m.poseTopic ∧ n.service = m.service

/-! ## A concrete instance

Integers as scalars and as poses (translations along one axis, composed by addition),
used to evaluate the definitions on concrete inputs. -/

instance : IgnMath Int Int where
  lit m _ := m
  mul a b := a * b
  poseCtor := 0
  poseZero := 0
  poseMul a b := a + b
  rotFrom2Axes p _ := p + 1

namespace Example

/-- A scene manager after `Load`, with empty maps and an empty rendering scene. -/
def manager : SceneManager Int Int :=
  { service := "/scene", poseTopic := "/pose", scene := rendering.Scene.empty,
    poses := [], localPoses := [], visuals := [], lights := [], node := ⟨[]⟩ }

/-- A light message with the given id and type. -/
def light (id : Nat) (t : msgs.LightType) : msgs.Light Int Int :=
  { id := id, name := "light", type := t, pose := some 3, diffuse := none, specular := none,
    attenuation_constant := 0, attenuation_linear := 0, attenuation_quadratic := 0,
    range := 0, cast_shadows := false, direction := none, spot_inner_angle := 0,
    spot_outer_angle := 0, spot_falloff := 0 }

/-- A geometry message with a box without size. -/
def box : msgs.Geometry Int :=
  { box := some ⟨none⟩, cylinder := none, plane := none, sphere := none, mesh := none }

/-- A geometry message with a plane that has a normal. -/
def plane : msgs.Geometry Int :=
  { box := none, cylinder := none, plane := some ⟨none, some ⟨0, 0, 1⟩⟩, sphere := none,
    mesh := none }

/-- A visual message with the given id and optional geometry. -/
def visual (id : Nat) (g : Option (msgs.Geometry Int)) : msgs.Visual Int Int :=
  { id := id, name := "visual", pose := none, geometry := g, material := none,
    transparency := 0 }

/-- A scene message: model 1 with link 2 (visual 3 with a box, visual 4 without
geometry, spot light 5, light 6 of an unsupported type) and nested model 7 with nested
model 8; scene-level point light 9. -/
def scene : msgs.Scene Int Int :=
  { model := [msgs.Model.mk 1 "model" none
      [{ id := 2, name := "link", pose := none,
         visual := [visual 3 (some box), visual 4 none],
         light := [light 5 msgs.LightType.SPOT, light 6 msgs.LightType.other] }]
      [msgs.Model.mk 7 "nested" none [] [msgs.Model.mk 8 "inner" none [] []]]],
    light := [light 9 msgs.LightType.POINT] }

end Example

/-- Representation invariant of a scene manager: the four maps have ascending keys,
distinct entries of `visuals` (of `lights`) hold distinct objects, and every pointer
held by the maps refers to an object of the scene. -/
def SceneManager.Valid {R P : Type} (m : SceneManager R P) : Prop :=
  StdMap.WF m.poses ∧ StdMap.WF m.localPoses ∧ StdMap.WF m.visuals ∧ StdMap.WF m.lights ∧
  (m.visuals.map Prod.snd).Nodup ∧ (m.lights.map Prod.snd).Nodup ∧
  (∀ e ∈ m.visuals, e.2 < m.scene.visuals.length) ∧
  (∀ e ∈ m.lights, e.2 < m.scene.lights.length)

instance {R P : Type} (m : SceneManager R P) : Decidable m.Valid := by
  unfold SceneManager.Valid; infer_instance

/-- Invariant of the loop of `Update`: the maps `visuals`, `lights`, `localPoses` and
the sizes of the object stores are those of the state `m` at loop entry. -/
def SceneManager.Update.Inv {R P : Type} (m s : SceneManager R P) : Prop :=
  s.visuals = m.visuals ∧ s.lights = m.lights ∧ s.localPoses = m.localPoses ∧
  s.node = m.node ∧ s.service = m.service ∧ s.poseTopic = m.poseTopic ∧
  s.scene.visuals.length = m.scene.visuals.length ∧
  s.scene.lights.length = m.scene.lights.length


namespace Example

/-- A state with two visuals (ids 1 and 3) and two lights (ids 3 and 9), and pending
poses for the ids 3, 9 and 42. -/
def pending : SceneManager Int Int :=
  { manager with
    scene := (((rendering.Scene.empty.CreateVisual.2.CreateVisual.2.CreateLight
      rendering.LightKind.point).2.CreateLight rendering.LightKind.spot).2),
    visuals := [(1, 0), (3, 1)],
    lights := [(3, 0), (9, 1)],
    localPoses := [(3, 100)],
    poses := [(3, 10), (9, 20), (42, 5)] }

end Example

/-- Invariant of the loop of `OnPoseVMsg`: everything but `poses` is as in the state
`m` at loop entry. -/
def SceneManager.OnPoseVMsg.Inv {R P : Type} (m s : SceneManager R P) : Prop :=
  s.visuals = m.visuals ∧ s.lights = m.lights ∧ s.localPoses = m.localPoses ∧
  s.node = m.node ∧ s.service = m.service ∧ s.poseTopic = m.poseTopic

/-- The pose that `OnPoseVMsg` stores for the message element `e`: `e.pose * localPoses[e.id]`
when `localPoses` has an entry for the id, `e.pose` otherwise. -/
def SceneManager.OnPoseVMsg.stored {R P : Type} [IgnMath R P] (m : SceneManager R P) (e : msgs.Pose P) : P :=
  match StdMap.find m.localPoses e.id with
  | some l => IgnMath.poseMul R e.pose l
  | none => e.pose


namespace Example

/-- A pose message with two elements for id 3 and one for id 7. -/
def poseMsg : msgs.Pose_V Int := { pose := [⟨3, 1⟩, ⟨7, 2⟩, ⟨3, 4⟩] }

/-- A successful outcome of the scene service call, with the scene `scene`. -/
def requestOk : SceneManager.RequestOutcome Int Int :=
  { returned := true, result := true, res := scene }

end Example

/-! ## IgnRenderer and RenderThread -/

namespace rendering

/-- State of the `rendering::Camera` of the renderer; `none` means that the setter has
not been called. `aspectRatio` holds the value of the `int` expression passed to
`SetAspectRatio`; `renderTextureGLId` is the id of the render texture built by the last
`PreRender`. -/
structure Camera (P : Type) where
  localPose : Option P
  imageWidth : Option Int
  imageHeight : Option Int
  aspectRatio : Option Int
  antiAliasing : Option Nat
  hfovHalfPi : Bool
  renderTextureGLId : Int

/-- What `rendering::engine(name, params)` gives for a supported engine: the scenes it
already has, by name. -/
structure Engine (R P : Type) where
  SceneByName : String → Option (Scene R P)

end rendering

/-- What the collaborators of the renderer answer during one `RenderNext`: the
available render engines by name, the id of the render texture after a `PreRender`,
the outcome of the scene service call and of `Subscribe`, the meshes that load, and
the camera pose that the view controller computes for a pending mouse event. -/
structure RenderEnv (R P : Type) where
  engine : String → Option (rendering.Engine R P)
  glId : Int
  request : SceneManager.RequestOutcome R P
  subscribeOk : Bool
  meshOk : String → Bool
  viewPose : P

/-- State of an `IgnRenderer`: its public members and those of `IgnRendererPrivate`;
`camera` and `rayQuery` are `none` and `false` for null pointers. -/
structure IgnRenderer (R P : Type) where
  initialized : Bool
  textureId : Int
  textureSize : QSize
  textureDirty : Bool
  engineName : String
  sceneName : String
  ambientLight : Color R
  backgroundColor : Color R
  cameraPose : P
  sceneService : String
  poseTopic : String
  mouseDirty : Bool
  camera : Option (rendering.Camera P)
  rayQuery : Bool
  sceneManager : SceneManager R P

namespace IgnRenderer

variable {R P : Type} [IgnMath R P]

/-- The method `IgnRenderer::HandleMouseEvent`: the view controller moves the camera when a
mouse event is pending. -/
def HandleMouseEvent (r : IgnRenderer R P) (env : RenderEnv R P) : IgnRenderer R P :=
  if !r.mouseDirty then r
  else
    { r with camera := r.camera.map (fun c => { c with localPose := some env.viewPose }),
             mouseDirty := false }

/-- The method `IgnRenderer::Render`; `none` when the behaviour is undefined (the camera is
a null pointer, or the integer division by `textureSize.height()` is a division by
zero). -/
def Render (r : IgnRenderer R P) (env : RenderEnv R P) : Option (IgnRenderer R P) :=
  match r.camera with
  | none => none
  | some camera =>
    let resized : Option (IgnRenderer R P) :=
      if r.textureDirty then
        if r.textureSize.ht = 0 then none
        else
          some { r with
            camera := some { camera with
              imageWidth := some r.textureSize.wd,
              imageHeight := some r.textureSize.ht,
              aspectRatio := some (Int.tdiv r.textureSize.wd r.textureSize.ht),
              renderTextureGLId := env.glId },
            textureId := env.glId,
            textureDirty := false }
      else some r
    match resized with
    | none => none
    | some r =>
      let r := { r with sceneManager := r.sceneManager.Update }
      some (r.HandleMouseEvent env)

/-- The scene that `Initialize` uses: the scene of the engine with the name `sceneName`, or
a new scene with the ambient light and background colour of the renderer. -/
def Initialize.scene (r : IgnRenderer R P) (engine : rendering.Engine R P) :
    rendering.Scene R P :=
  match engine.SceneByName r.sceneName with
  | some scene => scene
  | none =>
    { (rendering.Scene.empty : rendering.Scene R P) with
      ambientLight := some r.ambientLight, backgroundColor := some r.backgroundColor }

/-- The method `IgnRenderer::Initialize`. -/
def Initialize (r : IgnRenderer R P) (env : RenderEnv R P) : IgnRenderer R P :=
  if r.initialized then r
  else
    match env.engine r.engineName with
    | none => r
    | some engine =>
      let scene := (Initialize.scene r engine).AddRootChild rendering.NodeRef.camera
      let camera : rendering.Camera P :=
        { localPose := some r.cameraPose,
          imageWidth := some r.textureSize.wd,
          imageHeight := some r.textureSize.ht,
          aspectRatio := none,
          antiAliasing := some 8,
          hfovHalfPi := true,
          renderTextureGLId := env.glId }
      let sceneManager :=
        if !r.sceneService.isEmpty then
          (r.sceneManager.Load r.sceneService r.poseTopic scene).Request env.meshOk
            env.request env.subscribeOk
        else r.sceneManager
      { r with camera := some camera, textureId := env.glId, sceneManager := sceneManager,
               rayQuery := true, initialized := true }

end IgnRenderer

/-- Signals declared by `RenderThread`. -/
inductive RenderThreadSignal where
  | TextureReady (id : Int) (size : QSize)
deriving DecidableEq, Repr

/-- State of a `RenderThread`: the renderer, and whether `context` and `surface` are
set. -/
structure RenderThread (R P : Type) where
  ignRenderer : IgnRenderer R P
  context : Bool
  surface : Bool

namespace RenderThread

variable {R P : Type} [IgnMath R P]

/-- The slot `RenderThread::RenderNext`: the new state and the signals emitted; `none` when
the behaviour of `Render` is undefined. -/
def RenderNext (t : RenderThread R P) (env : RenderEnv R P) :
    Option (RenderThread R P × List RenderThreadSignal) :=
  let r := if !t.ignRenderer.initialized then t.ignRenderer.Initialize env else t.ignRenderer
  if !r.initialized then
    some ({ t with ignRenderer := r }, [])
  else
    match r.Render env with
    | none => none
    | some r =>
      some ({ t with ignRenderer := r }, [RenderThreadSignal.TextureReady r.textureId r.textureSize])

end RenderThread

/-! ## RenderWindowItem and the signal wiring -/

/-- Value of a `qreal` item dimension: the rational `num / (den + 1)`. -/
structure QReal where
  num : Int
  den : Nat
deriving DecidableEq, Repr

namespace QReal

/-- Value of `std::max({q, 1.0})`. -/
def max1 (q : QReal) : QReal := if q.num < q.den + 1 then ⟨1, 0⟩ else q

/-- Conversion of a `qreal` to `int` (truncation towards zero). -/
def toInt (q : QReal) : Int := Int.tdiv q.num (q.den + 1)

/-- The test `q <= 0`. -/
def le0 (q : QReal) : Bool := decide (q.num ≤ 0)

end QReal

/-- Entries of the trace of a render window: signal emissions and executions of the slot
`RenderNext`. -/
inductive Trace where
  | TextureReady (id : Int) (size : QSize)
  | PendingNewTexture
  | TextureInUse
  | RenderNext
deriving DecidableEq, Repr

namespace Trace

/-- Whether the entry is an emission of `TextureReady`. -/
def isTextureReady : Trace → Bool
  | TextureReady _ _ => true
  | _ => false

/-- Whether the entry is an emission of `TextureInUse`. -/
def isTextureInUse : Trace → Bool
  | TextureInUse => true
  | _ => false

/-- Whether the entry is an execution of `RenderNext`. -/
def isRenderNext : Trace → Bool
  | RenderNext => true
  | _ => false

/-- Trace entry of a signal of the texture node. -/
def ofNodeSignal : TextureNodeSignal → Trace
  | TextureNodeSignal.PendingNewTexture => PendingNewTexture
  | TextureNodeSignal.TextureInUse => TextureInUse

end Trace

/-- State of a `RenderWindowItem` with the objects wired to it: the item size, the
render thread, the paint node that the scene graph holds for the item (`none` for a
null pointer), the queued invocations (`Ready` on the GUI thread, `RenderNext` on the
render thread, window updates), and the trace of emissions. -/
structure RenderWindowItem (R P : Type) where
  width : QReal
  height : QReal
  renderThread : RenderThread R P
  threadRunning : Bool
  sizeConnected : Bool
  node : Option TextureNode
  readyQueued : Nat
  renderNextQueued : Nat
  updateRequests : Nat
  trace : List Trace

namespace RenderThread

variable {R P : Type}

/-- The slot `RenderThread::SizeChanged`, for a sender item of width `w` and height `h`. -/
def SizeChanged (t : RenderThread R P) (w h : QReal) : RenderThread R P :=
  if w.le0 || h.le0 then t
  else
    { t with ignRenderer :=
      { t.ignRenderer with textureSize := ⟨w.toInt, h.toInt⟩, textureDirty := true } }

end RenderThread

namespace RenderWindowItem

variable {R P : Type} [IgnMath R P]

/-- The constructor `RenderWindowItem::RenderWindowItem`, for an item of the given size and a
renderer `r0` with the in-class initial values of `IgnRenderer`. -/
def ctor (r0 : IgnRenderer R P) (w h : QReal) : RenderWindowItem R P :=
  { width := w, height := h,
    renderThread := { ignRenderer := r0, context := false, surface := false },
    threadRunning := false, sizeConnected := false, node := none,
    readyQueued := 0, renderNextQueued := 0, updateRequests := 0, trace := [] }

/-- The method `RenderWindowItem::Ready`. -/
def Ready (s : RenderWindowItem R P) : RenderWindowItem R P :=
  { s with
    renderThread :=
      { s.renderThread with
        surface := true,
        ignRenderer := { s.renderThread.ignRenderer with
          textureSize := ⟨s.width.max1.toInt, s.height.max1.toInt⟩ } },
    sizeConnected := true,
    threadRunning := true,
    updateRequests := s.updateRequests + 1 }

/-- The method `RenderWindowItem::updatePaintNode`, called with the paint node that the scene
graph holds; `id0` and `size0` are the in-class initial values of the members `id`
and `size` of a `TextureNode`. -/
def updatePaintNode (id0 : Int) (size0 : QSize) (s : RenderWindowItem R P) :
    RenderWindowItem R P :=
  if !s.renderThread.context then
    { s with renderThread := { s.renderThread with context := true },
             readyQueued := s.readyQueued + 1,
             node := none }
  else
    match s.node with
    | none =>
      { s with node := some (TextureNode.ctor id0 size0),
               renderNextQueued := s.renderNextQueued + 1 }
    | some _ => s

/-- Delivery of the signals of `RenderNext`: `TextureReady` is connected directly to
`TextureNode::NewTexture`, whose `PendingNewTexture` is queued as a window update. -/
def deliverTextureReady (s : RenderWindowItem R P) : List RenderThreadSignal →
    RenderWindowItem R P
  | [] => s
  | RenderThreadSignal.TextureReady id size :: rest =>
    let s := { s with trace := s.trace ++ [Trace.TextureReady id size] }
    let s : RenderWindowItem R P :=
      match s.node with
      | some n =>
        { s with node := some (n.NewTexture id size).1,
                 trace := s.trace ++ (n.NewTexture id size).2.map Trace.ofNodeSignal,
                 updateRequests := s.updateRequests + 1 }
      | none => s
    deliverTextureReady s rest

/-- Delivery of the signals of `PrepareNode`: `TextureInUse` is connected to
`RenderThread::RenderNext` with a queued connection. -/
def deliverNodeSignals (s : RenderWindowItem R P) : List TextureNodeSignal →
    RenderWindowItem R P
  | [] => s
  | TextureNodeSignal.TextureInUse :: rest =>
    deliverNodeSignals
      { s with trace := s.trace ++ [Trace.TextureInUse],
               renderNextQueued := s.renderNextQueued + 1 } rest
  | TextureNodeSignal.PendingNewTexture :: rest =>
    deliverNodeSignals
      { s with trace := s.trace ++ [Trace.PendingNewTexture],
               updateRequests := s.updateRequests + 1 } rest

end RenderWindowItem

/-- What can happen to a render window: the scene graph calls `updatePaintNode`, the
GUI thread runs a queued `Ready`, the item is resized, the render thread runs a queued
`RenderNext` (with the answers of its collaborators), the window emits
`beforeRendering`. -/
inductive WindowEvent (R P : Type) where
  | updatePaintNode
  | runReady
  | resize (w h : QReal)
  | runRenderNext (env : RenderEnv R P)
  | beforeRendering

namespace RenderWindowItem

variable {R P : Type} [IgnMath R P]

/-- One event of the render window. An event that is not enabled (nothing queued, thread
not running, no node) and a `RenderNext` with undefined behaviour leave the state
unchanged. -/
def step (id0 : Int) (size0 : QSize) (s : RenderWindowItem R P) :
    WindowEvent R P → RenderWindowItem R P
  | WindowEvent.updatePaintNode => updatePaintNode id0 size0 s
  | WindowEvent.runReady =>
    if 0 < s.readyQueued then Ready { s with readyQueued := s.readyQueued - 1 } else s
  | WindowEvent.resize w h =>
    let s := { s with width := w, height := h }
    if s.sizeConnected then { s with renderThread := s.renderThread.SizeChanged w h } else s
  | WindowEvent.runRenderNext env =>
    if s.threadRunning && decide (0 < s.renderNextQueued) then
      match s.renderThread.RenderNext env with
      | none => s
      | some (t, signals) =>
        deliverTextureReady
          { s with renderThread := t, renderNextQueued := s.renderNextQueued - 1,
                   trace := s.trace ++ [Trace.RenderNext] } signals
    else s
  | WindowEvent.beforeRendering =>
    match s.node with
    | some n => deliverNodeSignals { s with node := some n.PrepareNode.1 } n.PrepareNode.2
    | none => s

/-- The state after a sequence of events. -/
def run (id0 : Int) (size0 : QSize) (s : RenderWindowItem R P) (evs : List (WindowEvent R P)) :
    RenderWindowItem R P :=
  evs.foldl (step id0 size0) s

end RenderWindowItem

/-- Invariant of the frame handshake: every `RenderNext` that was executed or is queued
comes from the creation of the node or from one `TextureInUse`; `TextureReady` was
emitted at most once per executed `RenderNext`; a node exists only after the render
context was created. -/
def RenderWindowItem.Handshake {R P : Type} (s : RenderWindowItem R P) : Prop :=
  s.trace.countP Trace.isRenderNext + s.renderNextQueued
    = (if s.node.isSome then 1 else 0) + s.trace.countP Trace.isTextureInUse ∧
  s.trace.countP Trace.isTextureReady ≤ s.trace.countP Trace.isRenderNext ∧
  (s.node.isSome = true → s.renderThread.context = true)

namespace Example

/-- A renderer with initial values: not initialised, texture size 1024 x 1024. -/
def renderer : IgnRenderer Int Int :=
  { initialized := false, textureId := 0, textureSize := ⟨1024, 1024⟩, textureDirty := false,
    engineName := "ogre", sceneName := "scene", ambientLight := ⟨0, 0, 0, 1⟩,
    backgroundColor := ⟨0, 0, 0, 1⟩, cameraPose := 0, sceneService := "/scene",
    poseTopic := "/pose", mouseDirty := false, camera := none, rayQuery := false,
    sceneManager := manager }

/-- Collaborators with the engine available: render texture 7, successful scene request. -/
def env : RenderEnv Int Int :=
  { engine := fun _ => some { SceneByName := fun _ => none }, glId := 7,
    request := requestOk, subscribeOk := true, meshOk := fun _ => true, viewPose := 0 }

/-- Collaborators without any render engine. -/
def envNoEngine : RenderEnv Int Int :=
  { env with engine := fun _ => none }

/-- A render thread around `renderer`. -/
def thread : RenderThread Int Int :=
  { ignRenderer := renderer, context := true, surface := true }

/-- Events of two frames: set-up, first `RenderNext`, the node takes the texture, second
`RenderNext`. -/
def twoFrames : List (WindowEvent Int Int) :=
  [WindowEvent.updatePaintNode, WindowEvent.runReady, WindowEvent.updatePaintNode,
   WindowEvent.runRenderNext env, WindowEvent.beforeRendering, WindowEvent.beforeRendering,
   WindowEvent.runRenderNext env, WindowEvent.runRenderNext env]

end Example

/-! ## TextureNode: interleaved execution of NewTexture and PrepareNode -/

/-- Program points of `TextureNode::NewTexture`, named by the statement executed next. -/
inductive NewTexturePc where
  | lock
  | writeId
  | writeSize
  | unlock
  | emit
deriving DecidableEq, Repr

/-- Program points of `TextureNode::PrepareNode`, named by the statement executed next;
`use` is the `if (newId)` block. -/
inductive PrepareNodePc where
  | lock
  | readId
  | readSize
  | resetId
  | unlock
  | use
deriving DecidableEq, Repr

/-- The two threads that call into a texture node: the render thread (`NewTexture`,
through the direct connection of `TextureReady`) and the scene-graph thread
(`PrepareNode`, through the direct connection of `beforeRendering`). -/
inductive HandoffThread where
  | render
  | sceneGraph
deriving DecidableEq, Repr

/-- State of the two threads around one texture node: the node, its mutex, the
`NewTexture` calls that the render thread still makes (the first one is in progress
at `newPc`), the number of `PrepareNode` calls that the scene-graph thread still makes
(the first one is in progress at `prepPc`, with locals `newId` and `sz`), the pairs
`(newId, sz)` that finished `PrepareNode` calls have read, and the signals emitted. -/
structure Handoff where
  node : TextureNode
  locked : Bool
  calls : List (Int × QSize)
  newPc : NewTexturePc
  prepares : Nat
  prepPc : PrepareNodePc
  newId : Int
  sz : QSize
  reads : List (Int × QSize)
  signals : List TextureNodeSignal
deriving DecidableEq, Repr

namespace Handoff

/-- Both threads before their first call. -/
def init (n0 : TextureNode) (calls : List (Int × QSize)) (prepares : Nat) : Handoff :=
  { node := n0, locked := false, calls := calls, newPc := NewTexturePc.lock,
    prepares := prepares, prepPc := PrepareNodePc.lock, newId := 0, sz := ⟨0, 0⟩,
    reads := [], signals := [] }

/-- One statement of `NewTexture(i, size)` on the render thread; `none` when the thread
has no call left or waits for the mutex. -/
def stepRender (s : Handoff) : Option Handoff :=
  match s.calls with
  | [] => none
  | (i, size) :: rest =>
    match s.newPc with
    | NewTexturePc.lock =>
      if s.locked then none
      else some { s with locked := true, newPc := NewTexturePc.writeId }
    | NewTexturePc.writeId =>
      some { s with node := { s.node with id := i }, newPc := NewTexturePc.writeSize }
    | NewTexturePc.writeSize =>
      some { s with node := { s.node with size := size }, newPc := NewTexturePc.unlock }
    | NewTexturePc.unlock =>
      some { s with locked := false, newPc := NewTexturePc.emit }
    | NewTexturePc.emit =>
      some { s with signals := s.signals ++ [TextureNodeSignal.PendingNewTexture],
                    calls := rest, newPc := NewTexturePc.lock }

/-- One statement of `PrepareNode()` on the scene-graph thread; `none` when the thread has
no call left or waits for the mutex. -/
def stepSceneGraph (s : Handoff) : Option Handoff :=
  if s.prepares = 0 then none
  else
    match s.prepPc with
    | PrepareNodePc.lock =>
      if s.locked then none
      else some { s with locked := true, prepPc := PrepareNodePc.readId }
    | PrepareNodePc.readId =>
      some { s with newId := s.node.id, prepPc := PrepareNodePc.readSize }
    | PrepareNodePc.readSize =>
      some { s with sz := s.node.size, prepPc := PrepareNodePc.resetId }
    | PrepareNodePc.resetId =>
      some { s with node := { s.node with id := 0 }, prepPc := PrepareNodePc.unlock }
    | PrepareNodePc.unlock =>
      some { s with locked := false, prepPc := PrepareNodePc.use }
    | PrepareNodePc.use =>
      let s := { s with reads := s.reads ++ [(s.newId, s.sz)],
                        prepares := s.prepares - 1, prepPc := PrepareNodePc.lock }
      if s.newId ≠ 0 then
        let t := createTextureFromId s.newId s.sz CreateTextureOption.TextureIsOpaque
        some { s with node := { s.node with texture := t, nodeTexture := t,
                                            dirtyMaterial := true },
                      signals := s.signals ++ [TextureNodeSignal.TextureInUse] }
      else some s

/-- One statement of the given thread. -/
def step (s : Handoff) : HandoffThread → Option Handoff
  | HandoffThread.render => s.stepRender
  | HandoffThread.sceneGraph => s.stepSceneGraph

/-- Execution under a schedule: each entry lets the named thread execute one statement;
an entry for a thread that waits or has finished is skipped. -/
def run (s : Handoff) (schedule : List HandoffThread) : Handoff :=
  schedule.foldl (fun s t => (s.step t).getD s) s

/-- A pending pair is acceptable when its id is 0 or it is the pair of one of the calls. -/
def Good (cs : List (Int × QSize)) (id : Int) (size : QSize) : Prop :=
  id = 0 ∨ (id, size) ∈ cs

/-- Invariant of the interleaved execution, for the list `cs` of all `NewTexture` calls. -/
def Inv (cs : List (Int × QSize)) (s : Handoff) : Prop :=
  (∀ c ∈ s.calls, c ∈ cs) ∧
  (∀ r ∈ s.reads, r.1 = 0 ∨ r ∈ cs) ∧
  (s.calls = [] → s.newPc = NewTexturePc.lock) ∧
  (s.prepares = 0 → s.prepPc = PrepareNodePc.lock) ∧
  (match s.newPc with
    | NewTexturePc.lock => Good cs s.node.id s.node.size
    | NewTexturePc.writeId =>
      s.locked = true ∧ Good cs s.node.id s.node.size ∧
      (s.prepPc = PrepareNodePc.lock ∨ s.prepPc = PrepareNodePc.use)
    | NewTexturePc.writeSize =>
      s.locked = true ∧ (∃ c, s.calls.head? = some c ∧ s.node.id = c.1) ∧
      (s.prepPc = PrepareNodePc.lock ∨ s.prepPc = PrepareNodePc.use)
    | NewTexturePc.unlock =>
      s.locked = true ∧ s.calls.head? = some (s.node.id, s.node.size) ∧
      (s.prepPc = PrepareNodePc.lock ∨ s.prepPc = PrepareNodePc.use)
    | NewTexturePc.emit => Good cs s.node.id s.node.size) ∧
  (match s.prepPc with
    | PrepareNodePc.lock => True
    | PrepareNodePc.readId => s.locked = true
    | PrepareNodePc.readSize => s.locked = true ∧ s.newId = s.node.id
    | PrepareNodePc.resetId => s.locked = true ∧ Good cs s.newId s.sz
    | PrepareNodePc.unlock => s.locked = true ∧ Good cs s.newId s.sz
    | PrepareNodePc.use => Good cs s.newId s.sz)

end Handoff

namespace Example

/-- A schedule in which the scene-graph thread tries to start a `PrepareNode` between
the two writes of the second `NewTexture` call: it has to wait for the mutex. -/
def interleaved : List HandoffThread :=
  List.replicate 5 HandoffThread.render ++
  [HandoffThread.render, HandoffThread.render, HandoffThread.sceneGraph,
   HandoffThread.render, HandoffThread.sceneGraph, HandoffThread.render] ++
  List.replicate 6 HandoffThread.sceneGraph ++ [HandoffThread.render]

/-- A schedule that runs one `NewTexture` call and then two `PrepareNode` calls. -/
def prepareTwice : List HandoffThread :=
  List.replicate 5 HandoffThread.render ++ List.replicate 12 HandoffThread.sceneGraph

end Example

/-- Numbers of visuals and of lights in the object store of a scene. -/
def rendering.Scene.counts {R P : Type} (sc : rendering.Scene R P) : Nat × Nat :=
  (sc.visuals.length, sc.lights.length)

/-! ## Screenshot plugin -/

namespace rendering

/-- A node of a scene as `Screenshot::FindUserCamera` sees it through `NodeByIndex`: a
camera (with the identity of the object and its name) or a node of another class. -/
inductive SceneNode where
  | camera (ptr : Nat) (name : String)
  | other
deriving DecidableEq, Repr

/-- What `FindUserCamera` reads of a `rendering::Scene`: `IsInitialized()`, whether
`RootVisual()` is non-null, `Name()`, and the nodes by index. -/
structure SceneInfo where
  IsInitialized : Bool
  hasRootVisual : Bool
  Name : String
  nodes : List SceneNode
deriving DecidableEq, Repr

/-- What `FindUserCamera` reads of a `rendering::RenderEngine`: its scenes by index
(`none` for a null pointer); `SceneCount()` is the length of the list. -/
structure EngineInfo where
  scenes : List (Option SceneInfo)
deriving DecidableEq, Repr

end rendering

/-- What `SaveScreenshot` reads of the user camera: image width, height and format, and
the pixel data that `Copy` delivers. -/
structure CameraImage where
  width : Nat
  height : Nat
  format : String
  data : List Nat
deriving DecidableEq, Repr

/-- A file written by `common::Image::SavePNG`. -/
structure SavedImage where
  path : String
  image : CameraImage
deriving DecidableEq, Repr

/-- What the collaborators of the screenshot plugin answer during one event: the names
of the loaded render engines, the engines by name, the image of the camera with a
given identity, the system time in ISO format, and `common::joinPaths`. -/
structure ScreenshotEnv where
  loadedEngines : List String
  engine : String → Option rendering.EngineInfo
  capture : Nat → CameraImage
  systemTimeISO : String
  joinPaths : String → String → String

/-- Type of a `QEvent`, as far as `Screenshot::eventFilter` distinguishes it. -/
inductive QEventType where
  | Render
  | other
deriving DecidableEq, Repr

/-- State of a `Screenshot` plugin: the title, the members of `ScreenshotPrivate`
(`userCamera` is `none` for a null pointer) and the files saved so far. -/
structure Screenshot where
  title : String
  screenshotService : String
  directory : String
  dirty : Bool
  userCamera : Option Nat
  saved : List SavedImage
deriving DecidableEq, Repr

namespace Screenshot

/-- The loop of `FindUserCamera` over the nodes of the scene: the first node that is a
camera. -/
def firstCamera : List rendering.SceneNode → Option Nat
  | [] => none
  | rendering.SceneNode.camera ptr _ :: _ => some ptr
  | rendering.SceneNode.other :: rest => firstCamera rest

/-- The method `Screenshot::FindUserCamera`. -/
def FindUserCamera (s : Screenshot) (env : ScreenshotEnv) : Screenshot :=
  if s.userCamera.isSome then s
  else
    match env.loadedEngines with
    | [] => s
    | engineName :: _ =>
      match env.engine engineName with
      | none => s
      | some engine =>
        match engine.scenes with
        | [] => s
        | none :: _ => s
        | some scene :: _ =>
          if !scene.IsInitialized || !scene.hasRootVisual then s
          else
            match firstCamera scene.nodes with
            | some cam => { s with userCamera := some cam }
            | none => s

/-- The method `Screenshot::SaveScreenshot`. -/
def SaveScreenshot (s : Screenshot) (env : ScreenshotEnv) : Screenshot :=
  let s := s.FindUserCamera env
  match s.userCamera with
  | none => s
  | some cam =>
    let time := env.systemTimeISO ++ ".png"
    let savePath := env.joinPaths s.directory time
    { s with saved := s.saved ++ [{ path := savePath, image := env.capture cam }],
             dirty := false }

/-- The method `Screenshot::eventFilter`, as far as the state of the plugin goes. -/
def eventFilter (s : Screenshot) (type : QEventType) (env : ScreenshotEnv) : Screenshot :=
  if type = QEventType.Render ∧ s.dirty = true then s.SaveScreenshot env else s

/-- The method `Screenshot::ScreenshotService`: the new state, the data of the response
`_res` and the return value. -/
def ScreenshotService (s : Screenshot) (_msg : String) : Screenshot × Bool × Bool :=
  let s := if !_msg.isEmpty then { s with directory := _msg } else s
  ({ s with dirty := true }, true, true)

/-- The method `Screenshot::OnScreenshot`. -/
def OnScreenshot (s : Screenshot) : Screenshot :=
  { s with dirty := true }

end Screenshot

/-- What happens to a screenshot plugin: a click on the button (`OnScreenshot`), a service
request, or an event passing the event filter. -/
inductive ScreenshotEvent where
  | OnScreenshot
  | ScreenshotService (data : String)
  | event (type : QEventType) (env : ScreenshotEnv)

namespace ScreenshotEvent

/-- Whether the event is a screenshot request. -/
def isRequest : ScreenshotEvent → Bool
  | OnScreenshot => true
  | ScreenshotService _ => true
  | event _ _ => false

end ScreenshotEvent

namespace Screenshot

/-- The state after one event. -/
def step (s : Screenshot) : ScreenshotEvent → Screenshot
  | ScreenshotEvent.OnScreenshot => s.OnScreenshot
  | ScreenshotEvent.ScreenshotService data => (s.ScreenshotService data).1
  | ScreenshotEvent.event type env => s.eventFilter type env

/-- The state after a sequence of events. -/
def run (s : Screenshot) (evs : List ScreenshotEvent) : Screenshot :=
  evs.foldl step s

end Screenshot

namespace Example

/-- A screenshot plugin after `LoadConfig`, without cached camera. -/
def shot : Screenshot :=
  { title := "Screenshot", screenshotService := "/gui/screenshot",
    directory := "/home/user/.ignition/gui/pictures", dirty := false, userCamera := none,
    saved := [] }

/-- A scene with the camera nodes 7 and 9 after a node of another class. -/
def shotScene : rendering.SceneInfo :=
  { IsInitialized := true, hasRootVisual := true, Name := "scene",
    nodes := [rendering.SceneNode.other, rendering.SceneNode.camera 7 "user_camera",
              rendering.SceneNode.camera 9 "second"] }

/-- Collaborators with one engine whose first scene is `shotScene`. -/
def shotEnv : ScreenshotEnv :=
  { loadedEngines := ["ogre"],
    engine := fun _ => some { scenes := [some shotScene] },
    capture := fun ptr => { width := 640, height := 480, format := "R8G8B8", data := [ptr] },
    systemTimeISO := "2021-01-01T00:00:00",
    joinPaths := fun a b => a ++ "/" ++ b }

/-- Collaborators before any render engine is loaded. -/
def shotEnvNoEngine : ScreenshotEnv :=
  { shotEnv with loadedEngines := [] }

end Example

namespace Example

/-- A material message with ambient red, diffuse green, specular blue and no emissive
colour. -/
def material : msgs.Material Int :=
  { ambient := some ⟨1, 0, 0, 1⟩, diffuse := some ⟨0, 1, 0, 1⟩, specular := some ⟨0, 0, 1, 1⟩,
    emissive := none }

/-- A geometry message with a cylinder of radius 3 and length 5 and a sphere of radius 4. -/
def cylinderAndSphere : msgs.Geometry Int :=
  { box := none, cylinder := some ⟨3, 5⟩, plane := none, sphere := some ⟨4⟩, mesh := none }

end Example

namespace Example

/-- An initialised renderer whose texture size was changed to 800 x 600. -/
def resized : IgnRenderer Int Int :=
  { renderer.Initialize env with textureSize := ⟨800, 600⟩, textureDirty := true }

/-- Collaborators that deliver render texture 8. -/
def envNextTexture : RenderEnv Int Int :=
  { env with glId := 8 }

/-- Events that set up the render thread, render one frame and then resize the item to
0.5 x 0.5. -/
def shrink : List (WindowEvent Int Int) :=
  [WindowEvent.updatePaintNode, WindowEvent.runReady, WindowEvent.updatePaintNode,
   WindowEvent.runRenderNext env, WindowEvent.resize ⟨1, 1⟩ ⟨1, 1⟩]

end Example

/-! ## Grid plugin -/

/-- A `tinyxml2::XMLElement` as `Grid::Initialize` reads it: the child elements in
document order, each with its name and its text (`none` when `GetText()` is null). -/
structure XMLElement where
  children : List (String × Option String)
deriving DecidableEq, Repr

namespace XMLElement

/-- The call `FirstChildElement(name)`: the text of the first child with the name, `none`
for a null pointer. -/
def FirstChildElement (e : XMLElement) (name : String) : Option (Option String) :=
  match e.children.find? (fun c => c.1 == name) with
  | some c => some c.2
  | none => none

end XMLElement

/-- The text conversions that `Grid::Initialize` uses: the number parsers behind
`QueryIntText` and `QueryDoubleText` (`none` when the text is not a number), and the
stream extraction operators of `math::Pose3d` and `math::Color`, which give the value of
the variable after `stream >> variable` for the text and the value before. -/
structure TextReaders (R P : Type) where
  toInt : String → Option Int
  toDouble : String → Option R
  poseFromStream : String → P → P
  colorFromStream : String → Color R → Color R

namespace TextReaders

variable {R P : Type}

/-- The call `elem->QueryIntText(&value)`: `value` is overwritten when the element has a
text that parses, and left as it is otherwise. -/
def QueryIntText (rd : TextReaders R P) (text : Option String) (value : Int) : Int :=
  match text with
  | none => value
  | some t =>
    match rd.toInt t with
    | some n => n
    | none => value

/-- The call `elem->QueryDoubleText(&value)`. -/
def QueryDoubleText (rd : TextReaders R P) (text : Option String) (value : R) : R :=
  match text with
  | none => value
  | some t =>
    match rd.toDouble t with
    | some x => x
    | none => value

end TextReaders

/-- The struct `GridInfo`. -/
structure GridInfo (R P : Type) where
  cellCount : Int
  vertCellCount : Int
  cellLength : R
  pose : P
  color : Color R

/-- A default-initialised `GridInfo`: `kDefaultCellCount`, `kDefaultVertCellCount`,
`kDefaultCellLength`, `kDefaultPose` and `kDefaultColor`. -/
def GridInfo.default (R P : Type) [IgnMath R P] : GridInfo R P :=
  { cellCount := 20,
    vertCellCount := 0,
    cellLength := IgnMath.lit P 10 1,
    pose := IgnMath.poseZero R,
    color := ⟨IgnMath.lit P 7 1, IgnMath.lit P 7 1, IgnMath.lit P 7 1, IgnMath.lit P 10 1⟩ }

/-- State of a `rendering::Grid`: the arguments of the last calls of its setters. -/
structure rendering.Grid (R : Type) where
  cellCount : Int
  verticalCellCount : Int
  cellLength : R

/-- State of a `Grid` display plugin: the title, the grid kept in `GridPrivate` (`none`
for a null pointer), and what the plugin did to its visual: the local pose set, whether
the grid was added as geometry, and the ambient colour of the material set. -/
structure GridPlugin (R P : Type) where
  title : String
  grid : Option (rendering.Grid R)
  visualLocalPose : Option P
  visualHasGrid : Bool
  visualMaterialAmbient : Option (Color R)

namespace GridPlugin

variable {R P : Type} [IgnMath R P]

/-- The configuration block of `Grid::Initialize`: the `GridInfo` after reading the children
of the plugin element; `none` when the behaviour is undefined (a `pose` or `color` child
whose `GetText()` is null is passed to the `std::string` constructor). -/
def Initialize.config (rd : TextReaders R P) (_pluginElem : Option XMLElement) :
    Option (GridInfo R P) :=
  let gridInfo := GridInfo.default R P
  match _pluginElem with
  | none => some gridInfo
  | some e =>
    let gridInfo := match e.FirstChildElement "cell_count" with
      | some text => { gridInfo with cellCount := rd.QueryIntText text gridInfo.cellCount }
      | none => gridInfo
    let gridInfo := match e.FirstChildElement "vertical_cell_count" with
      | some text =>
        { gridInfo with vertCellCount := rd.QueryIntText text gridInfo.vertCellCount }
      | none => gridInfo
    let gridInfo := match e.FirstChildElement "cell_length" with
      | some text => { gridInfo with cellLength := rd.QueryDoubleText text gridInfo.cellLength }
      | none => gridInfo
    let withPose : Option (GridInfo R P) := match e.FirstChildElement "pose" with
      | some (some text) => some { gridInfo with pose := rd.poseFromStream text gridInfo.pose }
      | some none => none
      | none => some gridInfo
    match withPose with
    | none => none
    | some gridInfo =>
      match e.FirstChildElement "color" with
      | some (some text) =>
        some { gridInfo with color := rd.colorFromStream text gridInfo.color }
      | some none => none
      | none => some gridInfo

/-- The method `Grid::Initialize`. -/
def Initialize (p : GridPlugin R P) (rd : TextReaders R P) (_pluginElem : Option XMLElement) :
    Option (GridPlugin R P) :=
  let p := if p.title.isEmpty then { p with title := "3D Grid" } else p
  match Initialize.config rd _pluginElem with
  | none => none
  | some gridInfo =>
    some { p with
      grid := some { cellCount := gridInfo.cellCount,
                     verticalCellCount := gridInfo.vertCellCount,
                     cellLength := gridInfo.cellLength },
      visualLocalPose := some gridInfo.pose,
      visualHasGrid := true,
      visualMaterialAmbient := some gridInfo.color }

end GridPlugin

namespace Example

/-- Text readers for integer scalars and poses: the texts "50" and "3" parse as integers,
"2" as a double; the stream operators read the length of the text. -/
def readers : TextReaders Int Int :=
  { toInt := fun t => if t = "50" then some 50 else if t = "3" then some 3 else none,
    toDouble := fun t => if t = "2" then some 2 else none,
    poseFromStream := fun t _ => t.length,
    colorFromStream := fun t c => { c with r := t.length } }

/-- A plugin element with the children `cell_count` 50 and `pose`. -/
def gridElem : XMLElement :=
  { children := [("cell_count", some "50"), ("pose", some "1 2 3 0 0 0")] }

/-- A new grid plugin without title. -/
def gridPlugin : GridPlugin Int Int :=
  { title := "", grid := none, visualLocalPose := none, visualHasGrid := false,
    visualMaterialAmbient := none }

end Example

/-! ## CollapsibleWidget -/

/-- Contents margins of a layout: left, top, right, bottom. -/
structure Margins where
  left : Int
  top : Int
  right : Int
  bottom : Int
deriving DecidableEq, Repr

/-- State of a `CollapsibleWidget`: the member `expanded`, the visibility of the content
widget and the number of widgets in its layout, the text of the button icon, the
contents margins of the main layout, whether the widget is enabled, and the dynamic
property `index` (`none` when the property is not set, that is, when its `QVariant` is
invalid; otherwise the value of `toInt()`). -/
structure CollapsibleWidget where
  key : String
  expanded : Bool
  contentVisible : Bool
  contentCount : Nat
  buttonIcon : String
  margins : Margins
  enabled : Bool
  index : Option Int
deriving DecidableEq, Repr

namespace CollapsibleWidget

/-- The constructor `CollapsibleWidget::CollapsibleWidget(key)`. -/
def ctor (_key : String) : CollapsibleWidget :=
  { key := _key, expanded := false, contentVisible := false, contentCount := 0,
    buttonIcon := "▲", margins := ⟨0, 0, 0, 0⟩, enabled := false, index := none }

/-- The method `CollapsibleWidget::ContentCount`. -/
def ContentCount (w : CollapsibleWidget) : Nat := w.contentCount

/-- The method `CollapsibleWidget::AppendContent`. -/
def AppendContent (w : CollapsibleWidget) : CollapsibleWidget :=
  { w with contentCount := w.contentCount + 1, enabled := true }

/-- The call `setProperty("index", value)` with an integer value. -/
def setIndex (w : CollapsibleWidget) (value : Int) : CollapsibleWidget :=
  { w with index := some value }

/-- The slot `CollapsibleWidget::Toggle`. -/
def Toggle (w : CollapsibleWidget) (_checked : Bool) : CollapsibleWidget :=
  let w := { w with contentVisible := _checked }
  let w :=
    if _checked then
      let indexProperty := w.index
      { w with
        buttonIcon := "▼",
        margins :=
          ⟨0,
           if decide (w.ContentCount > 0) && indexProperty.isSome &&
               decide (indexProperty.getD 0 = 0) then 0 else 16,
           0,
           if w.ContentCount > 0 then 16 else 0⟩ }
    else
      { w with buttonIcon := "▲", margins := ⟨0, 0, 0, 0⟩ }
  { w with expanded := _checked }

/-- The method `CollapsibleWidget::IsExpanded`. -/
def IsExpanded (w : CollapsibleWidget) : Bool := w.expanded

end CollapsibleWidget

/-- State of the wiring in which no `RenderNext` can run any more: the renderer is not
initialised, no `RenderNext` is queued, the render context exists, and the texture node
exists with nothing pending (pending id 0). -/
def RenderWindowItem.Stalled {R P : Type} (s : RenderWindowItem R P) : Prop :=
  s.renderThread.ignRenderer.initialized = false ∧
  s.renderNextQueued = 0 ∧
  s.renderThread.context = true ∧
  ∃ n : TextureNode, s.node = some n ∧ n.id = 0

namespace Example

/-- Events up to the creation of the texture node, which queues the first `RenderNext`. -/
def setUp : List (WindowEvent Int Int) :=
  [WindowEvent.updatePaintNode, WindowEvent.runReady, WindowEvent.updatePaintNode]

/-- The render window after `setUp`, for a node whose pending id starts at 0. -/
def windowSetUp : RenderWindowItem Int Int :=
  RenderWindowItem.run 0 ⟨0, 0⟩ (RenderWindowItem.ctor renderer ⟨640, 0⟩ ⟨480, 0⟩) setUp

/-- Events after the first `RenderNext`: frames of the scene graph, a resize, and
attempts to run `RenderNext` with the engine available. -/
def afterFailure : List (WindowEvent Int Int) :=
  [WindowEvent.beforeRendering, WindowEvent.runRenderNext env, WindowEvent.updatePaintNode,
   WindowEvent.resize ⟨800, 0⟩ ⟨600, 0⟩, WindowEvent.beforeRendering,
   WindowEvent.runRenderNext env]

end Example

/-! # Theorems -/

/-! ## TextureNode: sequential handoff -/

theorem TextureNode.NewTextures_append (n : TextureNode) (xs ys : List (Int × QSize)) :
    (n.NewTextures (xs ++ ys)).1 = ((n.NewTextures xs).1.NewTextures ys).1 := by
  induction xs generalizing n with
  | nil => rfl
  | cons x xs ih =>
    obtain ⟨i, s⟩ := x
    simp only [List.cons_append, TextureNode.NewTextures]
    exact ih _

theorem TextureNode.NewTexture_last (n m : TextureNode) (i : Int) (s : QSize)
    (h : m.texture = n.texture ∧ m.nodeTexture = n.nodeTexture ∧
      m.dirtyMaterial = n.dirtyMaterial) :
    (m.NewTexture i s).1 = (n.NewTexture i s).1 := by
  cases n; cases m
  simp only [TextureNode.NewTexture] at *
  simp_all

theorem TextureNode.NewTextures_keeps (n : TextureNode) (xs : List (Int × QSize)) :
    (n.NewTextures xs).1.texture = n.texture ∧
    (n.NewTextures xs).1.nodeTexture = n.nodeTexture ∧
    (n.NewTextures xs).1.dirtyMaterial = n.dirtyMaterial := by
  induction xs generalizing n with
  | nil => exact ⟨rfl, rfl, rfl⟩
  | cons x xs ih =>
    obtain ⟨i, s⟩ := x
    simp only [TextureNode.NewTextures]
    exact ih _

/-- C1: after any sequence of `NewTexture` calls ending with `NewTexture(i, s)`,
`i ≠ 0`, the node state equals the one a single `NewTexture(i, s)` produces (earlier
ids and sizes are not used), and `PrepareNode` installs the texture created from
`(i, s)`, marks the material dirty, emits `TextureInUse` exactly once and leaves the
pending id 0. -/
theorem TextureNode.prepare_after_newTextures (n : TextureNode)
    (earlier : List (Int × QSize)) (i : Int) (s : QSize) (hi : i ≠ 0) :
    (n.NewTextures (earlier ++ [(i, s)])).1 = (n.NewTexture i s).1 ∧
    (n.NewTextures (earlier ++ [(i, s)])).1.PrepareNode.1.texture
      = createTextureFromId i s CreateTextureOption.TextureIsOpaque ∧
    (n.NewTextures (earlier ++ [(i, s)])).1.PrepareNode.1.nodeTexture
      = createTextureFromId i s CreateTextureOption.TextureIsOpaque ∧
    (n.NewTextures (earlier ++ [(i, s)])).1.PrepareNode.1.dirtyMaterial = true ∧
    (n.NewTextures (earlier ++ [(i, s)])).1.PrepareNode.2
      = [TextureNodeSignal.TextureInUse] ∧
    (n.NewTextures (earlier ++ [(i, s)])).1.PrepareNode.2.count
      TextureNodeSignal.TextureInUse = 1 ∧
    (n.NewTextures (earlier ++ [(i, s)])).1.PrepareNode.1.id = 0 := by
  have h1 : (n.NewTextures (earlier ++ [(i, s)])).1 = (n.NewTexture i s).1 := by
    rw [TextureNode.NewTextures_append]
    simp only [TextureNode.NewTextures]
    exact TextureNode.NewTexture_last n _ i s (TextureNode.NewTextures_keeps n earlier)
  rw [h1]
  simp [TextureNode.NewTexture, TextureNode.PrepareNode, hi]

theorem TextureNode.prepare_after_newTextures_witness :
    ((TextureNode.ctor 0 ⟨0, 0⟩).NewTextures
        ([(3, ⟨640, 480⟩), (0, ⟨1, 1⟩)] ++ [(7, ⟨800, 600⟩)])).1.PrepareNode
      = ({ id := 0, size := ⟨800, 600⟩,
           texture := ⟨7, ⟨800, 600⟩, CreateTextureOption.TextureIsOpaque⟩,
           nodeTexture := ⟨7, ⟨800, 600⟩, CreateTextureOption.TextureIsOpaque⟩,
           dirtyMaterial := true }, [TextureNodeSignal.TextureInUse]) ∧
    ((TextureNode.ctor 0 ⟨0, 0⟩).NewTextures
        ([(3, ⟨640, 480⟩), (0, ⟨1, 1⟩)] ++ [(7, ⟨800, 600⟩)])).1.PrepareNode.2.count
      TextureNodeSignal.TextureInUse = 1 :=
  ⟨by decide,
   (TextureNode.prepare_after_newTextures (TextureNode.ctor 0 ⟨0, 0⟩)
      [(3, ⟨640, 480⟩), (0, ⟨1, 1⟩)] 7 ⟨800, 600⟩ (by decide)).2.2.2.2.2.1⟩

/-- C2: a `PrepareNode` on a node whose pending id is 0 changes nothing (texture,
installed texture and dirty flag are kept) and emits no signal; every `PrepareNode`
leaves the pending id 0; hence two consecutive `PrepareNode` calls emit `TextureInUse`
at most once in total. -/
theorem TextureNode.prepare_consumes_once :
    (∀ n : TextureNode, n.id = 0 → n.PrepareNode = (n, [])) ∧
    (∀ n : TextureNode, n.PrepareNode.1.id = 0) ∧
    (∀ n : TextureNode, n.PrepareNode.1.PrepareNode = (n.PrepareNode.1, [])) ∧
    (∀ n : TextureNode,
      (n.PrepareNode.2 ++ n.PrepareNode.1.PrepareNode.2).count
        TextureNodeSignal.TextureInUse ≤ 1) := by
  have h0 : ∀ n : TextureNode, n.id = 0 → n.PrepareNode = (n, []) := by
    intro n hn
    cases n
    simp only [TextureNode.PrepareNode] at *
    simp_all
  have h1 : ∀ n : TextureNode, n.PrepareNode.1.id = 0 := by
    intro n
    simp only [TextureNode.PrepareNode]
    split <;> rfl
  refine ⟨h0, h1, fun n => h0 _ (h1 n), fun n => ?_⟩
  rw [h0 _ (h1 n)]
  simp only [TextureNode.PrepareNode]
  split <;> simp

theorem TextureNode.prepare_consumes_once_witness :
    (TextureNode.ctor 0 ⟨0, 0⟩).PrepareNode = (TextureNode.ctor 0 ⟨0, 0⟩, []) :=
  TextureNode.prepare_consumes_once.1 (TextureNode.ctor 0 ⟨0, 0⟩) rfl

/-! ## SceneManager: loading a scene -/

namespace StdMap
theorem mem_keys_assign {V : Type} (m : StdMap V) (k : Nat) (v : V) (x : Nat) :
    x ∈ keys (assign m k v) ↔ x = k ∨ x ∈ keys m := by
  induction m with
  | nil => simp [assign, keys]
  | cons e rest ih =>
    obtain ⟨k1, v1⟩ := e
    simp only [assign]
    split
    · simp [keys]
    · split
      · rename_i h; subst h; simp [keys]
      · simp only [keys, List.map_cons, List.mem_cons] at ih ⊢
        rw [ih]; tauto
end StdMap

namespace SceneManager
variable {R P : Type}

theorem LoadGeometry_data [IgnMath R P] (meshOk : String → Bool) (m : SceneManager R P)
    (g : msgs.Geometry R) (s : Vector3 R) (p : P) :
    (LoadGeometry meshOk m g s p).2.2.2.data = m.data := by
  unfold LoadGeometry
  repeat' split
  all_goals rfl

theorem LoadMaterial_data (m : SceneManager R P) (x : msgs.Material R) :
    (LoadMaterial m x).2.data = m.data := rfl

theorem LoadVisual.material_data [IgnMath R P] (m : SceneManager R P) (v : msgs.Visual R P) (g : Nat) :
    (LoadVisual.material m v g).data = m.data := by
  unfold LoadVisual.material
  cases v.material <;> rfl

theorem fields_of_data {a b : SceneManager R P} (h : a.data = b.data) :
    a.service = b.service ∧ a.poseTopic = b.poseTopic ∧ a.poses = b.poses ∧
    a.localPoses = b.localPoses ∧ a.visuals = b.visuals ∧ a.lights = b.lights ∧
    a.node = b.node := by
  simpa only [data, Prod.mk.injEq] using h

theorem LoadVisual.finish_fields [IgnMath R P] (m : SceneManager R P) (v : msgs.Visual R P) (h : Nat)
    (geom : Option Nat) (scale : Vector3 R) (lp : P) :
    (LoadVisual.finish m v h geom scale lp).2.visuals = m.visuals ∧
    (LoadVisual.finish m v h geom scale lp).2.lights = m.lights ∧
    (LoadVisual.finish m v h geom scale lp).2.poses = m.poses ∧
    (LoadVisual.finish m v h geom scale lp).2.node = m.node ∧
    (LoadVisual.finish m v h geom scale lp).2.poseTopic = m.poseTopic ∧
    (LoadVisual.finish m v h geom scale lp).2.service = m.service ∧
    (LoadVisual.finish m v h geom scale lp).2.localPoses =
      (match geom with
       | some _ => StdMap.assign m.localPoses v.id lp
       | none => m.localPoses) := by
  unfold LoadVisual.finish
  cases geom with
  | none => simp
  | some g =>
    have hd := fun a => fields_of_data (LoadVisual.material_data (R := R) (P := P) a v g)
    simp [hd]

theorem LoadVisual_fields [IgnMath R P] (meshOk : String → Bool) (m : SceneManager R P) (v : msgs.Visual R P) :
    (LoadVisual meshOk m v).2.visuals =
      (match v.geometry with
       | some _ => StdMap.assign m.visuals v.id m.scene.visuals.length
       | none => m.visuals) ∧
    (LoadVisual meshOk m v).2.lights = m.lights ∧
    (LoadVisual meshOk m v).2.poses = m.poses ∧
    (LoadVisual meshOk m v).2.node = m.node ∧
    (LoadVisual meshOk m v).2.poseTopic = m.poseTopic ∧
    (LoadVisual meshOk m v).2.service = m.service := by
  unfold LoadVisual
  cases v.geometry with
  | none => simp
  | some g =>
    have hg := fun a s p => fields_of_data (LoadGeometry_data (R := R) (P := P) meshOk a g s p)
    have hf := fun a h geom scale lp => LoadVisual.finish_fields (R := R) (P := P) a v h geom scale lp
    simp [hg, hf, rendering.Scene.CreateVisual]

theorem LoadLight.create_eq_none (sc : rendering.Scene R P) (l : msgs.Light R P) :
    LoadLight.create sc l = none ↔ l.type.supported = false := by
  unfold LoadLight.create
  cases l.type <;> simp [msgs.LightType.supported]
  split <;> simp

theorem LoadLight_fields (m : SceneManager R P) (l : msgs.Light R P) :
    (LoadLight m l).2.visuals = m.visuals ∧
    (LoadLight m l).2.poses = m.poses ∧
    (LoadLight m l).2.localPoses = m.localPoses ∧
    (LoadLight m l).2.node = m.node ∧
    (LoadLight m l).2.poseTopic = m.poseTopic ∧
    (LoadLight m l).2.service = m.service ∧
    (∀ x, x ∈ StdMap.keys (LoadLight m l).2.lights ↔
      x ∈ StdMap.keys m.lights ∨ (l.type.supported = true ∧ x = l.id)) := by
  unfold LoadLight
  cases hc : LoadLight.create m.scene l with
  | none =>
    have := (LoadLight.create_eq_none m.scene l).1 hc
    simp [this]
  | some c =>
    have : l.type.supported = true := by
      cases hs : l.type.supported with
      | true => rfl
      | false => rw [(LoadLight.create_eq_none m.scene l).2 hs] at hc; cases hc
    simp [this, StdMap.mem_keys_assign]
    intro x; tauto

theorem Loaded.refl (m : SceneManager R P) : Loaded m m [] [] := by
  simp [Loaded]

theorem Loaded.trans {m n k : SceneManager R P} {v1 l1 v2 l2 : List Nat}
    (h1 : Loaded m n v1 l1) (h2 : Loaded n k v2 l2) : Loaded m k (v1 ++ v2) (l1 ++ l2) := by
  obtain ⟨a1, a2, a3, a4, a5, a6⟩ := h1
  obtain ⟨b1, b2, b3, b4, b5, b6⟩ := h2
  refine ⟨fun x => ?_, fun x => ?_, b3.trans a3, b4.trans a4, b5.trans a5, b6.trans a6⟩
  · rw [b1, a1, List.mem_append, or_assoc]
  · rw [b2, a2, List.mem_append, or_assoc]

theorem Loaded.setScene {m n : SceneManager R P} {v l : List Nat} (h : Loaded m n v l)
    (sc : rendering.Scene R P) : Loaded m { n with scene := sc } v l := h

theorem Loaded.foldl {α : Type} (f : SceneManager R P → α → SceneManager R P)
    (vid lid : α → List Nat) (hf : ∀ m a, Loaded m (f m a) (vid a) (lid a)) :
    ∀ (xs : List α) (m : SceneManager R P),
      Loaded m (xs.foldl f m) (xs.map vid).flatten (xs.map lid).flatten
  | [], m => Loaded.refl m
  | a :: rest, m => by
    simp only [List.foldl_cons, List.map_cons, List.flatten_cons]
    exact Loaded.trans (hf m a) (Loaded.foldl f vid lid hf rest (f m a))

theorem LoadVisual_loaded [IgnMath R P] (meshOk : String → Bool) (m : SceneManager R P)
    (v : msgs.Visual R P) :
    Loaded m (LoadVisual meshOk m v).2 (if v.geometry.isSome then [v.id] else []) [] := by
  obtain ⟨h1, h2, h3, h4, h5, h6⟩ := LoadVisual_fields meshOk m v
  refine ⟨fun x => ?_, fun x => ?_, h3, h4, h5, h6⟩
  · rw [h1]
    cases v.geometry with
    | none => simp
    | some g => simp [StdMap.mem_keys_assign, or_comm]
  · rw [h2]; simp

theorem LoadLight_loaded (m : SceneManager R P) (l : msgs.Light R P) :
    Loaded m (LoadLight m l).2 [] (if l.type.supported then [l.id] else []) := by
  obtain ⟨h1, h2, _, h4, h5, h6, h7⟩ := LoadLight_fields m l
  refine ⟨fun x => ?_, fun x => ?_, h2, h4, h5, h6⟩
  · rw [h1]; simp
  · rw [h7]
    cases l.type.supported <;> simp

theorem registerVisual_loaded (m : SceneManager R P) (id : Nat) (pose : Option P) :
    Loaded m (registerVisual m id pose) [id] [] := by
  unfold registerVisual
  refine ⟨fun x => ?_, fun x => ?_, rfl, rfl, rfl, rfl⟩
  · simp [StdMap.mem_keys_assign, or_comm]
  · simp

theorem LoadLink.visualBody_loaded [IgnMath R P] (meshOk : String → Bool) (h : Nat)
    (m : SceneManager R P) (v : msgs.Visual R P) :
    Loaded m (LoadLink.visualBody meshOk h m v) (if v.geometry.isSome then [v.id] else []) [] := by
  have := LoadVisual_loaded meshOk m v
  unfold LoadLink.visualBody
  split
  · rename_i heq; rw [heq] at this; exact this.setScene _
  · rename_i heq; rw [heq] at this; exact this

theorem LoadLink.lightBody_loaded (h : Nat) (m : SceneManager R P) (l : msgs.Light R P) :
    Loaded m (LoadLink.lightBody h m l) [] (if l.type.supported then [l.id] else []) := by
  have := LoadLight_loaded m l
  unfold LoadLink.lightBody
  split
  · rename_i heq; rw [heq] at this; exact this.setScene _
  · rename_i heq; rw [heq] at this; exact this

theorem flatten_map_filter_ids {α : Type} (p : α → Bool) (f : α → Nat) (xs : List α) :
    (xs.map (fun a => if p a then [f a] else [])).flatten = (xs.filter p).map f := by
  induction xs with
  | nil => rfl
  | cons a rest ih =>
    simp only [List.map_cons, List.flatten_cons, List.filter_cons, ih]
    cases p a <;> simp

theorem flatten_map_nil {α : Type} (xs : List α) :
    (xs.map (fun _ => ([] : List Nat))).flatten = [] := by
  induction xs with
  | nil => rfl
  | cons a rest ih => simp

theorem LoadLink_loaded [IgnMath R P] (meshOk : String → Bool) (m : SceneManager R P)
    (l : msgs.Link R P) :
    Loaded m (LoadLink meshOk m l).2 l.visualIds (msgs.lightIds l.light) := by
  unfold LoadLink
  have h1 := registerVisual_loaded m l.id l.pose
  have h2 := Loaded.foldl _ _ _ (LoadLink.visualBody_loaded meshOk m.scene.CreateVisual.1)
    l.visual (registerVisual m l.id l.pose)
  have h3 := Loaded.foldl _ _ _ (LoadLink.lightBody_loaded (R := R) (P := P) m.scene.CreateVisual.1)
    l.light (l.visual.foldl (LoadLink.visualBody meshOk m.scene.CreateVisual.1)
      (registerVisual m l.id l.pose))
  have h := (h1.trans h2).trans h3
  simp only [flatten_map_filter_ids, flatten_map_nil, List.append_nil, List.nil_append,
    List.singleton_append] at h
  exact h

theorem LoadModel.linkBody_loaded [IgnMath R P] (meshOk : String → Bool) (h : Nat)
    (m : SceneManager R P) (l : msgs.Link R P) :
    Loaded m (LoadModel.linkBody meshOk h m l) l.visualIds (msgs.lightIds l.light) := by
  have := LoadLink_loaded meshOk m l
  unfold LoadModel.linkBody
  split
  · rename_i heq; rw [heq] at this; exact this.setScene _
  · rename_i heq; rw [heq] at this; exact this

theorem flatten_map_linkVisualIds (ls : List (msgs.Link R P)) :
    (ls.map msgs.Link.visualIds).flatten = msgs.linksVisualIds ls := by
  induction ls with
  | nil => rfl
  | cons a rest ih => simp [msgs.linksVisualIds, ih]

theorem flatten_map_linkLightIds (ls : List (msgs.Link R P)) :
    (ls.map (fun l => msgs.lightIds l.light)).flatten = msgs.linksLightIds ls := by
  induction ls with
  | nil => rfl
  | cons a rest ih => simp [msgs.linksLightIds, ih]

mutual

theorem LoadModel_loaded [IgnMath R P] (meshOk : String → Bool) :
    ∀ (x : msgs.Model R P) (m : SceneManager R P),
      Loaded m (LoadModel meshOk m x).2 x.visualIds x.lightIds
  | msgs.Model.mk id name pose link model, m => by
    have h1 := registerVisual_loaded m id pose
    have h2 := Loaded.foldl _ _ _ (LoadModel.linkBody_loaded meshOk m.scene.CreateVisual.1)
      link (registerVisual m id pose)
    have h3 := LoadModel.nested_loaded meshOk m.scene.CreateVisual.1 model
      (link.foldl (LoadModel.linkBody meshOk m.scene.CreateVisual.1) (registerVisual m id pose))
    have h := (h1.trans h2).trans h3
    rw [flatten_map_linkVisualIds, flatten_map_linkLightIds] at h
    simp only [LoadModel, msgs.Model.visualIds, msgs.Model.lightIds]
    simpa using h

theorem LoadModel.nested_loaded [IgnMath R P] (meshOk : String → Bool) (h : Nat) :
    ∀ (xs : List (msgs.Model R P)) (m : SceneManager R P),
      Loaded m (LoadModel.nested meshOk h m xs) (msgs.modelsVisualIds xs)
        (msgs.modelsLightIds xs)
  | [], m => by
    simp only [LoadModel.nested, msgs.modelsVisualIds, msgs.modelsLightIds]
    exact Loaded.refl m
  | x :: rest, m => by
    have h1 := LoadModel_loaded meshOk x m
    simp only [LoadModel.nested, msgs.modelsVisualIds, msgs.modelsLightIds]
    split
    · rename_i c n heq
      rw [heq] at h1
      exact Loaded.trans (h1.setScene _) (LoadModel.nested_loaded meshOk h rest _)
    · rename_i n heq
      rw [heq] at h1
      exact Loaded.trans h1 (LoadModel.nested_loaded meshOk h rest _)

end

theorem LoadScene.sceneModel_loaded [IgnMath R P] (meshOk : String → Bool)
    (m : SceneManager R P) (x : msgs.Model R P) :
    Loaded m (LoadScene.modelBody meshOk m x) x.visualIds x.lightIds := by
  have := LoadModel_loaded meshOk x m
  unfold LoadScene.modelBody
  split
  · rename_i heq; rw [heq] at this; exact this.setScene _
  · rename_i heq; rw [heq] at this; exact this

theorem LoadScene.sceneLight_loaded (m : SceneManager R P) (l : msgs.Light R P) :
    Loaded m (LoadScene.lightBody m l) [] (if l.type.supported then [l.id] else []) := by
  have := LoadLight_loaded m l
  unfold LoadScene.lightBody
  split
  · rename_i heq; rw [heq] at this; exact this.setScene _
  · rename_i heq; rw [heq] at this; exact this

theorem flatten_map_modelVisualIds (xs : List (msgs.Model R P)) :
    (xs.map msgs.Model.visualIds).flatten = msgs.modelsVisualIds xs := by
  induction xs with
  | nil => simp [msgs.modelsVisualIds]
  | cons a rest ih => simp [msgs.modelsVisualIds, ih]

theorem flatten_map_modelLightIds (xs : List (msgs.Model R P)) :
    (xs.map msgs.Model.lightIds).flatten = msgs.modelsLightIds xs := by
  induction xs with
  | nil => simp [msgs.modelsLightIds]
  | cons a rest ih => simp [msgs.modelsLightIds, ih]

theorem LoadScene_loaded [IgnMath R P] (meshOk : String → Bool) (m : SceneManager R P)
    (msg : msgs.Scene R P) :
    Loaded m (LoadScene meshOk m msg) msg.visualIds msg.lightIds := by
  unfold LoadScene
  have h1 := Loaded.foldl _ _ _ (LoadScene.sceneModel_loaded (R := R) (P := P) meshOk) msg.model m
  have h2 := Loaded.foldl _ _ _ (LoadScene.sceneLight_loaded (R := R) (P := P)) msg.light
    (msg.model.foldl (LoadScene.modelBody meshOk) m)
  have h := h1.trans h2
  rw [flatten_map_modelVisualIds, flatten_map_modelLightIds] at h
  simp only [flatten_map_filter_ids, flatten_map_nil, List.append_nil] at h
  exact h

/-- C5: starting from empty `visuals` and `lights` maps, after `LoadScene` the keys of
`visuals` are exactly the ids of the models of the message at any nesting depth, of
their links and of the links' visuals that have a geometry field, and the keys of
`lights` are exactly the ids of the link-level and scene-level lights of type point,
spot or directional. `LoadScene` is a total function: the recursion over nested models
is structural on the message. -/
theorem LoadScene_key_sets [IgnMath R P] (meshOk : String → Bool) (m : SceneManager R P)
    (msg : msgs.Scene R P) (hv : m.visuals = []) (hl : m.lights = []) :
    (∀ x, x ∈ StdMap.keys (LoadScene meshOk m msg).visuals ↔ x ∈ msg.visualIds) ∧
    (∀ x, x ∈ StdMap.keys (LoadScene meshOk m msg).lights ↔ x ∈ msg.lightIds) := by
  obtain ⟨h1, h2, _⟩ := LoadScene_loaded meshOk m msg
  constructor
  · intro x; rw [h1, hv]; simp [StdMap.keys]
  · intro x; rw [h2, hl]; simp [StdMap.keys]
end SceneManager

theorem SceneManager.LoadScene_key_sets_witness :
    Example.manager.visuals = [] ∧ Example.manager.lights = [] ∧
    (8 ∈ StdMap.keys (SceneManager.LoadScene (fun _ => true) Example.manager
        Example.scene).visuals ↔ 8 ∈ Example.scene.visualIds) ∧
    (6 ∈ StdMap.keys (SceneManager.LoadScene (fun _ => true) Example.manager
        Example.scene).lights ↔ 6 ∈ Example.scene.lightIds) :=
  ⟨rfl, rfl,
   (SceneManager.LoadScene_key_sets (fun _ => true) Example.manager Example.scene rfl rfl).1 8,
   (SceneManager.LoadScene_key_sets (fun _ => true) Example.manager Example.scene rfl rfl).2 6⟩

theorem SceneManager.LoadScene_example :
    StdMap.keys (SceneManager.LoadScene (fun _ => true) Example.manager Example.scene).visuals
      = [1, 2, 3, 7, 8] ∧
    StdMap.keys (SceneManager.LoadScene (fun _ => true) Example.manager Example.scene).lights
      = [5, 9] := by
  decide

/-! ## SceneManager: pose updates -/

namespace StdMap

theorem mem_of_find {V : Type} {m : StdMap V} {k : Nat} {v : V} (h : find m k = some v) :
    (k, v) ∈ m := by
  induction m with
  | nil => simp [find] at h
  | cons e rest ih =>
    obtain ⟨k1, v1⟩ := e
    simp only [find] at h
    split at h
    · rename_i hk; subst hk; cases h; simp
    · exact List.mem_cons_of_mem _ (ih h)

theorem find_eq_none_iff {V : Type} (m : StdMap V) (k : Nat) :
    find m k = none ↔ k ∉ keys m := by
  induction m with
  | nil => simp [find, keys]
  | cons e rest ih =>
    obtain ⟨k1, v1⟩ := e
    simp only [find, keys, List.map_cons, List.mem_cons, not_or]
    split
    · rename_i hk; simp [hk]
    · rename_i hk
      simp only [keys] at ih
      rw [ih]; simp [hk]

theorem key_unique_of_handle {V : Type} {m : StdMap V} (hn : (m.map Prod.snd).Nodup)
    {k1 k2 : Nat} {v : V} (h1 : (k1, v) ∈ m) (h2 : (k2, v) ∈ m) : k1 = k2 := by
  induction m with
  | nil => simp at h1
  | cons e rest ih =>
    simp only [List.map_cons, List.nodup_cons, List.mem_map, not_exists, not_and] at hn
    rcases List.mem_cons.1 h1 with h1 | h1 <;> rcases List.mem_cons.1 h2 with h2 | h2
    · rw [← h1] at h2; exact (Prod.mk.inj h2).1.symm
    · exact absurd (by rw [← h1]) (hn.1 (k2, v) h2)
    · exact absurd (by rw [← h2]) (hn.1 (k1, v) h1)
    · exact ih hn.2 h1 h2

theorem value_unique_of_WF {V : Type} {m : StdMap V} (hw : WF m)
    {k : Nat} {v1 v2 : V} (h1 : (k, v1) ∈ m) (h2 : (k, v2) ∈ m) : v1 = v2 := by
  induction m with
  | nil => simp at h1
  | cons e rest ih =>
    simp only [WF, List.map_cons, List.pairwise_cons, List.mem_map, forall_exists_index,
      and_imp] at hw
    rcases List.mem_cons.1 h1 with h1 | h1 <;> rcases List.mem_cons.1 h2 with h2 | h2
    · rw [← h1] at h2; exact (Prod.mk.inj h2).2.symm
    · have := hw.1 k (k, v2) h2 rfl
      rw [← h1] at this; simp at this
    · have := hw.1 k (k, v1) h1 rfl
      rw [← h2] at this; simp at this
    · exact ih hw.2 h1 h2

end StdMap

namespace rendering.Scene
variable {R P : Type}

theorem getElem?_modifyAt {α : Type} (l : List α) (h : Nat) (f : α → α) (i : Nat) :
    (modifyAt l h f)[i]? = if i = h then l[i]?.map f else l[i]? := by
  unfold modifyAt
  cases hh : l[h]? with
  | none =>
    by_cases hi : i = h
    · subst hi; simp [hh]
    · simp [hi]
  | some a =>
    have hlt : h < l.length := by
      by_contra hc
      rw [List.getElem?_eq_none (Nat.le_of_not_lt hc)] at hh
      cases hh
    by_cases hi : i = h
    · subst hi; simp [hlt, hh]
    · have : ¬ h = i := fun hc => hi hc.symm
      simp [hi, List.getElem?_set, this]

theorem length_modifyAt {α : Type} (l : List α) (h : Nat) (f : α → α) :
    (modifyAt l h f).length = l.length := by
  unfold modifyAt
  cases l[h]? <;> simp

theorem visualLocalPose_SetVisualLocalPose (sc : Scene R P) (h : Nat) (p : P) (i : Nat) :
    (sc.SetVisualLocalPose h p).visualLocalPose i =
      if i = h ∧ h < sc.visuals.length then some p else sc.visualLocalPose i := by
  simp only [visualLocalPose, SetVisualLocalPose, modifyVisual, getElem?_modifyAt]
  by_cases hi : i = h
  · subst hi
    by_cases hl : i < sc.visuals.length
    · simp [hl]
    · simp [hl, List.getElem?_eq_none (Nat.le_of_not_lt hl)]
  · simp [hi]

theorem lightLocalPose_SetLightLocalPose (sc : Scene R P) (h : Nat) (p : P) (i : Nat) :
    (sc.SetLightLocalPose h p).lightLocalPose i =
      if i = h ∧ h < sc.lights.length then some p else sc.lightLocalPose i := by
  simp only [lightLocalPose, SetLightLocalPose, modifyLight, getElem?_modifyAt]
  by_cases hi : i = h
  · subst hi
    by_cases hl : i < sc.lights.length
    · simp [hl]
    · simp [hl, List.getElem?_eq_none (Nat.le_of_not_lt hl)]
  · simp [hi]

end rendering.Scene

/-- A fold whose steps either overwrite an observed value (at the entries selected by
`tgt`) or keep it: the observation keeps a value `q` that every selected entry
writes. -/
theorem foldl_observe_keep {S α V : Type} (f : S → α → S) (g : S → Option V) (val : α → V)
    (tgt : α → Prop) [DecidablePred tgt] (I : S → Prop)
    (step : ∀ s e, I s → I (f s e) ∧ g (f s e) = if tgt e then some (val e) else g s)
    (q : Option V) :
    ∀ (es : List α) (s : S), I s → (∀ e ∈ es, tgt e → some (val e) = q) → g s = q →
      g (es.foldl f s) = q
  | [], _, _, _, hq => hq
  | e :: rest, s, hI, hall, hq => by
    obtain ⟨hI2, hg⟩ := step s e hI
    refine foldl_observe_keep f g val tgt I step q rest (f s e) hI2
      (fun e2 he2 => hall e2 (List.mem_cons_of_mem _ he2)) ?_
    rw [hg]
    split
    · rename_i ht; exact hall e (List.mem_cons_self _ _) ht
    · exact hq

/-- A fold whose steps either overwrite an observed value or keep it: after the fold
the observation is the value written by a selected entry `e0`, when all selected
entries write that value. -/
theorem foldl_observe_set {S α V : Type} (f : S → α → S) (g : S → Option V) (val : α → V)
    (tgt : α → Prop) [DecidablePred tgt] (I : S → Prop)
    (step : ∀ s e, I s → I (f s e) ∧ g (f s e) = if tgt e then some (val e) else g s)
    (e0 : α) (h0 : tgt e0) :
    ∀ (es : List α) (s : S), I s → e0 ∈ es → (∀ e ∈ es, tgt e → val e = val e0) →
      g (es.foldl f s) = some (val e0)
  | [], _, _, hmem, _ => by simp at hmem
  | e :: rest, s, hI, hmem, hall => by
    obtain ⟨hI2, hg⟩ := step s e hI
    have hrest : ∀ e2 ∈ rest, tgt e2 → val e2 = val e0 :=
      fun e2 he2 => hall e2 (List.mem_cons_of_mem _ he2)
    by_cases ht : tgt e
    · refine foldl_observe_keep f g val tgt I step (some (val e0)) rest (f s e) hI2
        (fun e2 he2 h2 => by rw [hrest e2 he2 h2]) ?_
      rw [hg, if_pos ht, hall e (List.mem_cons_self _ _) ht]
    · have hne : e0 ≠ e := fun hc => ht (hc ▸ h0)
      rcases List.mem_cons.1 hmem with hm | hm
      · exact absurd hm hne
      · exact foldl_observe_set f g val tgt I step e0 h0 rest (f s e) hI2 hm hrest

namespace SceneManager
variable {R P : Type}

theorem Update.body_inv (m s : SceneManager R P) (e : Nat × P) (h : Update.Inv m s) :
    Update.Inv m (Update.body s e) := by
  obtain ⟨h1, h2, h3, h4, h5, h6, h7, h8⟩ := h
  unfold Update.body
  cases StdMap.find s.visuals e.1 with
  | some v =>
    exact ⟨h1, h2, h3, h4, h5, h6,
      by simpa [rendering.Scene.SetVisualLocalPose, rendering.Scene.modifyVisual,
        rendering.Scene.length_modifyAt] using h7,
      by simpa [rendering.Scene.SetVisualLocalPose, rendering.Scene.modifyVisual] using h8⟩
  | none =>
    cases StdMap.find s.lights e.1 with
    | some l =>
      exact ⟨h1, h2, h3, h4, h5, h6,
        by simpa [rendering.Scene.SetLightLocalPose, rendering.Scene.modifyLight] using h7,
        by simpa [rendering.Scene.SetLightLocalPose, rendering.Scene.modifyLight,
          rendering.Scene.length_modifyAt] using h8⟩
    | none => exact ⟨h1, h2, h3, h4, h5, h6, h7, h8⟩

theorem Update.body_visual (m s : SceneManager R P) (e : Nat × P) (i : Nat)
    (h : Update.Inv m s) :
    (Update.body s e).scene.visualLocalPose i =
      if StdMap.find m.visuals e.1 = some i ∧ i < m.scene.visuals.length then some e.2
      else s.scene.visualLocalPose i := by
  obtain ⟨h1, h2, _, _, _, _, h7, _⟩ := h
  unfold Update.body
  rw [h1, h2]
  cases hv : StdMap.find m.visuals e.1 with
  | some v =>
    simp only [rendering.Scene.visualLocalPose_SetVisualLocalPose, h7, Option.some.injEq]
    by_cases hi : i = v
    · subst hi; simp
    · have : ¬ v = i := fun hc => hi hc.symm
      simp [hi, this]
  | none =>
    cases StdMap.find m.lights e.1 with
    | some l =>
      simp [rendering.Scene.visualLocalPose, rendering.Scene.SetLightLocalPose,
        rendering.Scene.modifyLight]
    | none => simp

theorem Update.body_light (m s : SceneManager R P) (e : Nat × P) (i : Nat)
    (h : Update.Inv m s) :
    (Update.body s e).scene.lightLocalPose i =
      if (StdMap.find m.visuals e.1 = none ∧ StdMap.find m.lights e.1 = some i) ∧
          i < m.scene.lights.length then some e.2
      else s.scene.lightLocalPose i := by
  obtain ⟨h1, h2, _, _, _, _, _, h8⟩ := h
  unfold Update.body
  rw [h1, h2]
  cases hv : StdMap.find m.visuals e.1 with
  | some v =>
    simp [rendering.Scene.lightLocalPose, rendering.Scene.SetVisualLocalPose,
      rendering.Scene.modifyVisual]
  | none =>
    cases hl : StdMap.find m.lights e.1 with
    | some l =>
      simp only [rendering.Scene.lightLocalPose_SetLightLocalPose, h8, Option.some.injEq,
        true_and]
      by_cases hi : i = l
      · subst hi; simp
      · have : ¬ l = i := fun hc => hi hc.symm
        simp [hi, this]
    | none => simp

theorem Update.loop_inv (m : SceneManager R P) :
    ∀ (es : List (Nat × P)) (s : SceneManager R P), Update.Inv m s →
      Update.Inv m (es.foldl Update.body s)
  | [], _, h => h
  | e :: rest, s, h => Update.loop_inv m rest _ (Update.body_inv m s e h)

end SceneManager

namespace SceneManager
variable {R P : Type}

theorem Update.inv_refl (m : SceneManager R P) : Update.Inv m m :=
  ⟨rfl, rfl, rfl, rfl, rfl, rfl, rfl, rfl⟩

theorem Update.visual_step (m : SceneManager R P) (h : Nat) :
    ∀ s e, Update.Inv m s → Update.Inv m (Update.body s e) ∧
      (Update.body s e).scene.visualLocalPose h =
        if StdMap.find m.visuals e.1 = some h ∧ h < m.scene.visuals.length then some e.2
        else s.scene.visualLocalPose h :=
  fun s e hI => ⟨Update.body_inv m s e hI, Update.body_visual m s e h hI⟩

theorem Update.light_step (m : SceneManager R P) (l : Nat) :
    ∀ s e, Update.Inv m s → Update.Inv m (Update.body s e) ∧
      (Update.body s e).scene.lightLocalPose l =
        if (StdMap.find m.visuals e.1 = none ∧ StdMap.find m.lights e.1 = some l) ∧
            l < m.scene.lights.length then some e.2
        else s.scene.lightLocalPose l :=
  fun s e hI => ⟨Update.body_inv m s e hI, Update.body_light m s e l hI⟩

/-- C6: in a state that satisfies the representation invariant, `Update` gives every
pending pose `(id, p)` to the visual registered under `id` if there is one, otherwise
to the light registered under `id` if there is one; a light whose id is also the id of
a visual is not moved; visuals and lights whose id has no pending pose keep their
local pose; the maps `visuals`, `lights` and `localPoses` are unchanged. -/
theorem Update_applies_poses (m : SceneManager R P) (hm : m.Valid) :
    (∀ id p, (id, p) ∈ m.poses →
      (∀ h, StdMap.find m.visuals id = some h →
        (Update m).scene.visualLocalPose h = some p) ∧
      (StdMap.find m.visuals id = none → ∀ l, StdMap.find m.lights id = some l →
        (Update m).scene.lightLocalPose l = some p) ∧
      (∀ h l, StdMap.find m.visuals id = some h → StdMap.find m.lights id = some l →
        (Update m).scene.lightLocalPose l = m.scene.lightLocalPose l)) ∧
    (∀ id, id ∉ StdMap.keys m.poses →
      (∀ h, StdMap.find m.visuals id = some h →
        (Update m).scene.visualLocalPose h = m.scene.visualLocalPose h) ∧
      (∀ l, StdMap.find m.lights id = some l →
        (Update m).scene.lightLocalPose l = m.scene.lightLocalPose l)) ∧
    (Update m).visuals = m.visuals ∧ (Update m).lights = m.lights ∧
    (Update m).localPoses = m.localPoses := by
  obtain ⟨hwp, _, _, _, hnv, hnl, hrv, hrl⟩ := hm
  have hkey : ∀ e ∈ m.poses, e.1 ∈ StdMap.keys m.poses := fun e he =>
    List.mem_map.2 ⟨e, he, rfl⟩
  have hinv := Update.loop_inv m m.poses m (Update.inv_refl m)
  refine ⟨fun id p hp => ⟨fun h hh => ?_, fun hn l hl => ?_, fun h l hh hl => ?_⟩,
    fun id hid => ⟨fun h hh => ?_, fun l hl => ?_⟩, hinv.1, hinv.2.1, hinv.2.2.1⟩
  · have hmem := StdMap.mem_of_find hh
    exact foldl_observe_set Update.body (fun s => s.scene.visualLocalPose h) Prod.snd
      (fun e => StdMap.find m.visuals e.1 = some h ∧ h < m.scene.visuals.length)
      (Update.Inv m) (Update.visual_step m h) (id, p) ⟨hh, hrv _ hmem⟩ m.poses m
      (Update.inv_refl m) hp
      (fun e he ht => by
        have hk : e.1 = id := StdMap.key_unique_of_handle hnv (StdMap.mem_of_find ht.1) hmem
        have he2 : (id, e.2) ∈ m.poses := by rw [← hk]; exact he
        exact StdMap.value_unique_of_WF hwp he2 hp)
  · have hmem := StdMap.mem_of_find hl
    exact foldl_observe_set Update.body (fun s => s.scene.lightLocalPose l) Prod.snd
      (fun e => (StdMap.find m.visuals e.1 = none ∧ StdMap.find m.lights e.1 = some l) ∧
        l < m.scene.lights.length)
      (Update.Inv m) (Update.light_step m l) (id, p) ⟨⟨hn, hl⟩, hrl _ hmem⟩ m.poses m
      (Update.inv_refl m) hp
      (fun e he ht => by
        have hk : e.1 = id :=
          StdMap.key_unique_of_handle hnl (StdMap.mem_of_find ht.1.2) hmem
        have he2 : (id, e.2) ∈ m.poses := by rw [← hk]; exact he
        exact StdMap.value_unique_of_WF hwp he2 hp)
  · have hmem := StdMap.mem_of_find hl
    exact foldl_observe_keep Update.body (fun s => s.scene.lightLocalPose l) Prod.snd
      (fun e => (StdMap.find m.visuals e.1 = none ∧ StdMap.find m.lights e.1 = some l) ∧
        l < m.scene.lights.length)
      (Update.Inv m) (Update.light_step m l) (m.scene.lightLocalPose l) m.poses m
      (Update.inv_refl m)
      (fun e _ ht => by
        have hk : e.1 = id :=
          StdMap.key_unique_of_handle hnl (StdMap.mem_of_find ht.1.2) hmem
        have := ht.1.1
        rw [hk, hh] at this
        cases this) rfl
  · have hmem := StdMap.mem_of_find hh
    exact foldl_observe_keep Update.body (fun s => s.scene.visualLocalPose h) Prod.snd
      (fun e => StdMap.find m.visuals e.1 = some h ∧ h < m.scene.visuals.length)
      (Update.Inv m) (Update.visual_step m h) (m.scene.visualLocalPose h) m.poses m
      (Update.inv_refl m)
      (fun e he ht => by
        have hk : e.1 = id := StdMap.key_unique_of_handle hnv (StdMap.mem_of_find ht.1) hmem
        exact absurd (hk ▸ hkey e he) hid) rfl
  · have hmem := StdMap.mem_of_find hl
    exact foldl_observe_keep Update.body (fun s => s.scene.lightLocalPose l) Prod.snd
      (fun e => (StdMap.find m.visuals e.1 = none ∧ StdMap.find m.lights e.1 = some l) ∧
        l < m.scene.lights.length)
      (Update.Inv m) (Update.light_step m l) (m.scene.lightLocalPose l) m.poses m
      (Update.inv_refl m)
      (fun e he ht => by
        have hk : e.1 = id :=
          StdMap.key_unique_of_handle hnl (StdMap.mem_of_find ht.1.2) hmem
        exact absurd (hk ▸ hkey e he) hid) rfl

end SceneManager

theorem SceneManager.Update_applies_poses_witness :
    Example.pending.Valid ∧
    (SceneManager.Update Example.pending).scene.visualLocalPose 1 = some 10 ∧
    (SceneManager.Update Example.pending).scene.lightLocalPose 1 = some 20 ∧
    (SceneManager.Update Example.pending).scene.lightLocalPose 0
      = Example.pending.scene.lightLocalPose 0 ∧
    (SceneManager.Update Example.pending).scene.visualLocalPose 0
      = Example.pending.scene.visualLocalPose 0 :=
  ⟨by decide,
   ((SceneManager.Update_applies_poses Example.pending (by decide)).1 3 10 (by decide)).1 1
      (by decide),
   ((SceneManager.Update_applies_poses Example.pending (by decide)).1 9 20 (by decide)).2.1
      (by decide) 1 (by decide),
   ((SceneManager.Update_applies_poses Example.pending (by decide)).1 3 10 (by decide)).2.2 1 0
      (by decide) (by decide),
   ((SceneManager.Update_applies_poses Example.pending (by decide)).2.1 1 (by decide)).1 0
      (by decide)⟩

/-! ## SceneManager: pose messages and the scene request -/

namespace StdMap

theorem find_assign {V : Type} (m : StdMap V) (k : Nat) (v : V) (x : Nat) :
    find (assign m k v) x = if x = k then some v else find m x := by
  induction m with
  | nil => simp [assign, find]
  | cons e rest ih =>
    obtain ⟨k1, v1⟩ := e
    simp only [assign]
    split
    · simp [find]
    · split
      · rename_i hk; subst hk
        simp only [find]
        split <;> rfl
      · rename_i hlt hne
        simp only [find, ih]
        by_cases hx : x = k1
        · have : ¬ k1 = k := fun hc => hne hc.symm
          simp [hx, this]
        · simp [hx]

end StdMap

theorem foldl_invariant {S α : Type} (f : S → α → S) (I : S → Prop)
    (step : ∀ s e, I s → I (f s e)) : ∀ (es : List α) (s : S), I s → I (es.foldl f s)
  | [], _, h => h
  | e :: rest, s, h => foldl_invariant f I step rest (f s e) (step s e h)

/-- A fold whose steps either overwrite an observed value or keep it: after the fold
the observation is the value written by the last selected entry. -/
theorem foldl_observe_last {S α V : Type} (f : S → α → S) (g : S → Option V) (val : α → V)
    (tgt : α → Prop) [DecidablePred tgt] (I : S → Prop)
    (step : ∀ s e, I s → I (f s e) ∧ g (f s e) = if tgt e then some (val e) else g s)
    (pre : List α) (e : α) (post : List α) (s : S) (hI : I s) (he : tgt e)
    (hpost : ∀ x ∈ post, ¬ tgt x) :
    g ((pre ++ e :: post).foldl f s) = some (val e) := by
  rw [List.foldl_append, List.foldl_cons]
  have h1 := foldl_invariant f I (fun s e h => (step s e h).1) pre s hI
  obtain ⟨h2, h3⟩ := step _ e h1
  rw [if_pos he] at h3
  exact foldl_observe_keep f g val tgt I step (some (val e)) post _ h2
    (fun x hx ht => absurd ht (hpost x hx)) h3

namespace SceneManager
variable {R P : Type}

theorem OnPoseVMsg.step [IgnMath R P] (m : SceneManager R P) (id : Nat) :
    ∀ s e, OnPoseVMsg.Inv m s → OnPoseVMsg.Inv m (OnPoseVMsg.body s e) ∧
      StdMap.find (OnPoseVMsg.body s e).poses id =
        if e.id = id then some (OnPoseVMsg.stored m e) else StdMap.find s.poses id := by
  intro s e h
  refine ⟨h, ?_⟩
  obtain ⟨_, _, h3, _⟩ := h
  simp only [OnPoseVMsg.body, StdMap.find_assign, OnPoseVMsg.stored, h3]
  by_cases hc : id = e.id
  · simp [hc]
  · have : ¬ e.id = id := fun hh => hc hh.symm
    simp [hc, this]

/-- C8: after `OnPoseVMsg` the pending pose of an id of the message is the stored form
of the last message element with that id (`pose * localPoses[id]` when `localPoses` has
the id, the pose itself otherwise); pending poses of ids that do not occur in the
message are unchanged; `visuals`, `lights` and `localPoses` are unchanged. -/
theorem OnPoseVMsg_stores_last [IgnMath R P] (m : SceneManager R P) (msg : msgs.Pose_V P) :
    (∀ pre e post, msg.pose = pre ++ e :: post → (∀ x ∈ post, x.id ≠ e.id) →
      StdMap.find (OnPoseVMsg m msg).poses e.id =
        some (match StdMap.find m.localPoses e.id with
              | some l => IgnMath.poseMul R e.pose l
              | none => e.pose)) ∧
    (∀ id, (∀ x ∈ msg.pose, x.id ≠ id) →
      StdMap.find (OnPoseVMsg m msg).poses id = StdMap.find m.poses id) ∧
    (OnPoseVMsg m msg).visuals = m.visuals ∧ (OnPoseVMsg m msg).lights = m.lights ∧
    (OnPoseVMsg m msg).localPoses = m.localPoses := by
  have hI : OnPoseVMsg.Inv m m := ⟨rfl, rfl, rfl, rfl, rfl, rfl⟩
  have hinv := foldl_invariant OnPoseVMsg.body (OnPoseVMsg.Inv m)
    (fun s e h => (OnPoseVMsg.step m 0 s e h).1) msg.pose m hI
  refine ⟨fun pre e post hsplit hpost => ?_, fun id hid => ?_, hinv.1, hinv.2.1, hinv.2.2.1⟩
  · unfold OnPoseVMsg
    rw [hsplit]
    exact foldl_observe_last OnPoseVMsg.body (fun s => StdMap.find s.poses e.id)
      (OnPoseVMsg.stored m) (fun x => x.id = e.id) (OnPoseVMsg.Inv m)
      (OnPoseVMsg.step m e.id) pre e post m hI rfl hpost
  · exact foldl_observe_keep OnPoseVMsg.body (fun s => StdMap.find s.poses id)
      (OnPoseVMsg.stored m) (fun x => x.id = id) (OnPoseVMsg.Inv m)
      (OnPoseVMsg.step m id) (StdMap.find m.poses id) msg.pose m hI
      (fun x hx ht => absurd ht (hid x hx)) rfl

/-- C7: `Update` leaves `poses` empty in every state, so the poses that were pending
for ids registered neither as visual nor as light are gone: after entities are
registered by a later `LoadScene`, `poses` is still empty and the next `Update` moves
no object. -/
theorem Update_discards_poses [IgnMath R P] (m : SceneManager R P) (meshOk : String → Bool)
    (msg : msgs.Scene R P) :
    (Update m).poses = [] ∧
    (∀ id, StdMap.find (Update m).poses id = none) ∧
    (LoadScene meshOk (Update m) msg).poses = [] ∧
    (Update (LoadScene meshOk (Update m) msg)).scene
      = (LoadScene meshOk (Update m) msg).scene ∧
    (Update (Update m)).scene = (Update m).scene := by
  have h1 : (Update m).poses = [] := rfl
  have h2 : (LoadScene meshOk (Update m) msg).poses = [] :=
    (LoadScene_loaded meshOk (Update m) msg).2.2.1.trans h1
  have h3 : ∀ s : SceneManager R P, s.poses = [] → (Update s).scene = s.scene := by
    intro s hs
    simp only [Update, hs, List.foldl_nil]
  exact ⟨h1, fun id => rfl, h2, h3 _ h2, rfl⟩

end SceneManager

theorem SceneManager.OnPoseVMsg_stores_last_witness :
    StdMap.find (SceneManager.OnPoseVMsg Example.pending Example.poseMsg).poses 3 = some 104 ∧
    StdMap.find (SceneManager.OnPoseVMsg Example.pending Example.poseMsg).poses 7 = some 2 ∧
    StdMap.find (SceneManager.OnPoseVMsg Example.pending Example.poseMsg).poses 9 = some 20 :=
  ⟨(SceneManager.OnPoseVMsg_stores_last Example.pending Example.poseMsg).1
      [⟨3, 1⟩, ⟨7, 2⟩] ⟨3, 4⟩ [] rfl (by simp),
   (SceneManager.OnPoseVMsg_stores_last Example.pending Example.poseMsg).1
      [⟨3, 1⟩] ⟨7, 2⟩ [⟨3, 4⟩] rfl (by simp),
   (SceneManager.OnPoseVMsg_stores_last Example.pending Example.poseMsg).2.1 9
      (by simp [Example.poseMsg])⟩

namespace RenderThread
variable {R P : Type}

theorem RenderNext_emits_at_most_once [IgnMath R P] (t t2 : RenderThread R P)
    (env : RenderEnv R P) (out : List RenderThreadSignal)
    (h : t.RenderNext env = some (t2, out)) :
    out.length ≤ 1 ∧ t2.context = t.context := by
  unfold RenderNext at h
  generalize (if (!t.ignRenderer.initialized) = true then t.ignRenderer.Initialize env
    else t.ignRenderer) = r at h
  simp only at h
  split at h
  · cases h; exact ⟨by simp, rfl⟩
  · cases hr : r.Render env with
    | none => rw [hr] at h; cases h
    | some r2 => rw [hr] at h; cases h; exact ⟨by simp, rfl⟩

end RenderThread

theorem TextureNode.PrepareNode_signals (n : TextureNode) :
    n.PrepareNode.2 = [] ∨ n.PrepareNode.2 = [TextureNodeSignal.TextureInUse] := by
  simp only [TextureNode.PrepareNode]
  split
  · exact Or.inr rfl
  · exact Or.inl rfl

namespace RenderWindowItem
variable {R P : Type}

theorem deliverTextureReady_spec :
    ∀ (out : List RenderThreadSignal) (s : RenderWindowItem R P),
      (deliverTextureReady s out).trace.countP Trace.isRenderNext
        = s.trace.countP Trace.isRenderNext ∧
      (deliverTextureReady s out).trace.countP Trace.isTextureInUse
        = s.trace.countP Trace.isTextureInUse ∧
      (deliverTextureReady s out).trace.countP Trace.isTextureReady
        = s.trace.countP Trace.isTextureReady + out.length ∧
      (deliverTextureReady s out).renderNextQueued = s.renderNextQueued ∧
      (deliverTextureReady s out).node.isSome = s.node.isSome ∧
      (deliverTextureReady s out).renderThread = s.renderThread
  | [], s => by simp [deliverTextureReady]
  | RenderThreadSignal.TextureReady id size :: rest, s => by
    simp only [deliverTextureReady]
    cases hn : s.node with
    | none =>
      obtain ⟨h1, h2, h3, h4, h5, h6⟩ := deliverTextureReady_spec rest
        { s with trace := s.trace ++ [Trace.TextureReady id size] }
      simp only [hn] at h1 h2 h3 h4 h5 h6 ⊢
      refine ⟨?_, ?_, ?_, h4, h5, h6⟩
      · rw [h1]; simp [Trace.isRenderNext]
      · rw [h2]; simp [Trace.isTextureInUse]
      · rw [h3]; simp [Trace.isTextureReady]; omega
    | some n =>
      obtain ⟨h1, h2, h3, h4, h5, h6⟩ := deliverTextureReady_spec rest
        { s with node := some (n.NewTexture id size).1,
                 trace := s.trace ++ [Trace.TextureReady id size] ++
                   (n.NewTexture id size).2.map Trace.ofNodeSignal,
                 updateRequests := s.updateRequests + 1 }
      simp only [hn] at h1 h2 h3 h4 h5 h6 ⊢
      refine ⟨?_, ?_, ?_, h4, h5, h6⟩
      · rw [h1]; simp [Trace.isRenderNext, TextureNode.NewTexture, Trace.ofNodeSignal]
      · rw [h2]; simp [Trace.isTextureInUse, TextureNode.NewTexture, Trace.ofNodeSignal]
      · rw [h3]; simp [Trace.isTextureReady, TextureNode.NewTexture, Trace.ofNodeSignal]; omega

theorem deliverNodeSignals_prepare (s : RenderWindowItem R P) (n : TextureNode) :
    (deliverNodeSignals s n.PrepareNode.2).trace.countP Trace.isRenderNext
      = s.trace.countP Trace.isRenderNext ∧
    (deliverNodeSignals s n.PrepareNode.2).trace.countP Trace.isTextureReady
      = s.trace.countP Trace.isTextureReady ∧
    (deliverNodeSignals s n.PrepareNode.2).trace.countP Trace.isTextureInUse
        + s.renderNextQueued
      = s.trace.countP Trace.isTextureInUse
        + (deliverNodeSignals s n.PrepareNode.2).renderNextQueued ∧
    (deliverNodeSignals s n.PrepareNode.2).node = s.node ∧
    (deliverNodeSignals s n.PrepareNode.2).renderThread = s.renderThread := by
  rcases TextureNode.PrepareNode_signals n with hs | hs
  · rw [hs]; simp [deliverNodeSignals]
  · rw [hs]
    simp [deliverNodeSignals, Trace.isRenderNext, Trace.isTextureReady, Trace.isTextureInUse]
    omega

theorem Handshake_step [IgnMath R P] (id0 : Int) (size0 : QSize) (s : RenderWindowItem R P)
    (ev : WindowEvent R P) (h : s.Handshake) : (step id0 size0 s ev).Handshake := by
  obtain ⟨h1, h2, h3⟩ := h
  cases ev with
  | updatePaintNode =>
    simp only [step, updatePaintNode]
    cases hc : s.renderThread.context with
    | false =>
      have hn : s.node.isSome = false := by
        cases hs : s.node.isSome with
        | false => rfl
        | true => rw [h3 hs] at hc; cases hc
      simp only [hn] at h1
      exact ⟨by simpa using h1, h2, by simp⟩
    | true =>
      cases hn : s.node with
      | none =>
        simp only [hn, Option.isSome_none, Bool.false_eq_true, if_false] at h1
        refine ⟨?_, h2, fun _ => hc⟩
        simp only [Bool.not_true, Bool.false_eq_true, if_false, Option.isSome_some, if_true]
        omega
      | some n =>
        simp only [Bool.not_true, Bool.false_eq_true, if_false]
        exact ⟨h1, h2, h3⟩
  | runReady =>
    simp only [step]
    split
    · exact ⟨h1, h2, h3⟩
    · exact ⟨h1, h2, h3⟩
  | resize w h =>
    simp only [step]
    split
    · refine ⟨h1, h2, fun hs => ?_⟩
      have := h3 hs
      simp only [RenderThread.SizeChanged]
      split <;> exact this
    · exact ⟨h1, h2, h3⟩
  | runRenderNext env =>
    simp only [step]
    split
    · rename_i hrun
      simp only [Bool.and_eq_true, decide_eq_true_eq] at hrun
      cases hr : s.renderThread.RenderNext env with
      | none => exact ⟨h1, h2, h3⟩
      | some r =>
        obtain ⟨t, out⟩ := r
        obtain ⟨hlen, hctx⟩ := RenderThread.RenderNext_emits_at_most_once _ _ _ _ hr
        obtain ⟨d1, d2, d3, d4, d5, d6⟩ := deliverTextureReady_spec out
          { s with renderThread := t, renderNextQueued := s.renderNextQueued - 1,
                   trace := s.trace ++ [Trace.RenderNext] }
        simp only [List.countP_append, List.countP_cons, List.countP_nil, Trace.isRenderNext,
          Trace.isTextureInUse, Trace.isTextureReady] at d1 d2 d3 d4 d5 d6
        refine ⟨?_, ?_, fun hs => ?_⟩
        · rw [d1, d2, d4, d5]
          simp only [Bool.false_eq_true, if_false, if_true]
          omega
        · rw [d1, d3]
          simp only [Bool.false_eq_true, if_false, if_true]
          omega
        · rw [d5] at hs
          rw [d6]
          exact hctx.trans (h3 hs)
    · exact ⟨h1, h2, h3⟩
  | beforeRendering =>
    simp only [step]
    cases hn : s.node with
    | none => exact ⟨h1, h2, h3⟩
    | some n =>
      obtain ⟨p1, p2, p3, p4, p5⟩ :=
        deliverNodeSignals_prepare { s with node := some n.PrepareNode.1 } n
      simp only [hn, Option.isSome_some, if_true] at h1
      refine ⟨?_, ?_, fun _ => ?_⟩
      · rw [p1, p4]
        simp only [Option.isSome_some, if_true]
        simp only at p3
        omega
      · rw [p1, p2]; exact h2
      · rw [p5]; exact h3 (by rw [hn]; rfl)

theorem Handshake_run [IgnMath R P] (id0 : Int) (size0 : QSize) :
    ∀ (evs : List (WindowEvent R P)) (s : RenderWindowItem R P), s.Handshake →
      (run id0 size0 s evs).Handshake
  | [], _, h => h
  | ev :: rest, s, h => Handshake_run id0 size0 rest _ (Handshake_step id0 size0 s ev h)

/-- C4: in every state reached from a new render window item, the `RenderNext`
executions and queued invocations are one for the creation of the texture node plus
one per `TextureInUse` emission; `TextureReady` was emitted at most once per executed
`RenderNext`; hence the number of `TextureReady` emissions is at most the number of
`TextureInUse` emissions plus one. -/
theorem frame_handshake [IgnMath R P] (id0 : Int) (size0 : QSize) (r0 : IgnRenderer R P)
    (w h : QReal) (evs : List (WindowEvent R P)) :
    (run id0 size0 (ctor r0 w h) evs).trace.countP Trace.isRenderNext
        + (run id0 size0 (ctor r0 w h) evs).renderNextQueued
      = (if (run id0 size0 (ctor r0 w h) evs).node.isSome then 1 else 0)
        + (run id0 size0 (ctor r0 w h) evs).trace.countP Trace.isTextureInUse ∧
    (run id0 size0 (ctor r0 w h) evs).trace.countP Trace.isTextureReady
      ≤ (run id0 size0 (ctor r0 w h) evs).trace.countP Trace.isRenderNext ∧
    (run id0 size0 (ctor r0 w h) evs).trace.countP Trace.isTextureReady
      ≤ (run id0 size0 (ctor r0 w h) evs).trace.countP Trace.isTextureInUse + 1 := by
  have h0 : (ctor r0 w h).Handshake := by
    simp [Handshake, ctor]
  obtain ⟨h1, h2, _⟩ := Handshake_run id0 size0 evs _ h0
  refine ⟨h1, h2, ?_⟩
  split at h1 <;> omega

end RenderWindowItem

/-! ## RenderThread: failed initialisation and the retry -/

namespace IgnRenderer
variable {R P : Type}

theorem Render_initialized [IgnMath R P] (r r2 : IgnRenderer R P) (env : RenderEnv R P)
    (h : r.Render env = some r2) : r2.initialized = r.initialized := by
  unfold Render at h
  cases hc : r.camera with
  | none => rw [hc] at h; cases h
  | some c =>
    rw [hc] at h
    simp only at h
    by_cases hd : r.textureDirty = true
    · by_cases hz : r.textureSize.ht = 0
      · simp [hd, hz] at h
      · simp only [hd, hz, if_true, if_false] at h
        cases h
        simp [HandleMouseEvent]
        split <;> rfl
    · simp only [hd, if_false] at h
      cases h
      simp [HandleMouseEvent]
      split <;> rfl

end IgnRenderer

namespace IgnRenderer
variable {R P : Type}

theorem Initialize_with_engine [IgnMath R P] (r : IgnRenderer R P) (env : RenderEnv R P)
    (h0 : r.initialized = false) (he : (env.engine r.engineName).isSome = true) :
    (r.Initialize env).initialized = true ∧ (r.Initialize env).camera.isSome = true ∧
    (r.Initialize env).textureDirty = r.textureDirty ∧
    (r.Initialize env).textureSize = r.textureSize := by
  cases h3 : env.engine r.engineName with
  | none => rw [h3] at he; cases he
  | some e => simp [Initialize, h0, h3]

theorem Render_isSome [IgnMath R P] (r : IgnRenderer R P) (env : RenderEnv R P)
    (hc : r.camera.isSome = true) (hd : r.textureDirty = false ∨ r.textureSize.ht ≠ 0) :
    (r.Render env).isSome = true := by
  unfold Render
  cases h : r.camera with
  | none => rw [h] at hc; cases hc
  | some c =>
    simp only
    rcases hd with hd | hd
    · simp [hd]
    · by_cases hx : r.textureDirty = true
      · simp [hx, hd]
      · simp [hx]

end IgnRenderer

namespace RenderThread
variable {R P : Type}

theorem RenderNext_fails [IgnMath R P] (t : RenderThread R P) (env : RenderEnv R P)
    (h0 : t.ignRenderer.initialized = false)
    (he : env.engine t.ignRenderer.engineName = none) :
    t.RenderNext env = some (t, []) := by
  simp [RenderNext, IgnRenderer.Initialize, h0, he]

theorem RenderNext_initialises [IgnMath R P] (t : RenderThread R P) (env : RenderEnv R P)
    (h0 : t.ignRenderer.initialized = false)
    (he : (env.engine t.ignRenderer.engineName).isSome = true) :
    t.RenderNext env
      = ((t.ignRenderer.Initialize env).Render env).map
          (fun r => ({ t with ignRenderer := r },
            [RenderThreadSignal.TextureReady r.textureId r.textureSize])) := by
  have hi := (IgnRenderer.Initialize_with_engine t.ignRenderer env h0 he).1
  unfold RenderNext
  simp only [h0, Bool.not_false, if_true, hi, Bool.not_true, Bool.false_eq_true, if_false]
  cases (t.ignRenderer.Initialize env).Render env <;> rfl

end RenderThread

namespace RenderWindowItem
variable {R P : Type}

theorem Stalled_step [IgnMath R P] (id0 : Int) (size0 : QSize) (s : RenderWindowItem R P)
    (ev : WindowEvent R P) (h : s.Stalled) :
    (step id0 size0 s ev).Stalled ∧ (step id0 size0 s ev).trace = s.trace := by
  obtain ⟨h1, h2, h3, n, h4, h5⟩ := h
  cases ev with
  | updatePaintNode =>
    have : updatePaintNode id0 size0 s = s := by
      simp [updatePaintNode, h3, h4]
    simp only [step, this]
    exact ⟨⟨h1, h2, h3, n, h4, h5⟩, trivial⟩
  | runReady =>
    simp only [step]
    split
    · exact ⟨⟨h1, h2, h3, n, h4, h5⟩, rfl⟩
    · exact ⟨⟨h1, h2, h3, n, h4, h5⟩, rfl⟩
  | resize w h =>
    simp only [step]
    split
    · refine ⟨⟨?_, h2, ?_, n, h4, h5⟩, rfl⟩
      · simp only [RenderThread.SizeChanged]
        split
        · exact h1
        · exact h1
      · simp only [RenderThread.SizeChanged]
        split
        · exact h3
        · exact h3
    · exact ⟨⟨h1, h2, h3, n, h4, h5⟩, rfl⟩
  | runRenderNext env =>
    have : step id0 size0 s (WindowEvent.runRenderNext env) = s := by
      simp [step, h2]
    rw [this]
    exact ⟨⟨h1, h2, h3, n, h4, h5⟩, rfl⟩
  | beforeRendering =>
    have hp : n.PrepareNode = ({ n with id := 0 }, []) := by
      simp [TextureNode.PrepareNode, h5]
    simp only [step, h4, hp, deliverNodeSignals]
    exact ⟨⟨h1, h2, h3, _, rfl, rfl⟩, trivial⟩

theorem Stalled_run [IgnMath R P] (id0 : Int) (size0 : QSize) :
    ∀ (evs : List (WindowEvent R P)) (s : RenderWindowItem R P), s.Stalled →
      (run id0 size0 s evs).Stalled ∧ (run id0 size0 s evs).trace = s.trace
  | [], _, h => ⟨h, rfl⟩
  | ev :: rest, s, h =>
    ⟨(Stalled_run id0 size0 rest _ (Stalled_step id0 size0 s ev h).1).1,
     ((Stalled_run id0 size0 rest _ (Stalled_step id0 size0 s ev h).1).2).trans
       (Stalled_step id0 size0 s ev h).2⟩

theorem step_failed_RenderNext [IgnMath R P] (id0 : Int) (size0 : QSize)
    (s : RenderWindowItem R P) (env : RenderEnv R P)
    (h0 : s.renderThread.ignRenderer.initialized = false)
    (he : env.engine s.renderThread.ignRenderer.engineName = none)
    (hr : s.threadRunning = true) (hq : s.renderNextQueued = 1) :
    step id0 size0 s (WindowEvent.runRenderNext env)
      = { s with renderNextQueued := 0, trace := s.trace ++ [Trace.RenderNext] } := by
  simp [step, hr, hq, RenderThread.RenderNext_fails _ env h0 he, deliverTextureReady]

end RenderWindowItem

namespace RenderThread
variable {R P : Type}

/-- C10: when the renderer is not initialised and the engine `engineName` is not
available, `RenderNext` changes nothing (no `Render`, `initialized` stays false) and
emits no signal. The `RenderNext` that runs after it initialises again: with the engine
still missing it fails in the same way, and with the engine available it is
`Initialize` followed by `Render` and one `TextureReady`, it leaves `initialized` true,
and it returns whenever `Render` does not divide by a height of 0. In the wiring of
`updatePaintNode` the failed `RenderNext` was the only one queued and it queues no
other, so whatever events follow, no `RenderNext` runs and the renderer stays
uninitialised: the retry takes an invocation of `RenderNext` from outside that wiring.
On an initialised renderer `Initialize` changes nothing. -/
theorem RenderNext_without_engine [IgnMath R P] (t : RenderThread R P) (env : RenderEnv R P) :
    (t.ignRenderer.initialized = false → env.engine t.ignRenderer.engineName = none →
      t.RenderNext env = some (t, []) ∧
      (∀ env2 : RenderEnv R P,
        (env2.engine t.ignRenderer.engineName = none →
          (t.RenderNext env).bind (fun p => p.1.RenderNext env2) = some (t, [])) ∧
        ((env2.engine t.ignRenderer.engineName).isSome = true →
          (t.RenderNext env).bind (fun p => p.1.RenderNext env2)
            = ((t.ignRenderer.Initialize env2).Render env2).map
                (fun r => ({ t with ignRenderer := r },
                  [RenderThreadSignal.TextureReady r.textureId r.textureSize])) ∧
          (∀ t2 out, (t.RenderNext env).bind (fun p => p.1.RenderNext env2) = some (t2, out) →
            t2.ignRenderer.initialized = true ∧
            out = [RenderThreadSignal.TextureReady t2.ignRenderer.textureId
                    t2.ignRenderer.textureSize]) ∧
          ((t.ignRenderer.textureDirty = false ∨ t.ignRenderer.textureSize.ht ≠ 0) →
            ((t.RenderNext env).bind (fun p => p.1.RenderNext env2)).isSome = true))) ∧
      (∀ (id0 : Int) (size0 : QSize) (s : RenderWindowItem R P)
          (evs : List (WindowEvent R P)),
        s.renderThread = t → s.threadRunning = true → s.renderNextQueued = 1 →
        t.context = true → (∃ n : TextureNode, s.node = some n ∧ n.id = 0) →
        (RenderWindowItem.run id0 size0
            (RenderWindowItem.step id0 size0 s (WindowEvent.runRenderNext env)) evs).trace
          = s.trace ++ [Trace.RenderNext] ∧
        (RenderWindowItem.run id0 size0
            (RenderWindowItem.step id0 size0 s (WindowEvent.runRenderNext env))
            evs).renderNextQueued = 0 ∧
        (RenderWindowItem.run id0 size0
            (RenderWindowItem.step id0 size0 s (WindowEvent.runRenderNext env))
            evs).renderThread.ignRenderer.initialized = false)) ∧
    (∀ r : IgnRenderer R P, r.initialized = true → r.Initialize env = r) := by
  refine ⟨fun h0 he => ?_, fun r hr => ?_⟩
  · have h1 : t.RenderNext env = some (t, []) := RenderNext_fails t env h0 he
    refine ⟨h1, fun env2 => ⟨fun he2 => ?_, fun he2 => ?_⟩, ?_⟩
    · rw [h1]
      exact RenderNext_fails t env2 h0 he2
    · have h2 : (t.RenderNext env).bind (fun p => p.1.RenderNext env2)
          = ((t.ignRenderer.Initialize env2).Render env2).map
              (fun r => ({ t with ignRenderer := r },
                [RenderThreadSignal.TextureReady r.textureId r.textureSize])) := by
        rw [h1]
        exact RenderNext_initialises t env2 h0 he2
      obtain ⟨i1, i2, i3, i4⟩ := IgnRenderer.Initialize_with_engine t.ignRenderer env2 h0 he2
      refine ⟨h2, fun t2 out hr => ?_, fun hd => ?_⟩
      · rw [h2] at hr
        cases h3 : (t.ignRenderer.Initialize env2).Render env2 with
        | none => rw [h3] at hr; cases hr
        | some r =>
          rw [h3] at hr
          cases hr
          exact ⟨(IgnRenderer.Render_initialized _ _ _ h3).trans i1, rfl⟩
      · rw [h2]
        have h4 := IgnRenderer.Render_isSome _ env2 i2 (by rw [i3, i4]; exact hd)
        cases h3 : (t.ignRenderer.Initialize env2).Render env2 with
        | none => rw [h3] at h4; cases h4
        | some r => rfl
    · intro id0 size0 s evs hs hrun hq hc hn
      subst hs
      have hstep := RenderWindowItem.step_failed_RenderNext id0 size0 s env h0 he hrun hq
      have hst : (RenderWindowItem.step id0 size0 s
          (WindowEvent.runRenderNext env)).Stalled := by
        rw [hstep]
        exact ⟨h0, rfl, hc, hn⟩
      obtain ⟨⟨k1, k2, _, _⟩, k5⟩ := RenderWindowItem.Stalled_run id0 size0 evs _ hst
      refine ⟨?_, k2, k1⟩
      rw [k5, hstep]
  · simp [IgnRenderer.Initialize, hr]

end RenderThread

theorem RenderThread.RenderNext_without_engine_witness :
    Example.thread.RenderNext Example.envNoEngine = some (Example.thread, []) ∧
    (Example.thread.RenderNext Example.envNoEngine).bind
        (fun p => p.1.RenderNext Example.envNoEngine) = some (Example.thread, []) ∧
    ((Example.thread.RenderNext Example.envNoEngine).bind
        (fun p => p.1.RenderNext Example.env)).map
          (fun p => (p.1.ignRenderer.initialized, p.2))
      = some (true, [RenderThreadSignal.TextureReady 7 ⟨1024, 1024⟩]) ∧
    ((Example.thread.RenderNext Example.envNoEngine).bind
        (fun p => p.1.RenderNext Example.env)).isSome = true ∧
    (RenderWindowItem.run 0 ⟨0, 0⟩
        (RenderWindowItem.step 0 ⟨0, 0⟩ Example.windowSetUp
          (WindowEvent.runRenderNext Example.envNoEngine)) Example.afterFailure).trace
      = [Trace.RenderNext] ∧
    (RenderWindowItem.run 0 ⟨0, 0⟩
        (RenderWindowItem.step 0 ⟨0, 0⟩ Example.windowSetUp
          (WindowEvent.runRenderNext Example.envNoEngine))
        Example.afterFailure).renderThread.ignRenderer.initialized = false ∧
    ((Example.renderer.Initialize Example.env).Initialize Example.envNoEngine
      = Example.renderer.Initialize Example.env) :=
  ⟨((RenderThread.RenderNext_without_engine Example.thread Example.envNoEngine).1 rfl rfl).1,
   (((RenderThread.RenderNext_without_engine Example.thread Example.envNoEngine).1 rfl
      rfl).2.1 Example.envNoEngine).1 rfl,
   by
     rw [((((RenderThread.RenderNext_without_engine Example.thread Example.envNoEngine).1 rfl
       rfl).2.1 Example.env).2 rfl).1]
     decide,
   ((((RenderThread.RenderNext_without_engine Example.thread Example.envNoEngine).1 rfl
      rfl).2.1 Example.env).2 rfl).2.2 (Or.inl rfl),
   (((RenderThread.RenderNext_without_engine Example.windowSetUp.renderThread
      Example.envNoEngine).1 rfl rfl).2.2 0 ⟨0, 0⟩ Example.windowSetUp Example.afterFailure
      rfl rfl rfl rfl ⟨TextureNode.ctor 0 ⟨0, 0⟩, rfl, rfl⟩).1,
   (((RenderThread.RenderNext_without_engine Example.windowSetUp.renderThread
      Example.envNoEngine).1 rfl rfl).2.2 0 ⟨0, 0⟩ Example.windowSetUp Example.afterFailure
      rfl rfl rfl rfl ⟨TextureNode.ctor 0 ⟨0, 0⟩, rfl, rfl⟩).2.2,
   (RenderThread.RenderNext_without_engine Example.thread Example.envNoEngine).2
      (Example.renderer.Initialize Example.env) rfl⟩

theorem RenderWindowItem.frame_handshake_example :
    (RenderWindowItem.run 0 ⟨0, 0⟩ (RenderWindowItem.ctor Example.renderer ⟨640, 0⟩ ⟨480, 0⟩)
      Example.twoFrames).trace
      = [Trace.RenderNext, Trace.TextureReady 7 ⟨640, 480⟩, Trace.PendingNewTexture,
         Trace.TextureInUse, Trace.RenderNext, Trace.TextureReady 7 ⟨640, 480⟩,
         Trace.PendingNewTexture] := by
  decide

/-! ## TextureNode: interleaved handoff -/

namespace Handoff

theorem Inv_init (cs : List (Int × QSize)) (n0 : TextureNode) (k : Nat) (h0 : n0.id = 0) :
    Inv cs (init n0 cs k) := by
  refine ⟨fun c hc => hc, fun r hr => by simp [init] at hr, fun _ => rfl, fun _ => rfl, ?_, ?_⟩
  · exact Or.inl h0
  · trivial

theorem Inv_stepRender (cs : List (Int × QSize)) (s s2 : Handoff) (h : Inv cs s)
    (hs : s.stepRender = some s2) : Inv cs s2 := by
  obtain ⟨h1, h2, h3, h4, h5, h6⟩ := h
  unfold stepRender at hs
  cases hc : s.calls with
  | nil => rw [hc] at hs; cases hs
  | cons c rest =>
    obtain ⟨i, size⟩ := c
    rw [hc] at hs h1
    simp only at hs
    cases hpc : s.newPc <;> rw [hpc] at hs h5 <;> simp only at hs h5
    · -- lock
      split at hs
      · cases hs
      · rename_i hl
        cases hs
        have hprep : s.prepPc = PrepareNodePc.lock ∨ s.prepPc = PrepareNodePc.use := by
          cases hp : s.prepPc <;> rw [hp] at h6 <;> simp_all
        refine ⟨by simpa [hc] using h1, h2, by simp [hc], h4, ⟨rfl, h5, hprep⟩, ?_⟩
        rcases hprep with hp | hp
        · simp only [hp]
        · simp only [hp] at h6 ⊢; exact h6
    · -- writeId
      cases hs
      obtain ⟨hl, _, hprep⟩ := h5
      refine ⟨by simpa [hc] using h1, h2, by simp [hc], h4, ⟨hl, ⟨(i, size), by simp [hc], rfl⟩,
        hprep⟩, ?_⟩
      rcases hprep with hp | hp
      · simp only [hp]
      · simp only [hp] at h6 ⊢; exact h6
    · -- writeSize
      cases hs
      obtain ⟨hl, ⟨c, hc1, hc2⟩, hprep⟩ := h5
      rw [hc] at hc1
      simp only [List.head?_cons, Option.some.injEq] at hc1
      subst hc1
      refine ⟨by simpa [hc] using h1, h2, by simp [hc], h4, ⟨hl, ?_, hprep⟩, ?_⟩
      · simp only [hc, List.head?_cons, Option.some.injEq]
        rw [hc2]
      rcases hprep with hp | hp
      · simp only [hp]
      · simp only [hp] at h6 ⊢; exact h6
    · -- unlock
      cases hs
      obtain ⟨hl, hhead, hprep⟩ := h5
      rw [hc] at hhead
      simp only [List.head?_cons, Option.some.injEq] at hhead
      refine ⟨by simpa [hc] using h1, h2, by simp [hc], h4, ?_, ?_⟩
      · exact Or.inr (hhead ▸ h1 (i, size) (List.mem_cons_self _ _))
      rcases hprep with hp | hp
      · simp only [hp]
      · simp only [hp] at h6 ⊢; exact h6
    · -- emit
      cases hs
      refine ⟨fun c hcm => h1 c (List.mem_cons_of_mem _ hcm), h2, fun _ => rfl, h4, h5, ?_⟩
      exact h6

theorem Inv_stepSceneGraph (cs : List (Int × QSize)) (s s2 : Handoff) (h : Inv cs s)
    (hs : s.stepSceneGraph = some s2) : Inv cs s2 := by
  obtain ⟨h1, h2, h3, h4, h5, h6⟩ := h
  unfold stepSceneGraph at hs
  split at hs
  · cases hs
  · rename_i hk
    cases hpc : s.prepPc <;> rw [hpc] at hs h6 <;> simp only at hs h6
    · -- lock
      split at hs
      · cases hs
      · rename_i hl
        cases hs
        have hnew : s.newPc = NewTexturePc.lock ∨ s.newPc = NewTexturePc.emit := by
          cases hp : s.newPc <;> rw [hp] at h5 <;> simp_all
        refine ⟨h1, h2, h3, fun hz => absurd hz hk, ?_, rfl⟩
        rcases hnew with hp | hp <;> (simp only [hp] at h5 ⊢; exact h5)
    · -- readId
      cases hs
      have hnew : s.newPc = NewTexturePc.lock ∨ s.newPc = NewTexturePc.emit := by
        cases hp : s.newPc <;> rw [hp] at h5 <;> simp_all
      refine ⟨h1, h2, h3, fun hz => absurd hz hk, ?_, ⟨h6, rfl⟩⟩
      rcases hnew with hp | hp <;> (simp only [hp] at h5 ⊢; exact h5)
    · -- readSize
      cases hs
      have hnew : s.newPc = NewTexturePc.lock ∨ s.newPc = NewTexturePc.emit := by
        cases hp : s.newPc <;> rw [hp] at h5 <;> simp_all
      have hgood : Good cs s.node.id s.node.size := by
        rcases hnew with hp | hp <;> (simp only [hp] at h5; exact h5)
      refine ⟨h1, h2, h3, fun hz => absurd hz hk, ?_, ⟨h6.1, ?_⟩⟩
      · rcases hnew with hp | hp <;> (simp only [hp] at h5 ⊢; exact h5)
      · simp only [h6.2]; exact hgood
    · -- resetId
      cases hs
      have hnew : s.newPc = NewTexturePc.lock ∨ s.newPc = NewTexturePc.emit := by
        cases hp : s.newPc <;> rw [hp] at h5 <;> simp_all
      refine ⟨h1, h2, h3, fun hz => absurd hz hk, ?_, h6⟩
      rcases hnew with hp | hp <;> (simp only [hp]; exact Or.inl rfl)
    · -- unlock
      cases hs
      have hnew : s.newPc = NewTexturePc.lock ∨ s.newPc = NewTexturePc.emit := by
        cases hp : s.newPc <;> rw [hp] at h5 <;> simp_all
      refine ⟨h1, h2, h3, fun hz => absurd hz hk, ?_, h6.2⟩
      rcases hnew with hp | hp <;> (simp only [hp] at h5 ⊢; exact h5)
    · -- use
      have hreads : ∀ r ∈ s.reads ++ [(s.newId, s.sz)], r.1 = 0 ∨ r ∈ cs := by
        intro r hr
        rcases List.mem_append.1 hr with hr | hr
        · exact h2 r hr
        · simp only [List.mem_singleton] at hr
          subst hr
          exact h6
      split at hs
      · cases hs
        refine ⟨h1, hreads, h3, fun _ => rfl, ?_, trivial⟩
        cases hp : s.newPc <;> rw [hp] at h5 <;> simp only at h5 ⊢
        · exact h5
        · exact ⟨h5.1, h5.2.1, Or.inl trivial⟩
        · exact ⟨h5.1, h5.2.1, Or.inl trivial⟩
        · exact ⟨h5.1, h5.2.1, Or.inl trivial⟩
        · exact h5
      · cases hs
        refine ⟨h1, hreads, h3, fun _ => rfl, ?_, trivial⟩
        cases hp : s.newPc <;> rw [hp] at h5 <;> simp only at h5 ⊢
        · exact h5
        · exact ⟨h5.1, h5.2.1, Or.inl trivial⟩
        · exact ⟨h5.1, h5.2.1, Or.inl trivial⟩
        · exact ⟨h5.1, h5.2.1, Or.inl trivial⟩
        · exact h5

theorem Inv_run (cs : List (Int × QSize)) :
    ∀ (schedule : List HandoffThread) (s : Handoff), Inv cs s → Inv cs (s.run schedule)
  | [], _, h => h
  | t :: rest, s, h => by
    simp only [run, List.foldl_cons]
    refine Inv_run cs rest _ ?_
    cases hs : s.step t with
    | none => exact h
    | some s2 =>
      cases t with
      | render => exact Inv_stepRender cs s s2 h hs
      | sceneGraph => exact Inv_stepSceneGraph cs s s2 h hs

end Handoff

/-- C3 (amended): under every schedule of the statements of the `NewTexture` calls of
the render thread and of the `PrepareNode` calls of the scene-graph thread, starting
from a node without pending texture, every pair `(newId, sz)` that a `PrepareNode` has
read either has id 0 or is the `(id, size)` pair of one single `NewTexture` call. -/
theorem Handoff.reads_from_one_call (n0 : TextureNode) (calls : List (Int × QSize))
    (prepares : Nat) (schedule : List HandoffThread) (h0 : n0.id = 0) :
    ∀ r ∈ ((Handoff.init n0 calls prepares).run schedule).reads, r.1 = 0 ∨ r ∈ calls :=
  (Handoff.Inv_run calls schedule _ (Handoff.Inv_init calls n0 prepares h0)).2.1

theorem Handoff.reads_from_one_call_witness :
    (TextureNode.ctor 0 ⟨0, 0⟩).id = 0 ∧
    ((Handoff.init (TextureNode.ctor 0 ⟨0, 0⟩) [(5, ⟨640, 480⟩), (7, ⟨800, 600⟩)] 1).run
        Example.interleaved).reads = [(7, ⟨800, 600⟩)] ∧
    (((7 : Int), (⟨800, 600⟩ : QSize)).1 = 0 ∨
      ((7 : Int), (⟨800, 600⟩ : QSize)) ∈ [((5 : Int), (⟨640, 480⟩ : QSize)), (7, ⟨800, 600⟩)]) :=
  ⟨rfl, by decide,
   Handoff.reads_from_one_call (TextureNode.ctor 0 ⟨0, 0⟩) [(5, ⟨640, 480⟩), (7, ⟨800, 600⟩)] 1
     (Example.interleaved) rfl (7, ⟨800, 600⟩) (by decide)⟩

/-- C3 as stated fails: after `NewTexture(5, 640x480)` and a `PrepareNode` that takes the
texture, a second `PrepareNode` reads the pair `(0, 640x480)`, which is the pair of no
`NewTexture` call. -/
theorem Handoff.read_pair_of_no_call :
    ((Handoff.init (TextureNode.ctor 0 ⟨0, 0⟩) [(5, ⟨640, 480⟩)] 2).run
        Example.prepareTwice).reads = [(5, ⟨640, 480⟩), (0, ⟨640, 480⟩)] ∧
    ¬ (∀ r ∈ ((Handoff.init (TextureNode.ctor 0 ⟨0, 0⟩) [(5, ⟨640, 480⟩)] 2).run
        Example.prepareTwice).reads, r ∈ [((5 : Int), (⟨640, 480⟩ : QSize))]) := by
  decide

/-- Without interleaving, the statements of one `NewTexture` call and of one `PrepareNode`
call have the effect of the methods `TextureNode.NewTexture` and
`TextureNode.PrepareNode`. -/
theorem Handoff.run_alone (n : TextureNode) (i : Int) (size : QSize)
    (rest : List (Int × QSize)) (k : Nat) :
    ((Handoff.init n ((i, size) :: rest) (k + 1)).run
        (List.replicate 5 HandoffThread.render)).node = (n.NewTexture i size).1 ∧
    ((Handoff.init n [] (k + 1)).run
        (List.replicate 6 HandoffThread.sceneGraph)).node = n.PrepareNode.1 ∧
    ((Handoff.init n [] (k + 1)).run
        (List.replicate 6 HandoffThread.sceneGraph)).signals = n.PrepareNode.2 := by
  refine ⟨rfl, ?_, ?_⟩
  · simp only [Handoff.run, List.replicate, List.foldl, Handoff.step, Handoff.stepSceneGraph,
      Handoff.init, TextureNode.PrepareNode]
    by_cases h : n.id = 0 <;> simp [h]
  · simp only [Handoff.run, List.replicate, List.foldl, Handoff.step, Handoff.stepSceneGraph,
      Handoff.init, TextureNode.PrepareNode]
    by_cases h : n.id = 0 <;> simp [h]

/-! ## SceneManager: the representation invariant is kept -/

namespace StdMap

theorem WF_assign {V : Type} (m : StdMap V) (k : Nat) (v : V) (h : WF m) :
    WF (assign m k v) := by
  induction m with
  | nil => simp [assign, WF]
  | cons e rest ih =>
    obtain ⟨k1, v1⟩ := e
    simp only [WF, List.map_cons, List.pairwise_cons] at h
    simp only [assign]
    split
    · rename_i hlt
      simp only [WF, List.map_cons, List.pairwise_cons, List.mem_cons, forall_eq_or_imp]
      exact ⟨⟨hlt, fun a ha => Nat.lt_trans hlt (h.1 a ha)⟩, h.1, h.2⟩
    · split
      · rename_i hk; subst hk
        simpa only [WF, List.map_cons, List.pairwise_cons] using h
      · rename_i hlt hne
        have hgt : k1 < k := by omega
        simp only [WF, List.map_cons, List.pairwise_cons]
        refine ⟨fun a ha => ?_, ih h.2⟩
        have := (mem_keys_assign rest k v a).1 ha
        rcases this with hk | hk
        · rw [hk]; exact hgt
        · exact h.1 a hk

theorem mem_assign {V : Type} (m : StdMap V) (k : Nat) (v : V) (e : Nat × V)
    (h : e ∈ assign m k v) : e = (k, v) ∨ e ∈ m := by
  induction m with
  | nil => simpa [assign] using h
  | cons e1 rest ih =>
    obtain ⟨k1, v1⟩ := e1
    simp only [assign] at h
    split at h
    · simpa using h
    · split at h
      · rcases List.mem_cons.1 h with h | h
        · exact Or.inl h
        · exact Or.inr (List.mem_cons_of_mem _ h)
      · rcases List.mem_cons.1 h with h | h
        · exact Or.inr (h ▸ List.mem_cons_self _ _)
        · rcases ih h with h | h
          · exact Or.inl h
          · exact Or.inr (List.mem_cons_of_mem _ h)

theorem nodup_values_assign {V : Type} (m : StdMap V) (k : Nat) (v : V)
    (h : (m.map Prod.snd).Nodup) (hv : v ∉ m.map Prod.snd) :
    ((assign m k v).map Prod.snd).Nodup := by
  induction m with
  | nil => simp [assign]
  | cons e1 rest ih =>
    obtain ⟨k1, v1⟩ := e1
    simp only [List.map_cons, List.nodup_cons, List.mem_cons, not_or] at h hv
    simp only [assign]
    split
    · simp only [List.map_cons, List.nodup_cons, List.mem_cons, not_or]
      exact ⟨⟨hv.1, hv.2⟩, h.1, h.2⟩
    · split
      · simp only [List.map_cons, List.nodup_cons]
        exact ⟨hv.2, h.2⟩
      · simp only [List.map_cons, List.nodup_cons]
        refine ⟨fun hc => ?_, ih h.2 hv.2⟩
        obtain ⟨e, he, hev⟩ := List.mem_map.1 hc
        rcases mem_assign rest k v e he with he | he
        · rw [he] at hev; exact hv.1 hev
        · exact h.1 (hev ▸ List.mem_map_of_mem Prod.snd he)

end StdMap

namespace SceneManager
variable {R P : Type}

/-- The invariant depends on the maps and on the sizes of the object stores only. -/
theorem Valid_congr {m n : SceneManager R P} (hp : n.poses = m.poses)
    (hlp : n.localPoses = m.localPoses) (hv : n.visuals = m.visuals) (hl : n.lights = m.lights)
    (hc : n.scene.counts = m.scene.counts) (h : m.Valid) : n.Valid := by
  simp only [rendering.Scene.counts, Prod.mk.injEq] at hc
  unfold Valid at h ⊢
  rw [hp, hlp, hv, hl, hc.1, hc.2]
  exact h

/-- Registering a new visual (the next handle of the store) keeps the invariant. -/
theorem Valid_new_visual {m n : SceneManager R P} (id : Nat) (hp : n.poses = m.poses)
    (hlp : n.localPoses = m.localPoses)
    (hv : n.visuals = StdMap.assign m.visuals id m.scene.visuals.length)
    (hl : n.lights = m.lights)
    (hc : n.scene.counts = (m.scene.visuals.length + 1, m.scene.lights.length))
    (h : m.Valid) : n.Valid := by
  simp only [rendering.Scene.counts, Prod.mk.injEq] at hc
  obtain ⟨h1, h2, h3, h4, h5, h6, h7, h8⟩ := h
  unfold Valid
  rw [hp, hlp, hv, hl, hc.1, hc.2]
  refine ⟨h1, h2, StdMap.WF_assign _ _ _ h3, h4, StdMap.nodup_values_assign _ _ _ h5 ?_, h6,
    fun e he => ?_, h8⟩
  · intro hc2
    obtain ⟨e, he, hev⟩ := List.mem_map.1 hc2
    have := h7 e he
    omega
  · rcases StdMap.mem_assign _ _ _ e he with he | he
    · rw [he]; exact Nat.lt_succ_self _
    · exact Nat.lt_succ_of_lt (h7 e he)

/-- Registering a new light (the next handle of the store) keeps the invariant. -/
theorem Valid_new_light {m n : SceneManager R P} (id : Nat) (hp : n.poses = m.poses)
    (hlp : n.localPoses = m.localPoses) (hv : n.visuals = m.visuals)
    (hl : n.lights = StdMap.assign m.lights id m.scene.lights.length)
    (hc : n.scene.counts = (m.scene.visuals.length, m.scene.lights.length + 1))
    (h : m.Valid) : n.Valid := by
  simp only [rendering.Scene.counts, Prod.mk.injEq] at hc
  obtain ⟨h1, h2, h3, h4, h5, h6, h7, h8⟩ := h
  unfold Valid
  rw [hp, hlp, hv, hl, hc.1, hc.2]
  refine ⟨h1, h2, h3, StdMap.WF_assign _ _ _ h4, h5, StdMap.nodup_values_assign _ _ _ h6 ?_,
    h7, fun e he => ?_⟩
  · intro hc2
    obtain ⟨e, he, hev⟩ := List.mem_map.1 hc2
    have := h8 e he
    omega
  · rcases StdMap.mem_assign _ _ _ e he with he | he
    · rw [he]; exact Nat.lt_succ_self _
    · exact Nat.lt_succ_of_lt (h8 e he)

end SceneManager

namespace rendering.Scene
variable {R P : Type}

theorem counts_modifyVisual (sc : Scene R P) (h : Nat) (f : Visual R P → Visual R P) :
    (sc.modifyVisual h f).counts = sc.counts := by
  simp [counts, modifyVisual, length_modifyAt]

theorem counts_modifyLight (sc : Scene R P) (h : Nat) (f : Light R P → Light R P) :
    (sc.modifyLight h f).counts = sc.counts := by
  simp [counts, modifyLight, length_modifyAt]

theorem counts_modifyMaterial (sc : Scene R P) (h : Nat)
    (f : rendering.Material R → rendering.Material R) :
    (sc.modifyMaterial h f).counts = sc.counts := rfl

theorem counts_SetVisualLocalPose (sc : Scene R P) (h : Nat) (p : P) :
    (sc.SetVisualLocalPose h p).counts = sc.counts := counts_modifyVisual _ _ _

theorem counts_SetLightLocalPose (sc : Scene R P) (h : Nat) (p : P) :
    (sc.SetLightLocalPose h p).counts = sc.counts := counts_modifyLight _ _ _

theorem counts_AddChild (sc : Scene R P) (h : Nat) (c : NodeRef) :
    (sc.AddChild h c).counts = sc.counts := counts_modifyVisual _ _ _

theorem counts_AddRootChild (sc : Scene R P) (c : NodeRef) :
    (sc.AddRootChild c).counts = sc.counts := rfl

theorem counts_CreateVisual (sc : Scene R P) :
    sc.CreateVisual.2.counts = (sc.visuals.length + 1, sc.lights.length) := by
  simp [counts, CreateVisual]

theorem counts_CreateLight (sc : Scene R P) (k : LightKind) :
    (sc.CreateLight k).2.counts = (sc.visuals.length, sc.lights.length + 1) := by
  simp [counts, CreateLight]

theorem counts_CreateGeometry (sc : Scene R P) (k : GeometryKind) :
    (sc.CreateGeometry k).2.counts = sc.counts := rfl

theorem counts_CreateMaterial (sc : Scene R P) (name : Option String) :
    (sc.CreateMaterial name).2.counts = sc.counts := rfl

end rendering.Scene

namespace SceneManager
variable {R P : Type}

open rendering.Scene in
theorem LoadGeometry_counts [IgnMath R P] (meshOk : String → Bool) (m : SceneManager R P)
    (g : msgs.Geometry R) (s : Vector3 R) (p : P) :
    (LoadGeometry meshOk m g s p).2.2.2.scene.counts = m.scene.counts := by
  unfold LoadGeometry
  repeat' split
  all_goals rfl

open rendering.Scene in
theorem LoadMaterial_counts (m : SceneManager R P) (x : msgs.Material R) :
    (LoadMaterial m x).2.scene.counts = m.scene.counts := by
  unfold LoadMaterial
  cases x.ambient <;> cases x.diffuse <;> cases x.specular <;> cases x.emissive <;> rfl

theorem defaultMaterial_counts [IgnMath R P] (sc : rendering.Scene R P) :
    (defaultMaterial sc).2.counts = sc.counts := by
  unfold defaultMaterial
  split <;> rfl

theorem LoadVisual.material_counts [IgnMath R P] (m : SceneManager R P)
    (v : msgs.Visual R P) (g : Nat) :
    (LoadVisual.material m v g).scene.counts = m.scene.counts := by
  unfold LoadVisual.material
  cases v.material with
  | none => exact defaultMaterial_counts m.scene
  | some mat => exact LoadMaterial_counts m mat

theorem Valid_localPoses {m n : SceneManager R P} (id : Nat) (p : P) (hp : n.poses = m.poses)
    (hlp : n.localPoses = StdMap.assign m.localPoses id p) (hv : n.visuals = m.visuals)
    (hl : n.lights = m.lights) (hc : n.scene.counts = m.scene.counts) (h : m.Valid) :
    n.Valid := by
  simp only [rendering.Scene.counts, Prod.mk.injEq] at hc
  obtain ⟨h1, h2, h3, h4, h5, h6, h7, h8⟩ := h
  unfold Valid
  rw [hp, hlp, hv, hl, hc.1, hc.2]
  exact ⟨h1, StdMap.WF_assign _ _ _ h2, h3, h4, h5, h6, h7, h8⟩

theorem LoadVisual.finish_counts [IgnMath R P] (m : SceneManager R P) (v : msgs.Visual R P)
    (h : Nat) (geom : Option Nat) (scale : Vector3 R) (lp : P) :
    (LoadVisual.finish m v h geom scale lp).2.scene.counts = m.scene.counts := by
  unfold LoadVisual.finish
  cases geom with
  | none =>
    cases v.pose <;> exact rendering.Scene.counts_SetVisualLocalPose _ _ _
  | some g =>
    simp only [LoadVisual.material_counts, rendering.Scene.counts_modifyVisual]
    cases v.pose <;> exact rendering.Scene.counts_SetVisualLocalPose _ _ _

theorem Valid_setScene {m : SceneManager R P} (sc : rendering.Scene R P)
    (hc : sc.counts = m.scene.counts) (h : m.Valid) :
    ({ m with scene := sc } : SceneManager R P).Valid :=
  Valid_congr (m := m) rfl rfl rfl rfl hc h

theorem registerVisual_valid (m : SceneManager R P) (id : Nat) (pose : Option P)
    (h : m.Valid) : (registerVisual m id pose).Valid := by
  unfold registerVisual
  refine Valid_new_visual (m := m) id rfl rfl rfl rfl ?_ h
  cases pose with
  | none => exact rendering.Scene.counts_CreateVisual _
  | some p =>
    exact (rendering.Scene.counts_SetVisualLocalPose _ _ _).trans
      (rendering.Scene.counts_CreateVisual _)

theorem LoadVisual_valid [IgnMath R P] (meshOk : String → Bool) (m : SceneManager R P)
    (v : msgs.Visual R P) (h : m.Valid) : (LoadVisual meshOk m v).2.Valid := by
  unfold LoadVisual
  cases hg : v.geometry with
  | none => exact h
  | some g =>
    simp only
    have h1 := registerVisual_valid m v.id none h
    simp only [registerVisual] at h1
    generalize hm1 : ({ m with scene := m.scene.CreateVisual.2,
                               visuals := StdMap.assign m.visuals v.id m.scene.CreateVisual.1 } :
      SceneManager R P) = m1 at h1 ⊢
    have hd := fields_of_data (LoadGeometry_data meshOk m1 g (Vector3.One R P)
      (IgnMath.poseCtor R))
    have h2 : (LoadGeometry meshOk m1 g (Vector3.One R P) (IgnMath.poseCtor R)).2.2.2.Valid :=
      Valid_congr hd.2.2.1 hd.2.2.2.1 hd.2.2.2.2.1 hd.2.2.2.2.2.1
        (LoadGeometry_counts meshOk m1 g _ _) h1
    generalize LoadGeometry meshOk m1 g (Vector3.One R P) (IgnMath.poseCtor R) = r at h2 ⊢
    obtain ⟨f1, f2, f3, _, _, _, f7⟩ :=
      LoadVisual.finish_fields r.2.2.2 v m.scene.CreateVisual.1 r.1 r.2.1 r.2.2.1
    have fc := LoadVisual.finish_counts r.2.2.2 v m.scene.CreateVisual.1 r.1 r.2.1 r.2.2.1
    cases hr : r.1 with
    | none =>
      rw [hr] at f7 fc f1 f2 f3
      exact Valid_congr f3 f7 f1 f2 fc h2
    | some gh =>
      rw [hr] at f7 fc f1 f2 f3
      exact Valid_localPoses v.id r.2.2.1 f3 f7 f1 f2 fc h2

theorem LoadLight.create_spec (sc : rendering.Scene R P) (l : msgs.Light R P)
    (c : Nat × rendering.Scene R P) (h : LoadLight.create sc l = some c) :
    c.1 = sc.lights.length ∧ c.2.counts = (sc.visuals.length, sc.lights.length + 1) := by
  unfold LoadLight.create at h
  cases ht : l.type <;> rw [ht] at h <;> simp only at h
  · cases h; exact ⟨rfl, rendering.Scene.counts_CreateLight _ _⟩
  · cases h
    exact ⟨rfl, (rendering.Scene.counts_modifyLight _ _ _).trans
      (rendering.Scene.counts_CreateLight _ _)⟩
  · cases hd : l.direction <;> rw [hd] at h <;> simp only at h
    · cases h; exact ⟨rfl, rendering.Scene.counts_CreateLight _ _⟩
    · cases h
      exact ⟨rfl, (rendering.Scene.counts_modifyLight _ _ _).trans
        (rendering.Scene.counts_CreateLight _ _)⟩
  · cases h

theorem LoadLight.configure_counts (sc : rendering.Scene R P) (light : Nat)
    (l : msgs.Light R P) : (LoadLight.configure sc light l).counts = sc.counts := by
  unfold LoadLight.configure
  cases l.pose <;> cases l.diffuse <;> cases l.specular <;>
    simp [rendering.Scene.counts_modifyLight, rendering.Scene.counts_SetLightLocalPose]

theorem LoadLight_valid (m : SceneManager R P) (l : msgs.Light R P) (h : m.Valid) :
    (LoadLight m l).2.Valid := by
  unfold LoadLight
  cases hc : LoadLight.create m.scene l with
  | none => exact h
  | some c =>
    obtain ⟨c1, c2⟩ := LoadLight.create_spec m.scene l c hc
    simp only
    refine Valid_new_light (m := m) l.id rfl rfl rfl ?_ ?_ h
    · simp only [c1]
    · simp only [LoadLight.configure_counts, c2]

end SceneManager

namespace SceneManager
variable {R P : Type}

theorem LoadLink.visualBody_valid [IgnMath R P] (meshOk : String → Bool) (linkVis : Nat)
    (m : SceneManager R P) (v : msgs.Visual R P) (h : m.Valid) :
    (LoadLink.visualBody meshOk linkVis m v).Valid := by
  have := LoadVisual_valid meshOk m v h
  unfold LoadLink.visualBody
  split
  · rename_i heq; rw [heq] at this
    exact Valid_setScene _ (rendering.Scene.counts_AddChild _ _ _) this
  · rename_i heq; rw [heq] at this; exact this

theorem LoadLink.lightBody_valid (linkVis : Nat) (m : SceneManager R P) (l : msgs.Light R P)
    (h : m.Valid) : (LoadLink.lightBody linkVis m l).Valid := by
  have := LoadLight_valid m l h
  unfold LoadLink.lightBody
  split
  · rename_i heq; rw [heq] at this
    exact Valid_setScene _ (rendering.Scene.counts_AddChild _ _ _) this
  · rename_i heq; rw [heq] at this; exact this

theorem LoadLink_valid [IgnMath R P] (meshOk : String → Bool) (m : SceneManager R P)
    (l : msgs.Link R P) (h : m.Valid) : (LoadLink meshOk m l).2.Valid := by
  unfold LoadLink
  exact foldl_invariant _ Valid (fun s e hs => LoadLink.lightBody_valid _ s e hs) l.light _
    (foldl_invariant _ Valid (fun s e hs => LoadLink.visualBody_valid meshOk _ s e hs)
      l.visual _ (registerVisual_valid m l.id l.pose h))

theorem LoadModel.linkBody_valid [IgnMath R P] (meshOk : String → Bool) (modelVis : Nat)
    (m : SceneManager R P) (l : msgs.Link R P) (h : m.Valid) :
    (LoadModel.linkBody meshOk modelVis m l).Valid := by
  have := LoadLink_valid meshOk m l h
  unfold LoadModel.linkBody
  split
  · rename_i heq; rw [heq] at this
    exact Valid_setScene _ (rendering.Scene.counts_AddChild _ _ _) this
  · rename_i heq; rw [heq] at this; exact this

mutual

theorem LoadModel_valid [IgnMath R P] (meshOk : String → Bool) :
    ∀ (x : msgs.Model R P) (m : SceneManager R P), m.Valid → (LoadModel meshOk m x).2.Valid
  | msgs.Model.mk id name pose link model, m, h => by
    simp only [LoadModel]
    exact LoadModel.nested_valid meshOk _ model _
      (foldl_invariant _ Valid (fun s e hs => LoadModel.linkBody_valid meshOk _ s e hs)
        link _ (registerVisual_valid m id pose h))

theorem LoadModel.nested_valid [IgnMath R P] (meshOk : String → Bool) (modelVis : Nat) :
    ∀ (xs : List (msgs.Model R P)) (m : SceneManager R P), m.Valid →
      (LoadModel.nested meshOk modelVis m xs).Valid
  | [], m, h => by simpa only [LoadModel.nested] using h
  | x :: rest, m, h => by
    have h1 := LoadModel_valid meshOk x m h
    simp only [LoadModel.nested]
    split
    · rename_i heq
      rw [heq] at h1
      exact LoadModel.nested_valid meshOk modelVis rest _
        (Valid_setScene _ (rendering.Scene.counts_AddChild _ _ _) h1)
    · rename_i heq
      rw [heq] at h1
      exact LoadModel.nested_valid meshOk modelVis rest _ h1

end

theorem LoadScene_valid [IgnMath R P] (meshOk : String → Bool) (m : SceneManager R P)
    (msg : msgs.Scene R P) (h : m.Valid) : (LoadScene meshOk m msg).Valid := by
  unfold LoadScene
  refine foldl_invariant _ Valid (fun s e hs => ?_) msg.light _
    (foldl_invariant _ Valid (fun s e hs => ?_) msg.model _ h)
  · have := LoadLight_valid s e hs
    unfold LoadScene.lightBody
    split
    · rename_i heq; rw [heq] at this
      exact Valid_setScene _ (rendering.Scene.counts_AddRootChild _ _) this
    · rename_i heq; rw [heq] at this; exact this
  · have := LoadModel_valid meshOk e s hs
    unfold LoadScene.modelBody
    split
    · rename_i heq; rw [heq] at this
      exact Valid_setScene _ (rendering.Scene.counts_AddRootChild _ _) this
    · rename_i heq; rw [heq] at this; exact this

theorem OnPoseVMsg_valid [IgnMath R P] (m : SceneManager R P) (msg : msgs.Pose_V P)
    (h : m.Valid) : (OnPoseVMsg m msg).Valid := by
  unfold OnPoseVMsg
  refine foldl_invariant _ Valid (fun s e hs => ?_) msg.pose m h
  obtain ⟨h1, h2⟩ := hs
  exact ⟨StdMap.WF_assign _ _ _ h1, h2⟩

theorem Update_valid (m : SceneManager R P) (h : m.Valid) : (Update m).Valid := by
  obtain ⟨i1, i2, i3, _, _, _, i7, i8⟩ := Update.loop_inv m m.poses m (Update.inv_refl m)
  obtain ⟨_, h2, h3, h4, h5, h6, h7, h8⟩ := h
  refine ⟨List.Pairwise.nil, ?_, ?_, ?_, ?_, ?_, ?_, ?_⟩
  · exact i3 ▸ h2
  · exact i1 ▸ h3
  · exact i2 ▸ h4
  · exact i1 ▸ h5
  · exact i2 ▸ h6
  · intro e he
    have hv : (Update m).visuals = m.visuals := i1
    have hs : (Update m).scene.visuals.length = m.scene.visuals.length := i7
    rw [hs]
    exact h7 e (hv ▸ he)
  · intro e he
    have hv : (Update m).lights = m.lights := i2
    have hs : (Update m).scene.lights.length = m.scene.lights.length := i8
    rw [hs]
    exact h8 e (hv ▸ he)

/-- The representation invariant holds in every state the scene manager reaches: it
holds after `Load` on a manager with empty maps, and `Request`, `OnPoseVMsg` and
`Update` keep it. -/
theorem Valid_kept [IgnMath R P] (meshOk : String → Bool) (m : SceneManager R P) :
    (m.poses = [] → m.localPoses = [] → m.visuals = [] → m.lights = [] →
      ∀ service topic scene, (Load m service topic scene).Valid) ∧
    (m.Valid → ∀ req subscribeOk, (Request meshOk m req subscribeOk).Valid) ∧
    (m.Valid → ∀ msg, (OnPoseVMsg m msg).Valid) ∧
    (m.Valid → (Update m).Valid) := by
  refine ⟨fun h1 h2 h3 h4 service topic scene => ?_, fun h req sub => ?_,
    fun h msg => OnPoseVMsg_valid m msg h, Update_valid m⟩
  · simp [Valid, Load, h1, h2, h3, h4, StdMap.WF]
  · unfold Request
    split
    · have := LoadScene_valid meshOk m req.res h
      split
      · exact this
      · exact this
    · exact h

end SceneManager

/-! ## Screenshot plugin -/

namespace Screenshot

/-- C11: `ScreenshotService` returns true, sets the response data to true and sets the
dirty flag; the directory becomes the message data when that is a non-empty string and
stays as it is for an empty string; nothing else changes. -/
theorem ScreenshotService_marks_request (s : Screenshot) (data : String) :
    (s.ScreenshotService data).2.2 = true ∧
    (s.ScreenshotService data).2.1 = true ∧
    (s.ScreenshotService data).1.dirty = true ∧
    (s.ScreenshotService data).1.directory = (if data.isEmpty then s.directory else data) ∧
    ((s.ScreenshotService data).1.directory = data ↔
      (data.isEmpty = false ∨ s.directory = data)) ∧
    (s.ScreenshotService data).1.userCamera = s.userCamera ∧
    (s.ScreenshotService data).1.saved = s.saved := by
  unfold ScreenshotService
  cases h : data.isEmpty <;> simp [h]

end Screenshot

namespace Screenshot

theorem ScreenshotService_marks_request_aux (s : Screenshot) (data : String) :
    (s.ScreenshotService data).1.dirty = true ∧
    (s.ScreenshotService data).1.userCamera = s.userCamera ∧
    (s.ScreenshotService data).1.saved = s.saved := by
  unfold ScreenshotService
  cases h : data.isEmpty <;> simp [h]

/-- The camera that `FindUserCamera` ends with depends on the cached camera and on the
collaborators only. -/
theorem FindUserCamera_camera (s t : Screenshot) (env : ScreenshotEnv)
    (h : s.userCamera = t.userCamera) :
    (s.FindUserCamera env).userCamera = (t.FindUserCamera env).userCamera := by
  unfold FindUserCamera
  rw [h]
  repeat' split
  all_goals first | rfl | exact h

end Screenshot

namespace Screenshot

theorem FindUserCamera_fields (s : Screenshot) (env : ScreenshotEnv) :
    (s.FindUserCamera env).dirty = s.dirty ∧ (s.FindUserCamera env).saved = s.saved ∧
    (s.FindUserCamera env).directory = s.directory := by
  unfold FindUserCamera
  repeat' split
  all_goals exact ⟨rfl, rfl, rfl⟩

theorem FindUserCamera_cached (s : Screenshot) (env : ScreenshotEnv) (cam : Nat)
    (h : s.userCamera = some cam) : s.FindUserCamera env = s := by
  unfold FindUserCamera
  simp [h]

/-- Requests only set the dirty flag and the directory. -/
theorem run_requests (reqs : List ScreenshotEvent) :
    ∀ s : Screenshot, (∀ r ∈ reqs, r.isRequest = true) →
      (s.run reqs).userCamera = s.userCamera ∧ (s.run reqs).saved = s.saved ∧
      (reqs ≠ [] → (s.run reqs).dirty = true) := by
  induction reqs with
  | nil => intro s _; exact ⟨rfl, rfl, fun h => absurd rfl h⟩
  | cons r rest ih =>
    intro s hr
    have hrest : ∀ x ∈ rest, x.isRequest = true := fun x hx => hr x (List.mem_cons_of_mem _ hx)
    have hr0 := hr r (List.mem_cons_self _ _)
    obtain ⟨i1, i2, i3⟩ := ih (s.step r) hrest
    have hstep : (s.step r).userCamera = s.userCamera ∧ (s.step r).saved = s.saved ∧
        (s.step r).dirty = true := by
      cases r with
      | OnScreenshot => exact ⟨rfl, rfl, rfl⟩
      | ScreenshotService data =>
        have := ScreenshotService_marks_request_aux s data
        exact ⟨this.2.1, this.2.2, this.1⟩
      | event type env => simp [ScreenshotEvent.isRequest] at hr0
    simp only [run, List.foldl_cons] at i1 i2 i3 ⊢
    refine ⟨i1.trans hstep.1, i2.trans hstep.2.1, fun _ => ?_⟩
    by_cases hn : rest = []
    · subst hn; exact hstep.2.2
    · exact i3 hn

/-- Once the flag is clear, events that pass the event filter save nothing. -/
theorem run_events_clean (evs : List (QEventType × ScreenshotEnv)) :
    ∀ s : Screenshot, s.dirty = false →
      s.run (evs.map (fun e => ScreenshotEvent.event e.1 e.2)) = s := by
  induction evs with
  | nil => intro s _; rfl
  | cons e rest ih =>
    intro s hs
    simp only [List.map_cons, run, List.foldl_cons, step, eventFilter, hs, Bool.false_eq_true,
      and_false, if_false]
    exact ih s hs

/-- C12: `eventFilter` is `SaveScreenshot` exactly for a render event with the flag set
and changes nothing otherwise; a `SaveScreenshot` that has a user camera clears the
flag; after one or more requests, when the first render event finds the camera `cam`,
exactly one image is saved, at that render event, and the events after it save nothing
and leave the flag clear. -/
theorem one_image_per_request (s : Screenshot) :
    (∀ type env, (type = QEventType.Render ∧ s.dirty = true) →
      s.eventFilter type env = s.SaveScreenshot env) ∧
    (∀ type env, ¬ (type = QEventType.Render ∧ s.dirty = true) →
      s.eventFilter type env = s) ∧
    (∀ env cam, (s.FindUserCamera env).userCamera = some cam →
      (s.SaveScreenshot env).dirty = false ∧
      (s.SaveScreenshot env).saved = s.saved ++
        [{ path := env.joinPaths s.directory (env.systemTimeISO ++ ".png"),
           image := env.capture cam }]) ∧
    (∀ (reqs : List ScreenshotEvent) (env : ScreenshotEnv)
        (later : List (QEventType × ScreenshotEnv)) (cam : Nat),
      reqs ≠ [] → (∀ r ∈ reqs, r.isRequest = true) →
      (s.FindUserCamera env).userCamera = some cam →
      (s.run (reqs ++ ScreenshotEvent.event QEventType.Render env ::
          later.map (fun e => ScreenshotEvent.event e.1 e.2))).saved
        = s.saved ++ [{ path := env.joinPaths (s.run reqs).directory
                          (env.systemTimeISO ++ ".png"),
                        image := env.capture cam }] ∧
      (s.run (reqs ++ ScreenshotEvent.event QEventType.Render env ::
          later.map (fun e => ScreenshotEvent.event e.1 e.2))).dirty = false) := by
  have hsave : ∀ (t : Screenshot) env cam, (t.FindUserCamera env).userCamera = some cam →
      (t.SaveScreenshot env).dirty = false ∧
      (t.SaveScreenshot env).saved = t.saved ++
        [{ path := env.joinPaths t.directory (env.systemTimeISO ++ ".png"),
           image := env.capture cam }] := by
    intro t env cam h
    obtain ⟨_, f2, f3⟩ := FindUserCamera_fields t env
    simp [SaveScreenshot, h, f2, f3]
  refine ⟨fun type env h => by simp [eventFilter, h], fun type env h => by simp [eventFilter, h],
    hsave s, fun reqs env later cam hne hreq hcam => ?_⟩
  obtain ⟨r1, r2, r3⟩ := run_requests reqs s hreq
  have hcam2 : ((s.run reqs).FindUserCamera env).userCamera = some cam := by
    have e1 := FindUserCamera_camera s (s.run reqs) env r1.symm
    rw [← e1]; exact hcam
  obtain ⟨d1, d2⟩ := hsave (s.run reqs) env cam hcam2
  have hstep : (s.run reqs).step (ScreenshotEvent.event QEventType.Render env)
      = (s.run reqs).SaveScreenshot env := by
    simp [step, eventFilter, r3 hne]
  have hrun : s.run (reqs ++ ScreenshotEvent.event QEventType.Render env ::
      later.map (fun e => ScreenshotEvent.event e.1 e.2))
      = (s.run reqs).SaveScreenshot env := by
    simp only [run, List.foldl_append, List.foldl_cons]
    have := run_events_clean later ((s.run reqs).SaveScreenshot env) d1
    simp only [run] at this hstep
    rw [hstep]
    exact this
  rw [hrun, d2, r2]
  exact ⟨rfl, d1⟩

end Screenshot

namespace Screenshot

theorem firstCamera_eq_none (nodes : List rendering.SceneNode) :
    firstCamera nodes = none ↔ ∀ x ∈ nodes, x = rendering.SceneNode.other := by
  induction nodes with
  | nil => simp [firstCamera]
  | cons x rest ih =>
    cases x with
    | camera ptr name => simp [firstCamera]
    | other => simp [firstCamera, ih]

theorem firstCamera_split (pre post : List rendering.SceneNode) (ptr : Nat) (name : String)
    (h : ∀ x ∈ pre, x = rendering.SceneNode.other) :
    firstCamera (pre ++ rendering.SceneNode.camera ptr name :: post) = some ptr := by
  induction pre with
  | nil => rfl
  | cons x rest ih =>
    have hx := h x (List.mem_cons_self _ _)
    subst hx
    simp only [List.cons_append, firstCamera]
    exact ih (fun y hy => h y (List.mem_cons_of_mem _ hy))

theorem SaveScreenshot_no_camera (s : Screenshot) (env : ScreenshotEnv)
    (h : s.FindUserCamera env = s) (hc : s.userCamera = none) : s.SaveScreenshot env = s := by
  simp [SaveScreenshot, h, hc]

/-- C13: with no cached camera, when no engine is loaded, the first engine is null or has
no scene, its first scene is null, not initialised or without root visual, or has no
camera node, `SaveScreenshot` changes nothing: no image is saved and the dirty flag
stays as it is, so the next render event calls `SaveScreenshot` again; a cached camera
is never searched again; the camera found is the first camera node, by node index, of
the first scene of the first loaded engine. -/
theorem camera_search (s : Screenshot) (env : ScreenshotEnv) :
    (s.userCamera = none → env.loadedEngines = [] → s.SaveScreenshot env = s) ∧
    (s.userCamera = none → ∀ n rest, env.loadedEngines = n :: rest →
      (env.engine n = none → s.SaveScreenshot env = s) ∧
      (∀ e, env.engine n = some e →
        (e.scenes = [] → s.SaveScreenshot env = s) ∧
        (∀ rest2, e.scenes = none :: rest2 → s.SaveScreenshot env = s) ∧
        (∀ sc rest2, e.scenes = some sc :: rest2 →
          (sc.IsInitialized = false → s.SaveScreenshot env = s) ∧
          (sc.hasRootVisual = false → s.SaveScreenshot env = s) ∧
          ((∀ x ∈ sc.nodes, x = rendering.SceneNode.other) → s.SaveScreenshot env = s) ∧
          (sc.IsInitialized = true → sc.hasRootVisual = true →
            ∀ pre ptr name post, sc.nodes = pre ++ rendering.SceneNode.camera ptr name :: post →
              (∀ x ∈ pre, x = rendering.SceneNode.other) →
              (s.FindUserCamera env).userCamera = some ptr)))) ∧
    (s.SaveScreenshot env = s → s.dirty = true → ∀ env2,
      (s.eventFilter QEventType.Render env).eventFilter QEventType.Render env2
        = s.SaveScreenshot env2) ∧
    (∀ cam, s.userCamera = some cam → s.FindUserCamera env = s) := by
  refine ⟨fun hc he => ?_, fun hc n rest he => ⟨fun hn => ?_, fun e hn => ⟨fun hs => ?_,
    fun rest2 hs => ?_, fun sc rest2 hs => ⟨fun hi => ?_, fun hr => ?_, fun hx => ?_,
      fun hi hr pre ptr name post hnodes hpre => ?_⟩⟩⟩, fun hsame hd env2 => ?_,
    fun cam hc => FindUserCamera_cached s env cam hc⟩
  · exact SaveScreenshot_no_camera s env (by simp [FindUserCamera, hc, he]) hc
  · exact SaveScreenshot_no_camera s env (by simp [FindUserCamera, hc, he, hn]) hc
  · exact SaveScreenshot_no_camera s env (by simp [FindUserCamera, hc, he, hn, hs]) hc
  · exact SaveScreenshot_no_camera s env (by simp [FindUserCamera, hc, he, hn, hs]) hc
  · exact SaveScreenshot_no_camera s env (by simp [FindUserCamera, hc, he, hn, hs, hi]) hc
  · exact SaveScreenshot_no_camera s env (by simp [FindUserCamera, hc, he, hn, hs, hr]) hc
  · have := (firstCamera_eq_none sc.nodes).2 hx
    exact SaveScreenshot_no_camera s env (by simp [FindUserCamera, hc, he, hn, hs, this]) hc
  · have := firstCamera_split pre post ptr name hpre
    rw [← hnodes] at this
    simp [FindUserCamera, hc, he, hn, hs, hi, hr, this]
  · have h1 : s.eventFilter QEventType.Render env = s := by
      simp [eventFilter, hd, hsame]
    rw [h1]
    simp [eventFilter, hd]

end Screenshot

theorem Screenshot.one_image_per_request_witness :
    (Example.shot.run
      ([ScreenshotEvent.OnScreenshot, ScreenshotEvent.ScreenshotService "/tmp"] ++
        ScreenshotEvent.event QEventType.Render Example.shotEnv ::
        [(QEventType.Render, Example.shotEnv), (QEventType.other, Example.shotEnv)].map
          (fun e => ScreenshotEvent.event e.1 e.2))).saved
      = [{ path := "/tmp/2021-01-01T00:00:00.png",
           image := { width := 640, height := 480, format := "R8G8B8", data := [7] } }] :=
  ((Screenshot.one_image_per_request Example.shot).2.2.2
    [ScreenshotEvent.OnScreenshot, ScreenshotEvent.ScreenshotService "/tmp"] Example.shotEnv
    [(QEventType.Render, Example.shotEnv), (QEventType.other, Example.shotEnv)] 7
    (List.cons_ne_nil _ _) (by simp [ScreenshotEvent.isRequest]) rfl).1

theorem Screenshot.camera_search_witness :
    (Example.shot.OnScreenshot.SaveScreenshot Example.shotEnvNoEngine
      = Example.shot.OnScreenshot) ∧
    (Example.shot.FindUserCamera Example.shotEnv).userCamera = some 7 ∧
    ((Example.shot.FindUserCamera Example.shotEnv).FindUserCamera Example.shotEnvNoEngine
      = Example.shot.FindUserCamera Example.shotEnv) :=
  ⟨(Screenshot.camera_search Example.shot.OnScreenshot Example.shotEnvNoEngine).1 rfl rfl,
   ((((Screenshot.camera_search Example.shot Example.shotEnv).2.1 rfl "ogre" [] rfl).2
      { scenes := [some Example.shotScene] } rfl).2.2
      Example.shotScene [] rfl).2.2.2 rfl rfl [rendering.SceneNode.other] 7 "user_camera"
      [rendering.SceneNode.camera 9 "second"] rfl (by simp),
   (Screenshot.camera_search (Example.shot.FindUserCamera Example.shotEnv)
      Example.shotEnvNoEngine).2.2.2 7 rfl⟩

/-! ## SceneManager: materials and geometry scale -/

namespace SceneManager
variable {R P : Type}

theorem modifyAt_append_last {α : Type} (l : List α) (a : α) (f : α → α) :
    rendering.Scene.modifyAt (l ++ [a]) l.length f = l ++ [f a] := by
  simp [rendering.Scene.modifyAt]

/-- The components of the material that `LoadMaterial` returns, for every message: the
ambient and emissive colours are those of the message; the diffuse colour is the
specular colour of the message when that is present, and the diffuse colour of the
message otherwise; the specular colour is never set. -/
theorem LoadMaterial_components (m : SceneManager R P) (msg : msgs.Material R) :
    (LoadMaterial m msg).1 = m.scene.materials.length ∧
    (LoadMaterial m msg).2.scene.materials = m.scene.materials ++
      [{ name := none, ambient := msg.ambient,
         diffuse := (match msg.specular with
                     | some c => some c
                     | none => msg.diffuse),
         specular := none, emissive := msg.emissive, transparency := none }] := by
  refine ⟨rfl, ?_⟩
  unfold LoadMaterial
  cases msg.ambient <;> cases msg.diffuse <;> cases msg.specular <;> cases msg.emissive <;>
    simp [rendering.Scene.CreateMaterial, rendering.Scene.modifyMaterial, modifyAt_append_last]

/-- C14 (evaluation at the failing input): for the message with ambient red, diffuse
green and specular blue, the material that `LoadMaterial` returns has ambient red,
diffuse blue and no specular colour set: the specular colour of the message went to the
diffuse component. -/
theorem LoadMaterial_specular_slip :
    ((LoadMaterial Example.manager Example.material).2.scene.materials[
        (LoadMaterial Example.manager Example.material).1]?).map
      (fun x => (x.ambient, x.diffuse, x.specular, x.emissive))
      = some (some ⟨1, 0, 0, 1⟩, some ⟨0, 0, 1, 1⟩, none, none) ∧
    Example.material.specular = some ⟨0, 0, 1, 1⟩ ∧
    Example.material.diffuse = some ⟨0, 1, 0, 1⟩ := by
  decide

/-- C15: the output scale of `LoadGeometry`: a box gives its size, or (1, 1, 1) without
size; otherwise a cylinder gives (2r, 2r, l); otherwise a plane gives (sx, sy, 1), or
(1, 1, 1) without size; otherwise a sphere gives (2r, 2r, 2r); otherwise a mesh with a
non-empty file name gives (1, 1, 1). -/
theorem LoadGeometry_scale [IgnMath R P] (meshOk : String → Bool) (m : SceneManager R P)
    (msg : msgs.Geometry R) (s0 : Vector3 R) (p0 : P) :
    (∀ b, msg.box = some b →
      (∀ sz, b.size = some sz → (LoadGeometry meshOk m msg s0 p0).2.1 = sz) ∧
      (b.size = none → (LoadGeometry meshOk m msg s0 p0).2.1 = Vector3.One R P)) ∧
    (msg.box = none → ∀ c, msg.cylinder = some c →
      (LoadGeometry meshOk m msg s0 p0).2.1
        = ⟨IgnMath.mul P c.radius (IgnMath.lit P 2 0),
           IgnMath.mul P c.radius (IgnMath.lit P 2 0), c.length⟩) ∧
    (msg.box = none → msg.cylinder = none → ∀ pl, msg.plane = some pl →
      (∀ sz, pl.size = some sz →
        (LoadGeometry meshOk m msg s0 p0).2.1 = ⟨sz.x, sz.y, IgnMath.lit P 1 0⟩) ∧
      (pl.size = none → (LoadGeometry meshOk m msg s0 p0).2.1 = Vector3.One R P)) ∧
    (msg.box = none → msg.cylinder = none → msg.plane = none → ∀ sp, msg.sphere = some sp →
      (LoadGeometry meshOk m msg s0 p0).2.1
        = ⟨IgnMath.mul P sp.radius (IgnMath.lit P 2 0),
           IgnMath.mul P sp.radius (IgnMath.lit P 2 0),
           IgnMath.mul P sp.radius (IgnMath.lit P 2 0)⟩) ∧
    (msg.box = none → msg.cylinder = none → msg.plane = none → msg.sphere = none →
      ∀ me, msg.mesh = some me → me.filename.isEmpty = false →
        (LoadGeometry meshOk m msg s0 p0).2.1 = Vector3.One R P) := by
  refine ⟨fun b hb => ⟨fun sz hsz => ?_, fun hsz => ?_⟩, fun h1 c hc => ?_,
    fun h1 h2 pl hp => ⟨fun sz hsz => ?_, fun hsz => ?_⟩, fun h1 h2 h3 sp hs => ?_,
    fun h1 h2 h3 h4 me hm hf => ?_⟩
  · simp [LoadGeometry, hb, hsz]
  · simp [LoadGeometry, hb, hsz]
  · simp [LoadGeometry, h1, hc]
  · simp [LoadGeometry, h1, h2, hp, hsz, Vector3.One]
  · simp [LoadGeometry, h1, h2, hp, hsz]
  · simp [LoadGeometry, h1, h2, h3, hs]
  · simp only [LoadGeometry, h1, h2, h3, h4, hm, hf]
    cases meshOk me.filename <;> simp

end SceneManager

theorem SceneManager.LoadGeometry_scale_witness :
    (SceneManager.LoadGeometry (fun _ => true) Example.manager Example.cylinderAndSphere
      ⟨1, 1, 1⟩ 0).2.1 = ⟨6, 6, 5⟩ ∧
    (SceneManager.LoadGeometry (fun _ => true) Example.manager Example.box
      ⟨9, 9, 9⟩ 0).2.1 = ⟨1, 1, 1⟩ :=
  ⟨(SceneManager.LoadGeometry_scale (fun _ => true) Example.manager
      Example.cylinderAndSphere ⟨1, 1, 1⟩ 0).2.1 rfl ⟨3, 5⟩ rfl,
   ((SceneManager.LoadGeometry_scale (fun _ => true) Example.manager
      Example.box ⟨9, 9, 9⟩ 0).1 ⟨none⟩ rfl).2 rfl⟩

/-! ## IgnRenderer: texture size -/

namespace IgnRenderer
variable {R P : Type}

/-- The texture part of `Render`, for every size with a non-zero height: on a dirty
texture the camera gets the width, the height and the truncated integer quotient
`width / height` as aspect ratio, `textureId` is refreshed and the flag is cleared; on
a clean texture nothing of this changes. -/
theorem Render_texture (r : IgnRenderer R P) (env : RenderEnv R P) (c : rendering.Camera P)
    (hc : r.camera = some c) (hh : r.textureSize.ht ≠ 0) :
    ∃ r2, r.Render env = some r2 ∧ r2.textureSize = r.textureSize ∧ r2.textureDirty = false ∧
      (r.textureDirty = true →
        r2.textureId = env.glId ∧
        (r.mouseDirty = false →
          r2.camera = some { c with imageWidth := some r.textureSize.wd,
                                    imageHeight := some r.textureSize.ht,
                                    aspectRatio := some (Int.tdiv r.textureSize.wd r.textureSize.ht),
                                    renderTextureGLId := env.glId })) ∧
      (r.textureDirty = false →
        r2.textureId = r.textureId ∧ (r.mouseDirty = false → r2.camera = some c)) := by
  unfold Render
  rw [hc]
  cases hd : r.textureDirty <;> cases hm : r.mouseDirty <;>
    simp [hh, HandleMouseEvent, hm, hd, hc]

/-- C17 (evaluation at the failing input): for a dirty texture of size 800 x 600, `Render`
sets the image width 800 and the image height 600, refreshes `textureId` and clears the
flag, but the aspect ratio it passes is the integer quotient 800 / 600 = 1, not 4/3. -/
theorem Render_aspect_ratio_truncated :
    ((Example.resized.Render Example.envNextTexture).map (fun r =>
        (r.camera.map (fun c => (c.imageWidth, c.imageHeight, c.aspectRatio)),
         r.textureId, r.textureDirty)))
      = some (some (some 800, some 600, some 1), 8, false) ∧
    Int.tdiv 800 600 = 1 ∧ (1 : Int) * 3 ≠ 4 := by
  decide

end IgnRenderer

namespace QReal

theorem toInt_max1 (q : QReal) : 1 ≤ q.max1.toInt := by
  unfold max1 toInt
  split
  · decide
  · rename_i h
    have hden : (0 : Int) < (q.den : Int) + 1 := by omega
    have hnum : (q.den : Int) + 1 ≤ q.num := by omega
    rw [Int.tdiv_eq_ediv (by omega) (by omega)]
    exact Int.le_ediv_of_mul_le hden (by omega)

end QReal

namespace RenderWindowItem
variable {R P : Type}

/-- The part of the texture-size handling that holds: `Ready` stores a size of at least
1 x 1, and `SizeChanged` changes nothing when the width or the height of the item is not
positive. -/
theorem Ready_clamps (s : RenderWindowItem R P) (t : RenderThread R P) (w h : QReal) :
    1 ≤ s.Ready.renderThread.ignRenderer.textureSize.wd ∧
    1 ≤ s.Ready.renderThread.ignRenderer.textureSize.ht ∧
    (w.num ≤ 0 ∨ h.num ≤ 0 → t.SizeChanged w h = t) := by
  refine ⟨QReal.toInt_max1 _, QReal.toInt_max1 _, fun hle => ?_⟩
  unfold RenderThread.SizeChanged QReal.le0
  rcases hle with hle | hle <;> simp [hle]

/-- C18 (evaluation at the failing input): after `Ready` and a first frame, a resize of the
item to 0.5 x 0.5 passes the guard of `SizeChanged` and stores the texture size 0 x 0
with the dirty flag set; the next `RenderNext` divides by the height 0. -/
theorem SizeChanged_stores_zero :
    (run 0 ⟨0, 0⟩ (ctor Example.renderer ⟨640, 0⟩ ⟨480, 0⟩)
      Example.shrink).renderThread.ignRenderer.textureSize = ⟨0, 0⟩ ∧
    (run 0 ⟨0, 0⟩ (ctor Example.renderer ⟨640, 0⟩ ⟨480, 0⟩)
      Example.shrink).renderThread.ignRenderer.textureDirty = true ∧
    (run 0 ⟨0, 0⟩ (ctor Example.renderer ⟨640, 0⟩ ⟨480, 0⟩)
      Example.shrink).renderThread.ignRenderer.initialized = true ∧
    ((run 0 ⟨0, 0⟩ (ctor Example.renderer ⟨640, 0⟩ ⟨480, 0⟩)
      Example.shrink).renderThread.RenderNext Example.env).isNone = true ∧
    (QReal.le0 ⟨1, 1⟩ = false ∧ QReal.toInt ⟨1, 1⟩ = 0) := by
  decide

end RenderWindowItem

/-! ## SceneManager: loading and updating agree on the pose of a visual -/

namespace rendering.Scene
variable {R P : Type}

theorem visualLocalPose_modifyVisual (sc : Scene R P) (h : Nat) (f : Visual R P → Visual R P)
    (hf : ∀ v, (f v).localPose = v.localPose) (i : Nat) :
    (sc.modifyVisual h f).visualLocalPose i = sc.visualLocalPose i := by
  simp only [visualLocalPose, modifyVisual, getElem?_modifyAt]
  by_cases hi : i = h
  · subst hi
    cases sc.visuals[i]? <;> simp [hf]
  · simp [hi]

end rendering.Scene

namespace SceneManager
variable {R P : Type}

/-- The outputs of `LoadGeometry` (whether a geometry is returned, the scale and the
local pose) do not depend on the state of the scene manager. -/
theorem LoadGeometry_outputs [IgnMath R P] (meshOk : String → Bool) (m n : SceneManager R P)
    (g : msgs.Geometry R) (s : Vector3 R) (p : P) :
    (LoadGeometry meshOk m g s p).1.isSome = (LoadGeometry meshOk n g s p).1.isSome ∧
    (LoadGeometry meshOk m g s p).2.1 = (LoadGeometry meshOk n g s p).2.1 ∧
    (LoadGeometry meshOk m g s p).2.2.1 = (LoadGeometry meshOk n g s p).2.2.1 := by
  unfold LoadGeometry
  cases g.box <;> cases g.cylinder <;> cases g.plane <;> cases g.sphere <;> cases g.mesh <;>
    simp only [Option.isSome_some, Option.isSome_none, and_self]
  split
  · simp
  · split <;> simp

theorem LoadGeometry_visuals [IgnMath R P] (meshOk : String → Bool) (m : SceneManager R P)
    (g : msgs.Geometry R) (s : Vector3 R) (p : P) :
    (LoadGeometry meshOk m g s p).2.2.2.scene.visuals = m.scene.visuals := by
  unfold LoadGeometry
  repeat' split
  all_goals rfl

theorem LoadMaterial_visuals (m : SceneManager R P) (x : msgs.Material R) :
    (LoadMaterial m x).2.scene.visuals = m.scene.visuals := by
  unfold LoadMaterial
  cases x.ambient <;> cases x.diffuse <;> cases x.specular <;> cases x.emissive <;> rfl

theorem defaultMaterial_visuals [IgnMath R P] (sc : rendering.Scene R P) :
    (defaultMaterial sc).2.visuals = sc.visuals := by
  unfold defaultMaterial
  split <;> rfl

theorem LoadVisual.material_visuals [IgnMath R P] (m : SceneManager R P)
    (v : msgs.Visual R P) (g : Nat) :
    (LoadVisual.material m v g).scene.visuals = m.scene.visuals := by
  unfold LoadVisual.material
  cases v.material with
  | none => exact defaultMaterial_visuals m.scene
  | some mat => exact LoadMaterial_visuals m mat

theorem visualLocalPose_congr (a b : rendering.Scene R P) (h : a.visuals = b.visuals) (i : Nat) :
    a.visualLocalPose i = b.visualLocalPose i := by
  simp only [rendering.Scene.visualLocalPose, h]

/-- The local pose that `LoadVisual.finish` leaves on the visual `h` of the store. -/
theorem LoadVisual.finish_pose [IgnMath R P] (m : SceneManager R P) (v : msgs.Visual R P)
    (h : Nat) (geom : Option Nat) (scale : Vector3 R) (lp : P)
    (hh : h < m.scene.visuals.length) :
    (LoadVisual.finish m v h geom scale lp).2.scene.visualLocalPose h =
      some (match v.pose with
            | some p => IgnMath.poseMul R p lp
            | none => lp) := by
  have hset : ∀ q : P, (m.scene.SetVisualLocalPose h q).visualLocalPose h = some q := by
    intro q
    rw [rendering.Scene.visualLocalPose_SetVisualLocalPose]
    simp [hh]
  unfold LoadVisual.finish
  cases geom with
  | none => cases v.pose <;> exact hset _
  | some g =>
    simp only
    rw [visualLocalPose_congr _ _ (LoadVisual.material_visuals _ v g)]
    simp only
    refine (rendering.Scene.visualLocalPose_modifyVisual _ h _ ?_ h).trans ?_
    · intro x; rfl
    refine (rendering.Scene.visualLocalPose_modifyVisual _ h _ ?_ h).trans ?_
    · intro x; rfl
    cases v.pose <;> exact hset _


theorem OnPoseVMsg_scene [IgnMath R P] (m : SceneManager R P) (msg : msgs.Pose_V P) :
    (OnPoseVMsg m msg).scene = m.scene :=
  foldl_invariant OnPoseVMsg.body (fun s => s.scene = m.scene) (fun _ _ h => h) msg.pose m rfl

/-- In a state that satisfies the representation invariant, `Update` gives the pending
pose of an id to the visual registered under the id. -/
theorem Update_visual_pose (m : SceneManager R P) (hm : m.Valid) (id : Nat) (p : P) (h : Nat)
    (hp : (id, p) ∈ m.poses) (hh : StdMap.find m.visuals id = some h) :
    (Update m).scene.visualLocalPose h = some p := by
  obtain ⟨hwp, _, _, _, hnv, _, hrv, _⟩ := hm
  have hmem := StdMap.mem_of_find hh
  exact foldl_observe_set Update.body (fun s => s.scene.visualLocalPose h) Prod.snd
    (fun e => StdMap.find m.visuals e.1 = some h ∧ h < m.scene.visuals.length)
    (Update.Inv m) (Update.visual_step m h) (id, p) ⟨hh, hrv _ hmem⟩ m.poses m
    (Update.inv_refl m) hp
    (fun e he ht => by
      have hk : e.1 = id := StdMap.key_unique_of_handle hnv (StdMap.mem_of_find ht.1) hmem
      have he2 : (id, e.2) ∈ m.poses := by rw [← hk]; exact he
      exact StdMap.value_unique_of_WF hwp he2 hp)

/-- A pose `Q` received for an id with the stored local pose `L` reaches the visual
registered under the id as `Q * L`. -/
theorem pose_message_reaches_visual [IgnMath R P] (m : SceneManager R P) (hm : m.Valid)
    (id h : Nat) (L Q : P) (hv : StdMap.find m.visuals id = some h)
    (hl : StdMap.find m.localPoses id = some L) (msg : msgs.Pose_V P)
    (pre post : List (msgs.Pose P)) (hmsg : msg.pose = pre ++ ⟨id, Q⟩ :: post)
    (hpost : ∀ x ∈ post, x.id ≠ id) :
    (Update (OnPoseVMsg m msg)).scene.visualLocalPose h = some (IgnMath.poseMul R Q L) := by
  have hI : OnPoseVMsg.Inv m m := ⟨rfl, rfl, rfl, rfl, rfl, rfl⟩
  have hinv := foldl_invariant OnPoseVMsg.body (OnPoseVMsg.Inv m)
    (fun s e h => (OnPoseVMsg.step m 0 s e h).1) msg.pose m hI
  have hfind : StdMap.find (OnPoseVMsg m msg).poses id
      = some (OnPoseVMsg.stored m ⟨id, Q⟩) := by
    unfold OnPoseVMsg
    rw [hmsg]
    exact foldl_observe_last OnPoseVMsg.body (fun s => StdMap.find s.poses id)
      (OnPoseVMsg.stored m) (fun x => x.id = id) (OnPoseVMsg.Inv m)
      (OnPoseVMsg.step m id) pre ⟨id, Q⟩ post m hI rfl hpost
  have hstored : OnPoseVMsg.stored m ⟨id, Q⟩ = IgnMath.poseMul R Q L := by
    simp only [OnPoseVMsg.stored, hl]
  rw [hstored] at hfind
  have hv2 : StdMap.find (OnPoseVMsg m msg).visuals id = some h := by
    have : (OnPoseVMsg m msg).visuals = m.visuals := hinv.1
    rw [this]; exact hv
  exact Update_visual_pose _ (OnPoseVMsg_valid m msg hm) id _ h (StdMap.mem_of_find hfind) hv2

end SceneManager

namespace SceneManager
variable {R P : Type}

theorem LoadVisual_unfold [IgnMath R P] (meshOk : String → Bool) (m : SceneManager R P)
    (v : msgs.Visual R P) (g : msgs.Geometry R) (hg : v.geometry = some g) :
    LoadVisual meshOk m v =
      LoadVisual.finish
        (LoadGeometry meshOk (registerVisual m v.id none) g (Vector3.One R P)
          (IgnMath.poseCtor R)).2.2.2 v m.scene.visuals.length
        (LoadGeometry meshOk (registerVisual m v.id none) g (Vector3.One R P)
          (IgnMath.poseCtor R)).1
        (LoadGeometry meshOk (registerVisual m v.id none) g (Vector3.One R P)
          (IgnMath.poseCtor R)).2.1
        (LoadGeometry meshOk (registerVisual m v.id none) g (Vector3.One R P)
          (IgnMath.poseCtor R)).2.2.1 := by
  unfold LoadVisual
  rw [hg]
  rfl

theorem LoadVisual.finish_handle [IgnMath R P] (m : SceneManager R P) (v : msgs.Visual R P)
    (h : Nat) (geom : Option Nat) (scale : Vector3 R) (lp : P) :
    (LoadVisual.finish m v h geom scale lp).1 = some h := by
  unfold LoadVisual.finish
  cases geom <;> rfl

/-- What `LoadVisual` leaves behind for a visual whose geometry loads: the visual is
registered under its id with the next handle of the store, its geometry local pose is
stored under the id, and its local pose is the pose of the message times the geometry
local pose (the geometry local pose itself without a pose in the message). -/
theorem LoadVisual_result [IgnMath R P] (meshOk : String → Bool) (m : SceneManager R P)
    (v : msgs.Visual R P) (g : msgs.Geometry R) (hg : v.geometry = some g)
    (hload : (LoadGeometry meshOk m g (Vector3.One R P) (IgnMath.poseCtor R)).1.isSome = true) :
    (LoadVisual meshOk m v).1 = some m.scene.visuals.length ∧
    StdMap.find (LoadVisual meshOk m v).2.visuals v.id = some m.scene.visuals.length ∧
    StdMap.find (LoadVisual meshOk m v).2.localPoses v.id
      = some (LoadGeometry meshOk m g (Vector3.One R P) (IgnMath.poseCtor R)).2.2.1 ∧
    (LoadVisual meshOk m v).2.scene.visualLocalPose m.scene.visuals.length
      = some (match v.pose with
              | some p => IgnMath.poseMul R p
                  (LoadGeometry meshOk m g (Vector3.One R P) (IgnMath.poseCtor R)).2.2.1
              | none => (LoadGeometry meshOk m g (Vector3.One R P) (IgnMath.poseCtor R)).2.2.1) := by
  obtain ⟨o1, _, o3⟩ := LoadGeometry_outputs meshOk (registerVisual m v.id none) m g
    (Vector3.One R P) (IgnMath.poseCtor R)
  have hvis := LoadGeometry_visuals meshOk (registerVisual m v.id none) g
    (Vector3.One R P) (IgnMath.poseCtor R)
  have hd := fields_of_data (LoadGeometry_data meshOk (registerVisual m v.id none) g
    (Vector3.One R P) (IgnMath.poseCtor R))
  rw [LoadVisual_unfold meshOk m v g hg]
  generalize LoadGeometry meshOk (registerVisual m v.id none) g (Vector3.One R P)
    (IgnMath.poseCtor R) = r at o1 o3 hvis hd ⊢
  rw [← o3]
  rw [hload] at o1
  obtain ⟨f1, _, _, _, _, _, f7⟩ :=
    LoadVisual.finish_fields r.2.2.2 v m.scene.visuals.length r.1 r.2.1 r.2.2.1
  have hlen : m.scene.visuals.length < r.2.2.2.scene.visuals.length := by
    rw [hvis]
    simp [registerVisual, rendering.Scene.CreateVisual]
  refine ⟨LoadVisual.finish_handle _ _ _ _ _ _, ?_, ?_,
    LoadVisual.finish_pose r.2.2.2 v m.scene.visuals.length r.1 r.2.1 r.2.2.1 hlen⟩
  · rw [f1, hd.2.2.2.2.1]
    simp [registerVisual, rendering.Scene.CreateVisual, StdMap.find_assign]
  · rw [f7]
    cases hr : r.1 with
    | none => rw [hr] at o1; cases o1
    | some gh => simp [StdMap.find_assign]

/-- C19: for a visual message whose geometry loads, with `L` the local pose that
`LoadGeometry` computes for it, a pose `Q` received for the id of the visual (in any
later state in which the id still names this visual and its stored local pose, and in
particular right after loading) is applied by `OnPoseVMsg` and `Update` as `Q * L`,
which is the local pose that `LoadVisual` sets when the message carries the pose `Q`. -/
theorem load_and_update_agree [IgnMath R P] (meshOk : String → Bool) (m : SceneManager R P)
    (hm : m.Valid) (v : msgs.Visual R P) (g : msgs.Geometry R) (hg : v.geometry = some g)
    (hload : (LoadGeometry meshOk m g (Vector3.One R P) (IgnMath.poseCtor R)).1.isSome = true)
    (Q : P) (msg : msgs.Pose_V P) (pre post : List (msgs.Pose P))
    (hmsg : msg.pose = pre ++ ⟨v.id, Q⟩ :: post) (hpost : ∀ x ∈ post, x.id ≠ v.id) :
    (LoadVisual meshOk m v).1 = some m.scene.visuals.length ∧
    (Update (OnPoseVMsg (LoadVisual meshOk m v).2 msg)).scene.visualLocalPose
        m.scene.visuals.length
      = some (IgnMath.poseMul R Q
          (LoadGeometry meshOk m g (Vector3.One R P) (IgnMath.poseCtor R)).2.2.1) ∧
    (∀ n : SceneManager R P, n.Valid →
      StdMap.find n.visuals v.id = some m.scene.visuals.length →
      StdMap.find n.localPoses v.id
        = some (LoadGeometry meshOk m g (Vector3.One R P) (IgnMath.poseCtor R)).2.2.1 →
      (Update (OnPoseVMsg n msg)).scene.visualLocalPose m.scene.visuals.length
        = some (IgnMath.poseMul R Q
            (LoadGeometry meshOk m g (Vector3.One R P) (IgnMath.poseCtor R)).2.2.1)) ∧
    (LoadVisual meshOk m { v with pose := some Q }).2.scene.visualLocalPose
        m.scene.visuals.length
      = some (IgnMath.poseMul R Q
          (LoadGeometry meshOk m g (Vector3.One R P) (IgnMath.poseCtor R)).2.2.1) := by
  obtain ⟨r1, r2, r3, _⟩ := LoadVisual_result meshOk m v g hg hload
  have r4 := (LoadVisual_result meshOk m { v with pose := some Q } g hg hload).2.2.2
  exact ⟨r1,
    pose_message_reaches_visual _ (LoadVisual_valid meshOk m v hm) v.id _ _ Q r2 r3 msg pre
      post hmsg hpost,
    fun n hn hv hl => pose_message_reaches_visual n hn v.id _ _ Q hv hl msg pre post hmsg hpost,
    r4⟩

end SceneManager

theorem SceneManager.load_and_update_agree_witness :
    (SceneManager.Update (SceneManager.OnPoseVMsg
      (SceneManager.LoadVisual (fun _ => true) Example.manager
        (Example.visual 3 (some Example.plane))).2 Example.poseMsg)).scene.visualLocalPose 0
      = some 5 ∧
    (SceneManager.LoadVisual (fun _ => true) Example.manager
      { Example.visual 3 (some Example.plane) with pose := some 4 }).2.scene.visualLocalPose 0
      = some 5 :=
  ⟨(SceneManager.load_and_update_agree (fun _ => true) Example.manager (by decide)
      (Example.visual 3 (some Example.plane)) Example.plane rfl rfl 4 Example.poseMsg
      [⟨3, 1⟩, ⟨7, 2⟩] [] rfl (by simp)).2.1,
   (SceneManager.load_and_update_agree (fun _ => true) Example.manager (by decide)
      (Example.visual 3 (some Example.plane)) Example.plane rfl rfl 4 Example.poseMsg
      [⟨3, 1⟩, ⟨7, 2⟩] [] rfl (by simp)).2.2.2⟩

/-! ## Grid plugin -/

namespace GridPlugin
variable {R P : Type}

/-- The `GridInfo` that the configuration block computes: every field is read from its
own child element only. -/
theorem Initialize.config_fields [IgnMath R P] (rd : TextReaders R P) (e : XMLElement)
    (hp : e.FirstChildElement "pose" ≠ some none)
    (hc : e.FirstChildElement "color" ≠ some none) :
    Initialize.config rd (some e) = some
      { cellCount := (match e.FirstChildElement "cell_count" with
          | some text => rd.QueryIntText text 20
          | none => 20),
        vertCellCount := (match e.FirstChildElement "vertical_cell_count" with
          | some text => rd.QueryIntText text 0
          | none => 0),
        cellLength := (match e.FirstChildElement "cell_length" with
          | some text => rd.QueryDoubleText text (IgnMath.lit P 10 1)
          | none => IgnMath.lit P 10 1),
        pose := (match e.FirstChildElement "pose" with
          | some (some text) => rd.poseFromStream text (IgnMath.poseZero R)
          | _ => IgnMath.poseZero R),
        color := (match e.FirstChildElement "color" with
          | some (some text) => rd.colorFromStream text (GridInfo.default R P).color
          | _ => (GridInfo.default R P).color) } := by
  have text_cases : ∀ x : Option (Option String), x ≠ some none →
      x = none ∨ ∃ t, x = some (some t) := by
    intro x hx
    cases x with
    | none => exact Or.inl rfl
    | some o =>
      cases o with
      | none => exact absurd rfl hx
      | some t => exact Or.inr ⟨t, rfl⟩
  unfold Initialize.config
  rcases text_cases _ hp with h4 | ⟨t4, h4⟩ <;> rcases text_cases _ hc with h5 | ⟨t5, h5⟩ <;>
    simp only [h4, h5] <;>
    cases e.FirstChildElement "cell_count" <;>
    cases e.FirstChildElement "vertical_cell_count" <;>
    cases e.FirstChildElement "cell_length" <;>
    simp [GridInfo.default]

/-- C16: for a null plugin element `Initialize` creates the grid with cell count 20,
vertical cell count 0, cell length 1.0, the zero pose and the ambient colour
(0.7, 0.7, 0.7, 1.0); for an element whose `pose` and `color` children, when present,
have a text, each of the five settings is the default when its child is absent and
the value read from its own child when the child is present and parses, whatever the
other children are; the title becomes "3D Grid" exactly when it was empty. -/
theorem Initialize_settings [IgnMath R P] (p : GridPlugin R P) (rd : TextReaders R P) :
    p.Initialize rd none = some
      { title := (if p.title.isEmpty then "3D Grid" else p.title),
        grid := some { cellCount := 20, verticalCellCount := 0,
                       cellLength := IgnMath.lit P 10 1 },
        visualLocalPose := some (IgnMath.poseZero R),
        visualHasGrid := true,
        visualMaterialAmbient := some ⟨IgnMath.lit P 7 1, IgnMath.lit P 7 1,
          IgnMath.lit P 7 1, IgnMath.lit P 10 1⟩ } ∧
    (∀ e : XMLElement, e.FirstChildElement "pose" ≠ some none →
      e.FirstChildElement "color" ≠ some none →
      ∃ q gr, p.Initialize rd (some e) = some q ∧ q.grid = some gr ∧
        q.title = (if p.title.isEmpty then "3D Grid" else p.title) ∧
        (e.FirstChildElement "cell_count" = none → gr.cellCount = 20) ∧
        (∀ t n, e.FirstChildElement "cell_count" = some (some t) → rd.toInt t = some n →
          gr.cellCount = n) ∧
        (e.FirstChildElement "vertical_cell_count" = none → gr.verticalCellCount = 0) ∧
        (∀ t n, e.FirstChildElement "vertical_cell_count" = some (some t) →
          rd.toInt t = some n → gr.verticalCellCount = n) ∧
        (e.FirstChildElement "cell_length" = none → gr.cellLength = IgnMath.lit P 10 1) ∧
        (∀ t x, e.FirstChildElement "cell_length" = some (some t) → rd.toDouble t = some x →
          gr.cellLength = x) ∧
        (e.FirstChildElement "pose" = none → q.visualLocalPose = some (IgnMath.poseZero R)) ∧
        (∀ t, e.FirstChildElement "pose" = some (some t) →
          q.visualLocalPose = some (rd.poseFromStream t (IgnMath.poseZero R))) ∧
        (e.FirstChildElement "color" = none →
          q.visualMaterialAmbient = some (GridInfo.default R P).color) ∧
        (∀ t, e.FirstChildElement "color" = some (some t) →
          q.visualMaterialAmbient
            = some (rd.colorFromStream t (GridInfo.default R P).color))) := by
  constructor
  · unfold Initialize
    cases p.title.isEmpty <;> simp [Initialize.config, GridInfo.default]
  · intro e hp hc
    have hcfg := Initialize.config_fields rd e hp hc
    unfold Initialize
    rw [hcfg]
    refine ⟨_, _, rfl, rfl, ?_, ?_, ?_, ?_, ?_, ?_, ?_, ?_, ?_, ?_, ?_⟩
    · cases p.title.isEmpty <;> simp
    · intro h; simp [h]
    · intro t n h hn; simp [h, TextReaders.QueryIntText, hn]
    · intro h; simp [h]
    · intro t n h hn; simp [h, TextReaders.QueryIntText, hn]
    · intro h; simp [h]
    · intro t x h hx; simp [h, TextReaders.QueryDoubleText, hx]
    · intro h; simp [h]
    · intro t h; simp [h]
    · intro h; simp [h]
    · intro t h; simp [h]

end GridPlugin

theorem GridPlugin.Initialize_settings_witness :
    ((Example.gridPlugin.Initialize Example.readers (some Example.gridElem)).bind
      (fun q => q.grid)).map (fun g => (g.cellCount, g.verticalCellCount, g.cellLength))
      = some (50, 0, 10) ∧
    ((Example.gridPlugin.Initialize Example.readers (some Example.gridElem)).bind
      (fun q => q.visualLocalPose)) = some 11 ∧
    ((Example.gridPlugin.Initialize Example.readers (some Example.gridElem)).bind
      (fun q => q.grid)).map (fun g => g.cellCount) = some 50 :=
  ⟨by decide, by decide,
   match (GridPlugin.Initialize_settings Example.gridPlugin Example.readers).2 Example.gridElem
      (by decide) (by decide) with
   | ⟨q, gr, h1, h2, _, _, h5, _⟩ => by
     rw [h1]
     simp [h2, h5 "50" 50 (by decide) (by decide)]⟩

/-! ## CollapsibleWidget -/

namespace CollapsibleWidget

/-- C20 as stated fails: a widget without content whose `index` property is 0 gets the
top margin 16 from `Toggle(true)`, not 0. -/
theorem Toggle_first_without_content :
    ((ctor "grid").setIndex 0).index = some 0 ∧
    (((ctor "grid").setIndex 0).Toggle true).margins.top = 16 ∧
    ¬ (∀ w : CollapsibleWidget, w.index = some 0 → (w.Toggle true).margins.top = 0) := by
  refine ⟨rfl, rfl, fun h => ?_⟩
  have := h ((ctor "grid").setIndex 0) rfl
  revert this
  decide

/-- C20 (amended): `Toggle(true)` sets the top margin 0 for a widget that has content and
whose `index` property is 0, and 16 for every other widget (without content, `index`
not set, or `index` not 0); the bottom margin is 16 with content and 0 without; the
left and right margins are 0; `Toggle(false)` sets all four margins to 0; after
`Toggle(c)`, `IsExpanded` is `c`; a new widget is not expanded. -/
theorem Toggle_margins (w : CollapsibleWidget) :
    (0 < w.contentCount → w.index = some 0 → (w.Toggle true).margins.top = 0) ∧
    (w.contentCount = 0 → (w.Toggle true).margins.top = 16) ∧
    (w.index = none → (w.Toggle true).margins.top = 16) ∧
    (∀ n, w.index = some n → n ≠ 0 → (w.Toggle true).margins.top = 16) ∧
    (0 < w.contentCount → (w.Toggle true).margins.bottom = 16) ∧
    (w.contentCount = 0 → (w.Toggle true).margins.bottom = 0) ∧
    (w.Toggle true).margins.left = 0 ∧ (w.Toggle true).margins.right = 0 ∧
    (w.Toggle false).margins = ⟨0, 0, 0, 0⟩ ∧
    (∀ c, (w.Toggle c).IsExpanded = c) ∧
    (∀ key, (ctor key).IsExpanded = false) := by
  refine ⟨fun hc hi => ?_, fun hc => ?_, fun hi => ?_, fun n hi hn => ?_, fun hc => ?_,
    fun hc => ?_, rfl, rfl, rfl, fun c => ?_, fun _ => rfl⟩
  · simp [Toggle, ContentCount, hc, hi]
  · simp [Toggle, ContentCount, hc]
  · simp [Toggle, ContentCount, hi]
  · simp [Toggle, ContentCount, hi, hn]
  · simp [Toggle, ContentCount, hc]
  · simp [Toggle, ContentCount, hc]
  · cases c <;> rfl

end CollapsibleWidget

theorem CollapsibleWidget.Toggle_margins_witness :
    ((((CollapsibleWidget.ctor "grid").AppendContent.setIndex 0).Toggle true).margins.top = 0) ∧
    (((CollapsibleWidget.ctor "grid").AppendContent.setIndex 2).Toggle true).margins.top = 16 ∧
    (((CollapsibleWidget.ctor "grid").AppendContent.setIndex 0).Toggle true).margins.bottom
      = 16 ∧
    (((CollapsibleWidget.ctor "grid").setIndex 0).Toggle true).margins.bottom = 0 :=
  ⟨(CollapsibleWidget.Toggle_margins ((CollapsibleWidget.ctor "grid").AppendContent.setIndex 0)).1
      (by decide) rfl,
   (CollapsibleWidget.Toggle_margins
      ((CollapsibleWidget.ctor "grid").AppendContent.setIndex 2)).2.2.2.1 2 rfl (by decide),
   (CollapsibleWidget.Toggle_margins
      ((CollapsibleWidget.ctor "grid").AppendContent.setIndex 0)).2.2.2.2.1 (by decide),
   (CollapsibleWidget.Toggle_margins
      ((CollapsibleWidget.ctor "grid").setIndex 0)).2.2.2.2.2.1 rfl⟩

end Ignition.Gui
